import Mathlib

/-!
# Half-edge triangle mesh: construction, chirality repair and reductions

A shallow embedding of `pybug/shape/mesh/cpp/triangle.cpp` (with the
conventions of `mesh.h`).  C++ objects live in a store: a pointer is a
natural number (a handle), `NULL` is `none`, and every class has one
store component in `Mesh`.  A `std::set` of pointers is a strictly
increasing list (it is iterated in ascending pointer order).  `unsigned`
arithmetic is arithmetic modulo `2 ^ 32`.  Raw `double*` arguments are
functions from offsets to scalars: the code does no bounds checking.
-/

namespace Pybug

/-! ## Data model -/

/-- Modulus of the C++ type `unsigned`. -/
def UNSIGNED_MOD : Nat := 2 ^ 32

/-- A `Halfedge` object: the `MeshAttribute` id, the vertices `v0_` (origin),
`v1_` (destination), `v2_` (opposite corner), the owning triangle and the
paired half-edge (`none` is `NULL`). -/
structure Halfedge where
  id : Nat
  v0 : Nat
  v1 : Nat
  v2 : Nat
  triangle : Nat
  paired_he : Option Nat
deriving DecidableEq, Repr, Inhabited

/-- A `Triangle` object: the `MeshAttribute` id, `v0_ v1_ v2_` and
`e0_ e1_ e2_`. -/
structure Triangle where
  id : Nat
  v0 : Nat
  v1 : Nat
  v2 : Nat
  e0 : Nat
  e1 : Nat
  e2 : Nat
deriving DecidableEq, Repr, Inhabited

/-- A `Vertex` object: the `MeshAttribute` id and its three sets (incident
triangles, adjacent vertices, outgoing half-edges). -/
structure Vertex where
  id : Nat
  tris : List Nat
  vertices : List Nat
  halfedges : List Nat
deriving DecidableEq, Repr, Inhabited

/-- The lines the code writes to `std::cout`. -/
inductive Diagnostic where
  | over_determined (tri : Nat) (edge : Nat)
  | resolving_chirality (tri : Nat)
  | vertex_error (tri : Nat)
deriving DecidableEq, Repr

/-- The object store: one component per class, the number of `Halfedge`
objects allocated so far (the next `new Halfedge` gets this handle), and
the output written so far. -/
structure Mesh where
  triangles : Nat → Triangle
  halfedges : Nat → Halfedge
  vertices : Nat → Vertex
  n_halfedges : Nat
  diagnostics : List Diagnostic

/-- Insertion into a `std::set` of pointers, kept in ascending order. -/
def set_insert (a : Nat) : List Nat → List Nat
  | [] => [a]
  | x :: xs =>
    if a < x then a :: x :: xs
    else if a = x then x :: xs
    else x :: set_insert a xs

/-- Insertion of a possibly-`NULL` pointer into a set from which `NULL` is
erased before the set is read: a `NULL` leaves no trace. -/
def set_insert_ptr : Option Nat → List Nat → List Nat
  | none, s => s
  | some a, s => set_insert a s

namespace Mesh

/-- Store update of one triangle. -/
def setTriangle (m : Mesh) (t : Nat) (x : Triangle) : Mesh :=
  { m with triangles := Function.update m.triangles t x }

/-- Store update of one half-edge. -/
def setHalfedge (m : Mesh) (h : Nat) (x : Halfedge) : Mesh :=
  { m with halfedges := Function.update m.halfedges h x }

/-- Store update of one vertex. -/
def setVertex (m : Mesh) (v : Nat) (x : Vertex) : Mesh :=
  { m with vertices := Function.update m.vertices v x }

/-- One line written to `std::cout`. -/
def report (m : Mesh) (d : Diagnostic) : Mesh :=
  { m with diagnostics := m.diagnostics ++ [d] }

end Mesh

/-! ## Halfedge and Vertex (declared in `halfedge.h`, `vertex.h`) -/

/-- Modelled from the spec: `Halfedge::flip` (halfedge.cpp is absent) swaps
this half-edge's origin and destination.  The renumbering of the local ids
is done by `Triangle::recursiveFlip` itself (lines 206-208). -/
def Halfedge_flip (m : Mesh) (h : Nat) : Mesh :=
  let x := m.halfedges h
  m.setHalfedge h { x with v0 := x.v1, v1 := x.v0 }

/-- Modelled from the spec: `Halfedge::paired_he` reads the paired half-edge,
`none` on a boundary. -/
def Halfedge_paired_he (m : Mesh) (h : Nat) : Option Nat :=
  (m.halfedges h).paired_he

/-- Modelled from the spec: `Halfedge::set_paired_he` is the plain setter of
the paired half-edge reference. -/
def Halfedge_set_paired_he (m : Mesh) (h : Nat) (p : Option Nat) : Mesh :=
  m.setHalfedge h { m.halfedges h with paired_he := p }

/-- Modelled from the spec: `Halfedge::paired_tri` is the neighbour across
this edge (the owner of the paired half-edge), `none` on a boundary. -/
def Halfedge_paired_tri (m : Mesh) (h : Nat) : Option Nat :=
  (m.halfedges h).paired_he.map (fun p => (m.halfedges p).triangle)

/-- The setter `MeshAttribute::set_id` on a half-edge (mesh.h line 95). -/
def Halfedge_set_id (m : Mesh) (h : Nat) (id : Nat) : Mesh :=
  m.setHalfedge h { m.halfedges h with id := id }

/-- Modelled from the spec: `Vertex::halfedge_to_vertex(other)` returns the
outgoing half-edge to `other` if one exists (the first one in the vertex's
set of outgoing half-edges), else none. -/
def Vertex_halfedge_to_vertex (m : Mesh) (v other : Nat) : Option Nat :=
  (m.vertices v).halfedges.find? (fun h => (m.halfedges h).v1 = other)

/-- Modelled from the spec: `Vertex::add_tri` registers an incident
triangle. -/
def Vertex_add_tri (m : Mesh) (v t : Nat) : Mesh :=
  let x := m.vertices v
  m.setVertex v { x with tris := set_insert t x.tris }

/-- Modelled from the spec: `Vertex::add_vertex` registers an adjacent
vertex. -/
def Vertex_add_vertex (m : Mesh) (v w : Nat) : Mesh :=
  let x := m.vertices v
  m.setVertex v { x with vertices := set_insert w x.vertices }

/-- Modelled from the spec: `Vertex::add_halfedge` registers an outgoing
half-edge. -/
def Vertex_add_halfedge (m : Mesh) (v h : Nat) : Mesh :=
  let x := m.vertices v
  m.setVertex v { x with halfedges := set_insert h x.halfedges }

/-- Modelled from the spec: `Vertex::legal_attachment_to_tri(tri)` is true
iff this vertex's incident-triangle set contains `tri`. -/
def Vertex_legal_attachment_to_tri (m : Mesh) (v t : Nat) : Bool :=
  decide (t ∈ (m.vertices v).tris)

/-- Modelled from the spec: the constructor `Halfedge::Halfedge(mesh, v0, v1,
v2, triangle, id)` (halfedge.cpp is absent).  It allocates the object,
stores its arguments and wires the new half-edge to the existing half-edge
that `pairing` finds between the two vertices, in both directions of the
link.  Which half-edge the constructor looks up is its own business, so the
lookup is the parameter `pairing`; the result is the new store and the new
object's handle. -/
def Halfedge_new (pairing : Mesh → Nat → Nat → Option Nat) (m : Mesh)
    (v0 v1 v2 triangle id : Nat) : Mesh × Nat :=
  let p := m.n_halfedges
  let partner := pairing m v0 v1
  let m := { m with n_halfedges := p + 1 }
  let m := m.setHalfedge p
    { id := id, v0 := v0, v1 := v1, v2 := v2, triangle := triangle, paired_he := partner }
  match partner with
  | none => (m, p)
  | some q => (Halfedge_set_paired_he m q (some p), p)

/-- Modelled from the spec: the lookup of the data model, "the
opposite-direction half-edge on an adjacent triangle": the half-edge
running from `v1` to `v0`. -/
def opposite_pairing (m : Mesh) (v0 v1 : Nat) : Option Nat :=
  Vertex_halfedge_to_vertex m v1 v0

/-- Modelled from the spec: the lookup of the repair procedure, whose bad
edges have a "would-be pairing" to detach: the opposite-direction half-edge
when there is one, else the half-edge running the same way. -/
def either_pairing (m : Mesh) (v0 v1 : Nat) : Option Nat :=
  match Vertex_halfedge_to_vertex m v1 v0 with
  | some q => some q
  | none => Vertex_halfedge_to_vertex m v0 v1

/-! ## Triangle (triangle.cpp) -/

/-- The accessor `Triangle::t0` (lines 159-161). -/
def Triangle_t0 (m : Mesh) (self : Nat) : Option Nat :=
  Halfedge_paired_tri m (m.triangles self).e0

/-- The accessor `Triangle::t1` (lines 163-165). -/
def Triangle_t1 (m : Mesh) (self : Nat) : Option Nat :=
  Halfedge_paired_tri m (m.triangles self).e1

/-- The accessor `Triangle::t2` (lines 167-169). -/
def Triangle_t2 (m : Mesh) (self : Nat) : Option Nat :=
  Halfedge_paired_tri m (m.triangles self).e2

/-- The set built by `Triangle::adjacent_triangles` (lines 171-178): `t0()`,
`t1()`, `t2()` inserted in this order, `NULL` erased. -/
def adjacent_triangles (m : Mesh) (self : Nat) : List Nat :=
  let triangles : List Nat := []
  let triangles := set_insert_ptr (Triangle_t0 m self) triangles
  let triangles := set_insert_ptr (Triangle_t1 m self) triangles
  let triangles := set_insert_ptr (Triangle_t2 m self) triangles
  triangles

/-- The three `Halfedge::flip` calls of `Triangle::recursiveFlip` (lines
193-195). -/
def flip_halfedges (m : Mesh) (self : Nat) : Mesh :=
  let m := Halfedge_flip m (m.triangles self).e0
  let m := Halfedge_flip m (m.triangles self).e1
  let m := Halfedge_flip m (m.triangles self).e2
  m

/-- The swap of `v0_` and `v1_` in `Triangle::recursiveFlip` (lines 199-201). -/
def swap_v0_v1 (m : Mesh) (self : Nat) : Mesh :=
  let v0_temp := (m.triangles self).v0
  let m := m.setTriangle self { m.triangles self with v0 := (m.triangles self).v1 }
  let m := m.setTriangle self { m.triangles self with v1 := v0_temp }
  m

/-- The swap of `e1_` and `e2_` in `Triangle::recursiveFlip` (lines 203-205). -/
def swap_e1_e2 (m : Mesh) (self : Nat) : Mesh :=
  let e1_temp := (m.triangles self).e1
  let m := m.setTriangle self { m.triangles self with e1 := (m.triangles self).e2 }
  let m := m.setTriangle self { m.triangles self with e2 := e1_temp }
  m

/-- The two `set_id` calls of `Triangle::recursiveFlip` (lines 207-208), in
`unsigned` arithmetic; the second reads the id the first has just written. -/
def update_ids (m : Mesh) (self : Nat) : Mesh :=
  let m := Halfedge_set_id m (m.triangles self).e1
    (((m.halfedges (m.triangles self).e1).id + 1) % UNSIGNED_MOD)
  let m := Halfedge_set_id m (m.triangles self).e2
    (((m.halfedges (m.triangles self).e1).id + UNSIGNED_MOD - 1) % UNSIGNED_MOD)
  m

/-- The straight-line part of `Triangle::recursiveFlip` (lines 193-208): the
three `Halfedge::flip` calls, the swap of `v0_` and `v1_`, the swap of `e1_`
and `e2_`, and the two `set_id` calls on the new `e1_` and `e2_`. -/
def flip_self (m : Mesh) (self : Nat) : Mesh :=
  let m := flip_halfedges m self
  let m := swap_v0_v1 m self
  let m := swap_e1_e2 m self
  let m := update_ids m self
  m

/-- The loop of `Triangle::recursiveFlip` (lines 212-215) over the adjacent
triangles, with the recursive call passed as `call`; the state is the store
and the visited set. -/
def flip_loop (call : Mesh → List Nat → Nat → Option (Mesh × List Nat)) :
    List Nat → Mesh → List Nat → Option (Mesh × List Nat)
  | [], m, visited_tris => some (m, visited_tris)
  | it :: rest, m, visited_tris =>
    if it ∈ visited_tris then flip_loop call rest m visited_tris
    else
      match call m visited_tris it with
      | none => none
      | some (m1, visited1) => flip_loop call rest m1 visited1

/-- The method `Triangle::recursiveFlip` (lines 189-216).  The fuel bounds
the depth of the recursion; `none` means the fuel ran out. -/
def recursiveFlip : Nat → Mesh → List Nat → Nat → Option (Mesh × List Nat)
  | 0, _, _, _ => none
  | fuel + 1, m, visited_tris, self =>
    let visited_tris := set_insert self visited_tris
    let m := flip_self m self
    let adjacent_tris := adjacent_triangles m self
    flip_loop (recursiveFlip fuel) adjacent_tris m visited_tris

/-- The method `Triangle::flipContiguousRegion` (lines 180-187). -/
def flipContiguousRegion (fuel : Nat) (m : Mesh) (self : Nat) : Option Mesh :=
  let visited_tris : List Nat := []
  let visited_tris := set_insert self visited_tris
  (recursiveFlip fuel m visited_tris self).map (fun r => r.1)

/-- The method `Triangle::createHalfedge` (lines 105-115); `pairing` is
the lookup of the absent `Halfedge` constructor. -/
def createHalfedge (pairing : Mesh → Nat → Nat → Option Nat) (m : Mesh)
    (self v0 v1 v2 halfedge_id : Nat) : Mesh × Nat :=
  let m := Vertex_add_tri m v0 self
  let m := Vertex_add_vertex m v0 v1
  let m := Vertex_add_vertex m v1 v0
  let (m, halfedge) := Halfedge_new pairing m v0 v1 v2 self halfedge_id
  let m := Vertex_add_halfedge m v0 halfedge
  (m, halfedge)

/-- The detaching part of `Triangle::resolveChirality` (lines 137-146). -/
def detach_bad (m : Mesh) (self : Nat) (e0_bad e1_bad e2_bad : Bool) : Mesh :=
  let m := if e0_bad then Halfedge_set_paired_he m (m.triangles self).e0 none else m
  let m := if e1_bad then Halfedge_set_paired_he m (m.triangles self).e1 none else m
  let m := if e2_bad then Halfedge_set_paired_he m (m.triangles self).e2 none else m
  m

/-- The method `Triangle::resolveChirality` (lines 117-157).  The locals
`h0 h1 h2` are read only under the flag that wrote them. -/
def resolveChirality (fuel : Nat) (m : Mesh) (self : Nat) (e0_bad e1_bad e2_bad : Bool) :
    Option Mesh :=
  let m := m.report (Diagnostic.resolving_chirality self)
  let orig_e0 := (m.triangles self).e0
  let orig_e1 := (m.triangles self).e1
  let orig_e2 := (m.triangles self).e2
  let h0 := Halfedge_paired_he m (m.triangles self).e0
  let m := if e0_bad then Halfedge_set_paired_he m (m.triangles self).e0 none else m
  let h1 := Halfedge_paired_he m (m.triangles self).e1
  let m := if e1_bad then Halfedge_set_paired_he m (m.triangles self).e1 none else m
  let h2 := Halfedge_paired_he m (m.triangles self).e2
  let m := if e2_bad then Halfedge_set_paired_he m (m.triangles self).e2 none else m
  match flipContiguousRegion fuel m self with
  | none => none
  | some m =>
    let m := if e0_bad then Halfedge_set_paired_he m orig_e0 h0 else m
    let m := if e1_bad then Halfedge_set_paired_he m orig_e1 h1 else m
    let m := if e2_bad then Halfedge_set_paired_he m orig_e2 h2 else m
    some m

/-- The flags computed by the constructor `Triangle::Triangle` before it
creates the half-edges (lines 15-36), with the over-determined reports. -/
def chirality_flags (m : Mesh) (self v0 v1 v2 : Nat) : Mesh × Bool × Bool × Bool :=
  let e0_flip := (Vertex_halfedge_to_vertex m v0 v1).isSome
  let e1_flip := (Vertex_halfedge_to_vertex m v1 v2).isSome
  let e2_flip := (Vertex_halfedge_to_vertex m v2 v0).isSome
  let over0 := e0_flip && (Vertex_halfedge_to_vertex m v1 v0).isSome
  let m := if over0 then m.report (Diagnostic.over_determined self 0) else m
  let e0_flip := if over0 then false else e0_flip
  let over1 := e1_flip && (Vertex_halfedge_to_vertex m v2 v1).isSome
  let m := if over1 then m.report (Diagnostic.over_determined self 1) else m
  let e1_flip := if over1 then false else e1_flip
  let over2 := e2_flip && (Vertex_halfedge_to_vertex m v0 v2).isSome
  let m := if over2 then m.report (Diagnostic.over_determined self 2) else m
  let e2_flip := if over2 then false else e2_flip
  (m, e0_flip, e1_flip, e2_flip)

/-- The three `createHalfedge` calls of the constructor (lines 39-41). -/
def create_halfedges (pairing : Mesh → Nat → Nat → Option Nat) (m : Mesh)
    (self : Nat) : Mesh :=
  let (m, e0) := createHalfedge pairing m self
    (m.triangles self).v0 (m.triangles self).v1 (m.triangles self).v2 0
  let m := m.setTriangle self { m.triangles self with e0 := e0 }
  let (m, e1) := createHalfedge pairing m self
    (m.triangles self).v1 (m.triangles self).v2 (m.triangles self).v0 1
  let m := m.setTriangle self { m.triangles self with e1 := e1 }
  let (m, e2) := createHalfedge pairing m self
    (m.triangles self).v2 (m.triangles self).v0 (m.triangles self).v1 2
  let m := m.setTriangle self { m.triangles self with e2 := e2 }
  m

/-- The final check of the constructor (lines 47-50): a report when one of
the three vertices is not legally attached to the triangle. -/
def check_attachment (m : Mesh) (self : Nat) : Mesh :=
  if !(Vertex_legal_attachment_to_tri m (m.triangles self).v0 self &&
       Vertex_legal_attachment_to_tri m (m.triangles self).v1 self &&
       Vertex_legal_attachment_to_tri m (m.triangles self).v2 self) then
    m.report (Diagnostic.vertex_error self)
  else m

/-- The constructor `Triangle::Triangle(mesh, tri_id, v0, v1, v2)` (lines
8-51) of the object with handle `self`. -/
def Triangle_new (pairing : Mesh → Nat → Nat → Option Nat) (fuel : Nat) (m : Mesh)
    (self tri_id v0 v1 v2 : Nat) : Option Mesh :=
  let m := m.setTriangle self
    { m.triangles self with id := tri_id, v0 := v0, v1 := v1, v2 := v2 }
  let (m, e0_flip, e1_flip, e2_flip) := chirality_flags m self
    (m.triangles self).v0 (m.triangles self).v1 (m.triangles self).v2
  let m := create_halfedges pairing m self
  let repaired :=
    if e0_flip || e0_flip || e0_flip then resolveChirality fuel m self e0_flip e1_flip e2_flip
    else some m
  match repaired with
  | none => none
  | some m => some (check_attachment m self)

/-- The method `Triangle::reduce_scalar_to_vertices` (lines 218-223) on the
two raw arrays; the result is the new `vertex_scalar`. -/
def reduce_scalar_to_vertices {α : Type} [Add α] (m : Mesh) (self : Nat)
    (triangle_scalar : Nat → α) (vertex_scalar : Nat → α) : Nat → α :=
  let get_id := (m.triangles self).id
  let id_of := fun v => (m.vertices v).id
  let vertex_scalar := Function.update vertex_scalar (id_of (m.triangles self).v0)
    (vertex_scalar (id_of (m.triangles self).v0) + triangle_scalar get_id)
  let vertex_scalar := Function.update vertex_scalar (id_of (m.triangles self).v1)
    (vertex_scalar (id_of (m.triangles self).v1) + triangle_scalar ((get_id + 1) % UNSIGNED_MOD))
  let vertex_scalar := Function.update vertex_scalar (id_of (m.triangles self).v2)
    (vertex_scalar (id_of (m.triangles self).v2) + triangle_scalar ((get_id + 2) % UNSIGNED_MOD))
  vertex_scalar

/-- The method `Triangle::reduce_scalar_per_vertex_to_vertices` (lines
225-230) on the two raw arrays; the result is the new `vertex_scalar`. -/
def reduce_scalar_per_vertex_to_vertices {α : Type} [Add α] (m : Mesh) (self : Nat)
    (triangle_scalar_per_vertex : Nat → α) (vertex_scalar : Nat → α) : Nat → α :=
  let get_id := (m.triangles self).id
  let id_of := fun v => (m.vertices v).id
  let vertex_scalar := Function.update vertex_scalar (id_of (m.triangles self).v0)
    (vertex_scalar (id_of (m.triangles self).v0) +
      triangle_scalar_per_vertex ((get_id * 3) % UNSIGNED_MOD))
  let vertex_scalar := Function.update vertex_scalar (id_of (m.triangles self).v1)
    (vertex_scalar (id_of (m.triangles self).v1) +
      triangle_scalar_per_vertex (((get_id * 3) % UNSIGNED_MOD + 1) % UNSIGNED_MOD))
  let vertex_scalar := Function.update vertex_scalar (id_of (m.triangles self).v2)
    (vertex_scalar (id_of (m.triangles self).v2) +
      triangle_scalar_per_vertex (((get_id * 3) % UNSIGNED_MOD + 2) % UNSIGNED_MOD))
  vertex_scalar

/-- Modelled from the spec: `Mesh::reduce_tri_scalar_to_vertices` (mesh.cpp is
absent) runs the per-triangle reduction once for each triangle of the mesh,
in storage order. -/
def reduce_tri_scalar_to_vertices {α : Type} [Add α] (m : Mesh) (triangles : List Nat)
    (triangle_scalar : Nat → α) (vertex_scalar : Nat → α) : Nat → α :=
  triangles.foldl (fun acc t => reduce_scalar_to_vertices m t triangle_scalar acc) vertex_scalar

/-! ## Concrete meshes -/

/-- A store with no triangle and no half-edge; vertex `v` has id `v`. -/
def empty_mesh : Mesh :=
  { triangles := fun _ => default, halfedges := fun _ => default,
    vertices := fun v => { id := v, tris := [], vertices := [], halfedges := [] },
    n_halfedges := 0, diagnostics := [] }

/-- Construction of the triangles of an index list in input order, triangle
`i` getting handle `i` and id `i`. -/
def build_from (pairing : Mesh → Nat → Nat → Option Nat) (fuel : Nat) :
    Nat → List (Nat × Nat × Nat) → Mesh → Option Mesh
  | _, [], m => some m
  | i, (a, b, c) :: rest, m =>
    match Triangle_new pairing fuel m i i a b c with
    | none => none
    | some m1 => build_from pairing fuel (i + 1) rest m1

/-- Scenario A: the single triangle `(0,1,2)`. -/
def mesh_A : Option Mesh := build_from opposite_pairing 4 0 [(0, 1, 2)] empty_mesh

/-- Scenario B: `(0,1,2)` followed by the consistently wound `(1,3,2)`. -/
def mesh_B : Option Mesh := build_from opposite_pairing 4 0 [(0, 1, 2), (1, 3, 2)] empty_mesh

/-- Scenario B with the second triangle supplied as `(2,3,1)`. -/
def mesh_B_reversed : Option Mesh :=
  build_from opposite_pairing 4 0 [(0, 1, 2), (2, 3, 1)] empty_mesh

/-- An array of `n` entries all equal to `1`, followed in memory by `rest`. -/
def ones_then (n : Nat) (rest : Nat → Int) : Nat → Int :=
  fun i => if i < n then 1 else rest i


/-! ## Vocabulary of the statements -/

/-- A triangle record after one flip: `v0_`/`v1_` swapped, `e1_`/`e2_` swapped. -/
def swap_record (x : Triangle) : Triangle :=
  { x with v0 := x.v1, v1 := x.v0, e1 := x.e2, e2 := x.e1 }

/-- The three half-edge references of a triangle record. -/
def edges_of (x : Triangle) : List Nat := [x.e0, x.e1, x.e2]

/-- Origin and destination of a half-edge. -/
def direction (m : Mesh) (h : Nat) : Nat × Nat := ((m.halfedges h).v0, (m.halfedges h).v1)

/-- The store after the straight-line flip of each triangle of a list, in order. -/
def flip_list (m : Mesh) (l : List Nat) : Mesh := l.foldl flip_self m

/-- The loop of the flood fill on the adjacency relation alone: the triangles
flipped (in order) and the visited set. -/
def order_loop (call : List Nat → Nat → Option (List Nat × List Nat)) :
    List Nat → List Nat → Option (List Nat × List Nat)
  | [], visited => some ([], visited)
  | it :: rest, visited =>
    if it ∈ visited then order_loop call rest visited
    else
      match call visited it with
      | none => none
      | some (l1, visited1) =>
        match order_loop call rest visited1 with
        | none => none
        | some (l2, visited2) => some (l1 ++ l2, visited2)

/-- The flood fill on the adjacency relation alone: which triangles
`recursiveFlip` flips, in order, and the visited set it leaves. -/
def flip_order (adj : Nat → List Nat) : Nat → List Nat → Nat → Option (List Nat × List Nat)
  | 0, _, _ => none
  | fuel + 1, visited, t =>
    match order_loop (flip_order adj fuel) (adj t) (set_insert t visited) with
    | none => none
    | some (l, visited1) => some (t :: l, visited1)

/-- Reachability by repeatedly following `adjacent_triangles`. -/
def Reach (m : Mesh) (a b : Nat) : Prop :=
  Relation.ReflTransGen (fun x y => y ∈ adjacent_triangles m x) a b

/-- The number of triangle handles below `n` that are not in the visited set. -/
def unvisited (n : Nat) (visited : List Nat) : Nat :=
  ((Finset.range n).filter (fun x => x ∉ visited)).card

/-- Half-edge `e_k` of a triangle runs from `v_k` to `v_(k+1 mod 3)`. -/
def edge_invariant (m : Mesh) (t : Nat) : Prop :=
  direction m (m.triangles t).e0 = ((m.triangles t).v0, (m.triangles t).v1) ∧
  direction m (m.triangles t).e1 = ((m.triangles t).v1, (m.triangles t).v2) ∧
  direction m (m.triangles t).e2 = ((m.triangles t).v2, (m.triangles t).v0)

/-- The three half-edges of a triangle are three objects and each names
the triangle as its owner ("a directed edge owned by exactly one triangle"). -/
def owns_edges (m : Mesh) (t : Nat) : Prop :=
  (m.triangles t).e0 ≠ (m.triangles t).e1 ∧ (m.triangles t).e0 ≠ (m.triangles t).e2 ∧
  (m.triangles t).e1 ≠ (m.triangles t).e2 ∧
  ∀ e ∈ edges_of (m.triangles t), (m.halfedges e).triangle = t

/-! ## A non-manifold mesh with cyclic adjacency -/

/-- The half-edges of `book_mesh`: three triangles fanned around the edge
between vertices 1 and 2, their half-edges on that edge paired in a cycle
`1 → 3 → 6 → 1`. -/
def book_halfedges : Nat → Halfedge
  | 0 => { id := 0, v0 := 0, v1 := 1, v2 := 2, triangle := 0, paired_he := none }
  | 1 => { id := 1, v0 := 1, v1 := 2, v2 := 0, triangle := 0, paired_he := some 3 }
  | 2 => { id := 2, v0 := 2, v1 := 0, v2 := 1, triangle := 0, paired_he := none }
  | 3 => { id := 0, v0 := 2, v1 := 1, v2 := 3, triangle := 1, paired_he := some 6 }
  | 4 => { id := 1, v0 := 1, v1 := 3, v2 := 2, triangle := 1, paired_he := none }
  | 5 => { id := 2, v0 := 3, v1 := 2, v2 := 1, triangle := 1, paired_he := none }
  | 6 => { id := 0, v0 := 1, v1 := 2, v2 := 4, triangle := 2, paired_he := some 1 }
  | 7 => { id := 1, v0 := 2, v1 := 4, v2 := 1, triangle := 2, paired_he := none }
  | 8 => { id := 2, v0 := 4, v1 := 1, v2 := 2, triangle := 2, paired_he := none }
  | _ => default

/-- The triangles of `book_mesh`: `(0,1,2)`, `(2,1,3)` and `(1,2,4)`. -/
def book_triangles : Nat → Triangle
  | 0 => { id := 0, v0 := 0, v1 := 1, v2 := 2, e0 := 0, e1 := 1, e2 := 2 }
  | 1 => { id := 1, v0 := 2, v1 := 1, v2 := 3, e0 := 3, e1 := 4, e2 := 5 }
  | 2 => { id := 2, v0 := 1, v1 := 2, v2 := 4, e0 := 6, e1 := 7, e2 := 8 }
  | _ => default

/-- Three triangles fanned around one edge, with cyclic adjacency
`0 → 1 → 2 → 0`. -/
def book_mesh : Mesh :=
  { triangles := book_triangles, halfedges := book_halfedges,
    vertices := fun v => { id := v, tris := [], vertices := [], halfedges := [] },
    n_halfedges := 9, diagnostics := [] }

/-- A half-edge record with its pairing forgotten. -/
def unpaired (x : Halfedge) : Halfedge := { x with paired_he := none }

/-- Half-edge reference number `k` of a triangle record (`e2_` for `k ≥ 2`). -/
def edge_at (x : Triangle) : Nat → Nat
  | 0 => x.e0
  | 1 => x.e1
  | _ => x.e2

/-- Flag number `k` of the three flags of `resolveChirality`. -/
def flag_at (b0 b1 b2 : Bool) : Nat → Bool
  | 0 => b0
  | 1 => b1
  | _ => b2

/-- The re-attaching part of `Triangle::resolveChirality` (lines 151-156),
given the values saved before the flood fill. -/
def reattach_bad (m : Mesh) (orig_e0 orig_e1 orig_e2 : Nat) (h0 h1 h2 : Option Nat)
    (e0_bad e1_bad e2_bad : Bool) : Mesh :=
  let m := if e0_bad then Halfedge_set_paired_he m orig_e0 h0 else m
  let m := if e1_bad then Halfedge_set_paired_he m orig_e1 h1 else m
  let m := if e2_bad then Halfedge_set_paired_he m orig_e2 h2 else m
  m

/-! ## A clean conflict at the entry of the repair -/

/-- The half-edges of `conflict_mesh`: half-edge 3 of the new triangle runs
`1 → 2` like half-edge 1 of the old triangle, and the two are paired. -/
def conflict_halfedges : Nat → Halfedge
  | 0 => { id := 0, v0 := 0, v1 := 1, v2 := 2, triangle := 0, paired_he := none }
  | 1 => { id := 1, v0 := 1, v1 := 2, v2 := 0, triangle := 0, paired_he := some 3 }
  | 2 => { id := 2, v0 := 2, v1 := 0, v2 := 1, triangle := 0, paired_he := none }
  | 3 => { id := 0, v0 := 1, v1 := 2, v2 := 3, triangle := 1, paired_he := some 1 }
  | 4 => { id := 1, v0 := 2, v1 := 3, v2 := 1, triangle := 1, paired_he := none }
  | 5 => { id := 2, v0 := 3, v1 := 1, v2 := 2, triangle := 1, paired_he := none }
  | _ => default

/-- The triangles of `conflict_mesh`: `(0,1,2)` and the new `(1,2,3)`. -/
def conflict_triangles : Nat → Triangle
  | 0 => { id := 0, v0 := 0, v1 := 1, v2 := 2, e0 := 0, e1 := 1, e2 := 2 }
  | 1 => { id := 1, v0 := 1, v1 := 2, v2 := 3, e0 := 3, e1 := 4, e2 := 5 }
  | _ => default

/-- The vertices of `conflict_mesh`. -/
def conflict_vertices : Nat → Vertex
  | 0 => { id := 0, tris := [0], vertices := [1, 2], halfedges := [0] }
  | 1 => { id := 1, tris := [0, 1], vertices := [0, 2, 3], halfedges := [1, 3] }
  | 2 => { id := 2, tris := [0, 1], vertices := [0, 1, 3], halfedges := [2, 4] }
  | 3 => { id := 3, tris := [1], vertices := [1, 2], halfedges := [5] }
  | v => { id := v, tris := [], vertices := [], halfedges := [] }

/-- The state at the entry of `resolveChirality` for the triangle `(1,2,3)`
built after `(0,1,2)`, its first edge in clean conflict and wired to the
half-edge it conflicts with. -/
def conflict_mesh : Mesh :=
  { triangles := conflict_triangles, halfedges := conflict_halfedges,
    vertices := conflict_vertices, n_halfedges := 6, diagnostics := [] }

/-- The part of a store that is in use when it holds `nt` triangles, `nh`
half-edges and `nv` vertices. -/
def snapshot (m : Mesh) (nt nh nv : Nat) :
    List Triangle × List Halfedge × List Vertex × Nat × List Diagnostic :=
  ((List.range nt).map m.triangles, (List.range nh).map m.halfedges,
    (List.range nv).map m.vertices, m.n_halfedges, m.diagnostics)

/-- The state of the constructor of `(1,2,3)`, built after `(0,1,2)`, right
after its three `createHalfedge` calls, when the `Halfedge` constructor uses
`either_pairing`. -/
def conflict_entry : Option Mesh :=
  mesh_A.map (fun m =>
    create_halfedges either_pairing
      (chirality_flags
        (m.setTriangle 1 { m.triangles 1 with id := 1, v0 := 1, v1 := 2, v2 := 3 }) 1 1 2 3).1 1)

/-! ## Two triangles sharing a matched edge -/

/-- The half-edges of `matched_mesh`: half-edges 1 and 5 are the matched pair
on the edge between vertices 1 and 2. -/
def matched_halfedges : Nat → Halfedge
  | 0 => { id := 0, v0 := 0, v1 := 1, v2 := 2, triangle := 0, paired_he := none }
  | 1 => { id := 1, v0 := 1, v1 := 2, v2 := 0, triangle := 0, paired_he := some 5 }
  | 2 => { id := 2, v0 := 2, v1 := 0, v2 := 1, triangle := 0, paired_he := none }
  | 3 => { id := 0, v0 := 1, v1 := 3, v2 := 2, triangle := 1, paired_he := none }
  | 4 => { id := 1, v0 := 3, v1 := 2, v2 := 1, triangle := 1, paired_he := none }
  | 5 => { id := 2, v0 := 2, v1 := 1, v2 := 3, triangle := 1, paired_he := some 1 }
  | _ => default

/-- The triangles of `matched_mesh`: `(0,1,2)` and `(1,3,2)`. -/
def matched_triangles : Nat → Triangle
  | 0 => { id := 0, v0 := 0, v1 := 1, v2 := 2, e0 := 0, e1 := 1, e2 := 2 }
  | 1 => { id := 1, v0 := 1, v1 := 3, v2 := 2, e0 := 3, e1 := 4, e2 := 5 }
  | _ => default

/-- The vertices of `matched_mesh`. -/
def matched_vertices : Nat → Vertex
  | 0 => { id := 0, tris := [0], vertices := [1, 2], halfedges := [0] }
  | 1 => { id := 1, tris := [0, 1], vertices := [0, 2, 3], halfedges := [1, 3] }
  | 2 => { id := 2, tris := [0, 1], vertices := [0, 1, 3], halfedges := [2, 5] }
  | 3 => { id := 3, tris := [1], vertices := [1, 2], halfedges := [4] }
  | v => { id := v, tris := [], vertices := [], halfedges := [] }

/-- The mesh of scenario B, written out: the store that the construction of
`(0,1,2)` and `(1,3,2)` leaves. -/
def matched_mesh : Mesh :=
  { triangles := matched_triangles, halfedges := matched_halfedges,
    vertices := matched_vertices, n_halfedges := 6, diagnostics := [] }

/-! ## Vocabulary of the constructor and of the vertex sets -/

/-- The store of the constructor right after its three `createHalfedge` calls
(line 41): the state in which the repair, if any, is entered. -/
def entry_state (pairing : Mesh → Nat → Nat → Option Nat) (m : Mesh)
    (self tri_id v0 v1 v2 : Nat) : Mesh :=
  create_halfedges pairing
    (chirality_flags (m.setTriangle self
      { m.triangles self with id := tri_id, v0 := v0, v1 := v1, v2 := v2 }) self v0 v1 v2).1 self

/-- The reports of the flag computation of the constructor (lines 22-36), in
order. -/
def over_determined_reports (m : Mesh) (self v0 v1 v2 : Nat) : List Diagnostic :=
  (if (Vertex_halfedge_to_vertex m v0 v1).isSome && (Vertex_halfedge_to_vertex m v1 v0).isSome
    then [Diagnostic.over_determined self 0] else []) ++
  (if (Vertex_halfedge_to_vertex m v1 v2).isSome && (Vertex_halfedge_to_vertex m v2 v1).isSome
    then [Diagnostic.over_determined self 1] else []) ++
  (if (Vertex_halfedge_to_vertex m v2 v0).isSome && (Vertex_halfedge_to_vertex m v0 v2).isSome
    then [Diagnostic.over_determined self 2] else [])

/-- Vertex number `k` of a vertex triple (`v2` for `k ≥ 2`). -/
def corner_at (v0 v1 v2 : Nat) : Nat → Nat
  | 0 => v0
  | 1 => v1
  | _ => v2

/-- The vertex invariant of the data model: the incident-triangle set of a
vertex is the set of owners of its registered outgoing half-edges. -/
def vertex_invariant (m : Mesh) : Prop :=
  ∀ v t, t ∈ (m.vertices v).tris ↔ ∃ h ∈ (m.vertices v).halfedges, (m.halfedges h).triangle = t

/-- Every half-edge registered with a vertex is an allocated object. -/
def registered_allocated (m : Mesh) : Prop :=
  ∀ v, ∀ h ∈ (m.vertices v).halfedges, h < m.n_halfedges

/-- Vertex adjacency is symmetric. -/
def adjacency_symmetric (m : Mesh) : Prop :=
  ∀ a b, b ∈ (m.vertices a).vertices → a ∈ (m.vertices b).vertices

/-! ## A single triangle -/

/-- The half-edges of `single_mesh`. -/
def single_halfedges : Nat → Halfedge
  | 0 => { id := 0, v0 := 0, v1 := 1, v2 := 2, triangle := 0, paired_he := none }
  | 1 => { id := 1, v0 := 1, v1 := 2, v2 := 0, triangle := 0, paired_he := none }
  | 2 => { id := 2, v0 := 2, v1 := 0, v2 := 1, triangle := 0, paired_he := none }
  | _ => default

/-- The triangles of `single_mesh`: `(0,1,2)`. -/
def single_triangles : Nat → Triangle
  | 0 => { id := 0, v0 := 0, v1 := 1, v2 := 2, e0 := 0, e1 := 1, e2 := 2 }
  | _ => default

/-- The vertices of `single_mesh`. -/
def single_vertices : Nat → Vertex
  | 0 => { id := 0, tris := [0], vertices := [1, 2], halfedges := [0] }
  | 1 => { id := 1, tris := [0], vertices := [0, 2], halfedges := [1] }
  | 2 => { id := 2, tris := [0], vertices := [0, 1], halfedges := [2] }
  | v => { id := v, tris := [], vertices := [], halfedges := [] }

/-- The mesh of scenario A, written out: the store that the construction of
`(0,1,2)` leaves. -/
def single_mesh : Mesh :=
  { triangles := single_triangles, halfedges := single_halfedges,
    vertices := single_vertices, n_halfedges := 3, diagnostics := [] }

/-! # Theorems -/

/-! ## The store operations -/

section store
variable (m : Mesh) (t x h : Nat)

@[simp] theorem setTriangle_triangles (r : Triangle) :
    (m.setTriangle t r).triangles = Function.update m.triangles t r := rfl
@[simp] theorem setTriangle_halfedges (r : Triangle) :
    (m.setTriangle t r).halfedges = m.halfedges := rfl
@[simp] theorem setTriangle_vertices (r : Triangle) :
    (m.setTriangle t r).vertices = m.vertices := rfl
@[simp] theorem setTriangle_n_halfedges (r : Triangle) :
    (m.setTriangle t r).n_halfedges = m.n_halfedges := rfl
@[simp] theorem setTriangle_diagnostics (r : Triangle) :
    (m.setTriangle t r).diagnostics = m.diagnostics := rfl
@[simp] theorem setHalfedge_triangles (r : Halfedge) :
    (m.setHalfedge h r).triangles = m.triangles := rfl
@[simp] theorem setHalfedge_halfedges (r : Halfedge) :
    (m.setHalfedge h r).halfedges = Function.update m.halfedges h r := rfl
@[simp] theorem setHalfedge_vertices (r : Halfedge) :
    (m.setHalfedge h r).vertices = m.vertices := rfl
@[simp] theorem setHalfedge_n_halfedges (r : Halfedge) :
    (m.setHalfedge h r).n_halfedges = m.n_halfedges := rfl
@[simp] theorem setHalfedge_diagnostics (r : Halfedge) :
    (m.setHalfedge h r).diagnostics = m.diagnostics := rfl
@[simp] theorem setVertex_triangles (r : Vertex) :
    (m.setVertex h r).triangles = m.triangles := rfl
@[simp] theorem setVertex_halfedges (r : Vertex) :
    (m.setVertex h r).halfedges = m.halfedges := rfl
@[simp] theorem setVertex_vertices (r : Vertex) :
    (m.setVertex h r).vertices = Function.update m.vertices h r := rfl
@[simp] theorem setVertex_n_halfedges (r : Vertex) :
    (m.setVertex h r).n_halfedges = m.n_halfedges := rfl
@[simp] theorem setVertex_diagnostics (r : Vertex) :
    (m.setVertex h r).diagnostics = m.diagnostics := rfl

end store

theorem flip_halfedges_triangles (m : Mesh) (t : Nat) :
    (flip_halfedges m t).triangles = m.triangles := by
  simp [flip_halfedges, Halfedge_flip]

theorem flip_halfedges_vertices (m : Mesh) (t : Nat) :
    (flip_halfedges m t).vertices = m.vertices := by
  simp [flip_halfedges, Halfedge_flip]

theorem flip_halfedges_rest (m : Mesh) (t h : Nat) :
    ((flip_halfedges m t).halfedges h).paired_he = (m.halfedges h).paired_he ∧
    ((flip_halfedges m t).halfedges h).triangle = (m.halfedges h).triangle ∧
    ((flip_halfedges m t).halfedges h).id = (m.halfedges h).id ∧
    ((flip_halfedges m t).halfedges h).v2 = (m.halfedges h).v2 := by
  simp only [flip_halfedges, Halfedge_flip, setHalfedge_halfedges, setHalfedge_triangles,
    Function.update_apply]
  split_ifs <;> simp_all

theorem flip_halfedges_direction (m : Mesh) (t h : Nat) :
    direction (flip_halfedges m t) h
      = Prod.swap^[(edges_of (m.triangles t)).count h] (direction m h) := by
  simp only [flip_halfedges, Halfedge_flip, setHalfedge_halfedges, setHalfedge_triangles,
    Function.update_apply, direction, edges_of, List.count_cons, List.count_nil]
  split_ifs <;> simp_all [Function.iterate_succ]

theorem swap_v0_v1_halfedges (m : Mesh) (t : Nat) : (swap_v0_v1 m t).halfedges = m.halfedges := by
  simp [swap_v0_v1]

theorem swap_v0_v1_vertices (m : Mesh) (t : Nat) : (swap_v0_v1 m t).vertices = m.vertices := by
  simp [swap_v0_v1]

theorem swap_v0_v1_triangles (m : Mesh) (t x : Nat) :
    (swap_v0_v1 m t).triangles x =
      if x = t then { m.triangles t with v0 := (m.triangles t).v1, v1 := (m.triangles t).v0 }
      else m.triangles x := by
  simp only [swap_v0_v1, setTriangle_triangles, Function.update_apply]
  split_ifs <;> simp_all

theorem swap_e1_e2_halfedges (m : Mesh) (t : Nat) : (swap_e1_e2 m t).halfedges = m.halfedges := by
  simp [swap_e1_e2]

theorem swap_e1_e2_vertices (m : Mesh) (t : Nat) : (swap_e1_e2 m t).vertices = m.vertices := by
  simp [swap_e1_e2]

theorem swap_e1_e2_triangles (m : Mesh) (t x : Nat) :
    (swap_e1_e2 m t).triangles x =
      if x = t then { m.triangles t with e1 := (m.triangles t).e2, e2 := (m.triangles t).e1 }
      else m.triangles x := by
  simp only [swap_e1_e2, setTriangle_triangles, Function.update_apply]
  split_ifs <;> simp_all

theorem update_ids_triangles (m : Mesh) (t : Nat) : (update_ids m t).triangles = m.triangles := by
  simp [update_ids, Halfedge_set_id]

theorem update_ids_vertices (m : Mesh) (t : Nat) : (update_ids m t).vertices = m.vertices := by
  simp [update_ids, Halfedge_set_id]

theorem update_ids_rest (m : Mesh) (t h : Nat) :
    ((update_ids m t).halfedges h).paired_he = (m.halfedges h).paired_he ∧
    ((update_ids m t).halfedges h).triangle = (m.halfedges h).triangle ∧
    ((update_ids m t).halfedges h).v0 = (m.halfedges h).v0 ∧
    ((update_ids m t).halfedges h).v1 = (m.halfedges h).v1 ∧
    ((update_ids m t).halfedges h).v2 = (m.halfedges h).v2 := by
  simp only [update_ids, Halfedge_set_id, setHalfedge_halfedges, setHalfedge_triangles,
    Function.update_apply]
  split_ifs <;> simp_all

theorem update_ids_frame (m : Mesh) (t h : Nat) (h1 : h ≠ (m.triangles t).e1)
    (h2 : h ≠ (m.triangles t).e2) : (update_ids m t).halfedges h = m.halfedges h := by
  simp only [update_ids, Halfedge_set_id, setHalfedge_halfedges, setHalfedge_triangles,
    Function.update_apply]
  split_ifs <;> simp_all

theorem flip_halfedges_frame (m : Mesh) (t h : Nat) (hh : h ∉ edges_of (m.triangles t)) :
    (flip_halfedges m t).halfedges h = m.halfedges h := by
  simp only [edges_of, List.mem_cons, List.mem_singleton, not_or, List.not_mem_nil, or_false] at hh
  obtain ⟨h0, h1, h2⟩ := hh
  simp only [flip_halfedges, Halfedge_flip, setHalfedge_halfedges, setHalfedge_triangles,
    Function.update_apply]
  split_ifs
  simp_all

theorem flip_self_triangles (m : Mesh) (t x : Nat) :
    (flip_self m t).triangles x = if x = t then swap_record (m.triangles t) else m.triangles x := by
  simp only [flip_self, update_ids_triangles, swap_e1_e2_triangles, swap_v0_v1_triangles,
    flip_halfedges_triangles, swap_record]
  split_ifs <;> simp_all

theorem flip_self_vertices (m : Mesh) (t : Nat) : (flip_self m t).vertices = m.vertices := by
  simp only [flip_self, update_ids_vertices, swap_e1_e2_vertices, swap_v0_v1_vertices,
    flip_halfedges_vertices]

theorem flip_self_paired (m : Mesh) (t h : Nat) :
    ((flip_self m t).halfedges h).paired_he = (m.halfedges h).paired_he := by
  simp only [flip_self, (update_ids_rest _ _ _).1, swap_e1_e2_halfedges, swap_v0_v1_halfedges,
    (flip_halfedges_rest _ _ _).1]

theorem flip_self_owner (m : Mesh) (t h : Nat) :
    ((flip_self m t).halfedges h).triangle = (m.halfedges h).triangle := by
  simp only [flip_self, (update_ids_rest _ _ _).2.1, swap_e1_e2_halfedges, swap_v0_v1_halfedges,
    (flip_halfedges_rest _ _ _).2.1]

theorem flip_self_direction (m : Mesh) (t h : Nat) :
    direction (flip_self m t) h
      = Prod.swap^[(edges_of (m.triangles t)).count h] (direction m h) := by
  rw [← flip_halfedges_direction]
  simp only [direction, flip_self, (update_ids_rest _ _ _).2.2.1, (update_ids_rest _ _ _).2.2.2.1,
    swap_e1_e2_halfedges, swap_v0_v1_halfedges]

theorem flip_self_frame (m : Mesh) (t h : Nat) (hh : h ∉ edges_of (m.triangles t)) :
    (flip_self m t).halfedges h = m.halfedges h := by
  have hh2 := hh
  simp only [edges_of, List.mem_cons, List.mem_singleton, not_or, List.not_mem_nil, or_false] at hh2
  obtain ⟨h0, h1, h2⟩ := hh2
  simp only [flip_self]
  rw [update_ids_frame, swap_e1_e2_halfedges, swap_v0_v1_halfedges, flip_halfedges_frame _ _ _ hh]
  · simp [swap_e1_e2_triangles, swap_v0_v1_triangles, flip_halfedges_triangles, h2]
  · simp [swap_e1_e2_triangles, swap_v0_v1_triangles, flip_halfedges_triangles, h1]

theorem set_insert_comm (a b : Nat) (l : List Nat) :
    set_insert a (set_insert b l) = set_insert b (set_insert a l) := by
  induction l with
  | nil =>
    simp only [set_insert]
    split_ifs <;> (try subst_vars) <;> first | rfl | omega
  | cons x xs ih =>
    simp only [set_insert]
    split_ifs <;> simp only [set_insert] <;> split_ifs <;> (try subst_vars) <;>
      first | rfl | omega | rw [ih]

theorem set_insert_ptr_comm (a b : Option Nat) (l : List Nat) :
    set_insert_ptr a (set_insert_ptr b l) = set_insert_ptr b (set_insert_ptr a l) := by
  cases a <;> cases b <;> simp [set_insert_ptr, set_insert_comm]

theorem paired_tri_flip_self (m : Mesh) (t h : Nat) :
    Halfedge_paired_tri (flip_self m t) h = Halfedge_paired_tri m h := by
  simp only [Halfedge_paired_tri, flip_self_paired, flip_self_owner]

theorem adjacent_triangles_flip_self (m : Mesh) (t : Nat) :
    adjacent_triangles (flip_self m t) = adjacent_triangles m := by
  funext x
  simp only [adjacent_triangles, Triangle_t0, Triangle_t1, Triangle_t2, paired_tri_flip_self,
    flip_self_triangles]
  split_ifs with hx
  · subst hx
    simp only [swap_record]
    rw [set_insert_ptr_comm]
  · rfl


/-! ## The flood fill as a traversal of the adjacency relation -/

theorem flip_list_nil (m : Mesh) : flip_list m [] = m := rfl

theorem flip_list_cons (m : Mesh) (t : Nat) (l : List Nat) :
    flip_list m (t :: l) = flip_list (flip_self m t) l := rfl

theorem flip_list_append (m : Mesh) (l1 l2 : List Nat) :
    flip_list m (l1 ++ l2) = flip_list (flip_list m l1) l2 := by
  simp [flip_list, List.foldl_append]

theorem adjacent_triangles_flip_list (m : Mesh) (l : List Nat) :
    adjacent_triangles (flip_list m l) = adjacent_triangles m := by
  induction l generalizing m with
  | nil => rfl
  | cons t l ih => rw [flip_list_cons, ih, adjacent_triangles_flip_self]

theorem flip_loop_eq (fuel : Nat)
    (ih : ∀ m visited t, recursiveFlip fuel m visited t =
      (flip_order (adjacent_triangles m) fuel visited t).map (fun r => (flip_list m r.1, r.2)))
    (l : List Nat) (m : Mesh) (visited : List Nat) :
    flip_loop (recursiveFlip fuel) l m visited =
      (order_loop (flip_order (adjacent_triangles m) fuel) l visited).map
        (fun r => (flip_list m r.1, r.2)) := by
  induction l generalizing m visited with
  | nil => simp [flip_loop, order_loop, flip_list_nil]
  | cons it rest ihl =>
    simp only [flip_loop, order_loop]
    split_ifs with hv
    · exact ihl m visited
    · rw [ih]
      cases hr : flip_order (adjacent_triangles m) fuel visited it with
      | none => simp
      | some r =>
        obtain ⟨l1, visited1⟩ := r
        simp only [Option.map_some']
        rw [ihl, adjacent_triangles_flip_list]
        cases hr2 : order_loop (flip_order (adjacent_triangles m) fuel) rest visited1 with
        | none => simp
        | some r2 =>
          obtain ⟨l2, visited2⟩ := r2
          simp [flip_list_append]

theorem recursiveFlip_eq (fuel : Nat) (m : Mesh) (visited : List Nat) (t : Nat) :
    recursiveFlip fuel m visited t =
      (flip_order (adjacent_triangles m) fuel visited t).map (fun r => (flip_list m r.1, r.2)) := by
  induction fuel generalizing m visited t with
  | zero => simp [recursiveFlip, flip_order]
  | succ fuel ih =>
    simp only [recursiveFlip, flip_order]
    rw [flip_loop_eq fuel ih, adjacent_triangles_flip_self]
    cases hr : order_loop (flip_order (adjacent_triangles m) fuel) (adjacent_triangles m t)
        (set_insert t visited) with
    | none => simp
    | some r =>
      obtain ⟨l, visited1⟩ := r
      simp [flip_list_cons]

theorem flipContiguousRegion_eq (fuel : Nat) (m : Mesh) (t : Nat) :
    flipContiguousRegion fuel m t =
      (flip_order (adjacent_triangles m) fuel [t] t).map (fun r => flip_list m r.1) := by
  simp only [flipContiguousRegion, recursiveFlip_eq, set_insert, Option.map_map]
  rfl

/-! ## Properties of the traversal -/

theorem mem_set_insert (a x : Nat) (l : List Nat) : x ∈ set_insert a l ↔ x = a ∨ x ∈ l := by
  induction l with
  | nil => simp [set_insert]
  | cons y ys ih =>
    simp only [set_insert]
    split_ifs with h1 h2
    · simp
    · subst h2; simp
    · simp only [List.mem_cons, ih]; tauto

theorem mem_set_insert_ptr (a : Option Nat) (x : Nat) (l : List Nat) :
    x ∈ set_insert_ptr a l ↔ a = some x ∨ x ∈ l := by
  cases a with
  | none => simp [set_insert_ptr]
  | some b => simp only [set_insert_ptr, mem_set_insert, Option.some.injEq]; tauto

theorem order_loop_mono (call call2 : List Nat → Nat → Option (List Nat × List Nat))
    (hc : ∀ visited t r, call visited t = some r → call2 visited t = some r)
    (l : List Nat) (visited : List Nat) (r : List Nat × List Nat)
    (h : order_loop call l visited = some r) : order_loop call2 l visited = some r := by
  induction l generalizing visited r with
  | nil => simpa [order_loop] using h
  | cons it rest ih =>
    simp only [order_loop] at h ⊢
    split_ifs at h ⊢ with hv
    · exact ih visited r h
    · cases h1 : call visited it with
      | none => simp [h1] at h
      | some r1 =>
        obtain ⟨l1, visited1⟩ := r1
        rw [h1] at h
        rw [hc visited it _ h1]
        simp only at h ⊢
        cases h2 : order_loop call rest visited1 with
        | none => simp [h2] at h
        | some r2 =>
          rw [h2] at h
          rw [ih visited1 r2 h2]
          exact h

theorem flip_order_succ (adj : Nat → List Nat) (fuel : Nat) (visited : List Nat) (t : Nat)
    (r : List Nat × List Nat) (h : flip_order adj fuel visited t = some r) :
    flip_order adj (fuel + 1) visited t = some r := by
  induction fuel generalizing visited t r with
  | zero => simp [flip_order] at h
  | succ fuel ih =>
    rw [flip_order] at h ⊢
    cases h1 : order_loop (flip_order adj fuel) (adj t) (set_insert t visited) with
    | none => simp [h1] at h
    | some r1 =>
      rw [h1] at h
      rw [order_loop_mono _ _ ih _ _ _ h1]
      exact h

theorem flip_order_mono (adj : Nat → List Nat) (fuel fuel2 : Nat) (hle : fuel ≤ fuel2)
    (visited : List Nat) (t : Nat) (r : List Nat × List Nat)
    (h : flip_order adj fuel visited t = some r) : flip_order adj fuel2 visited t = some r := by
  induction hle with
  | refl => exact h
  | step _ ih => exact flip_order_succ _ _ _ _ _ ih

/-- What a successful call on the loop list reports, given the same of each
recursive call: the flipped triangles are new and distinct, and the visited
set grows by exactly them. -/
theorem order_loop_spec (call : List Nat → Nat → Option (List Nat × List Nat))
    (hc : ∀ visited t l1 visited1, call visited t = some (l1, visited1) → t ∉ visited →
      l1.Nodup ∧ (∀ x ∈ l1, x ∉ visited) ∧ ∀ x, x ∈ visited1 ↔ x ∈ visited ∨ x ∈ l1)
    (l : List Nat) (visited : List Nat) (l2 visited2 : List Nat)
    (h : order_loop call l visited = some (l2, visited2)) :
    l2.Nodup ∧ (∀ x ∈ l2, x ∉ visited) ∧ ∀ x, x ∈ visited2 ↔ x ∈ visited ∨ x ∈ l2 := by
  induction l generalizing visited l2 visited2 with
  | nil =>
    simp only [order_loop, Option.some.injEq, Prod.mk.injEq] at h
    obtain ⟨rfl, rfl⟩ := h
    simp
  | cons it rest ih =>
    simp only [order_loop] at h
    split_ifs at h with hv
    · exact ih visited l2 visited2 h
    · cases h1 : call visited it with
      | none => simp [h1] at h
      | some r1 =>
        obtain ⟨la, va⟩ := r1
        rw [h1] at h
        simp only at h
        cases h2 : order_loop call rest va with
        | none => simp [h2] at h
        | some r2 =>
          obtain ⟨lb, vb⟩ := r2
          rw [h2] at h
          simp only [Option.some.injEq, Prod.mk.injEq] at h
          obtain ⟨rfl, rfl⟩ := h
          obtain ⟨na, da, ma⟩ := hc visited it la va h1 hv
          obtain ⟨nb, db, mb⟩ := ih va lb vb h2
          refine ⟨?_, ?_, ?_⟩
          · rw [List.nodup_append]
            refine ⟨na, nb, ?_⟩
            intro x hxa hxb
            exact db x hxb ((ma x).2 (Or.inr hxa))
          · intro x hx
            rcases List.mem_append.1 hx with hxa | hxb
            · exact da x hxa
            · intro hxv
              exact db x hxb ((ma x).2 (Or.inl hxv))
          · intro x
            rw [mb, ma, List.mem_append]
            tauto

theorem flip_order_spec (adj : Nat → List Nat) (fuel : Nat) (visited : List Nat) (t : Nat)
    (l visited1 : List Nat) (h : flip_order adj fuel visited t = some (l, visited1)) :
    ∃ l1, l = t :: l1 ∧ l1.Nodup ∧ (∀ x ∈ l1, x ∉ set_insert t visited) ∧
      ∀ x, x ∈ visited1 ↔ x ∈ set_insert t visited ∨ x ∈ l1 := by
  induction fuel generalizing visited t l visited1 with
  | zero => simp [flip_order] at h
  | succ fuel ih =>
    rw [flip_order] at h
    cases h1 : order_loop (flip_order adj fuel) (adj t) (set_insert t visited) with
    | none => simp [h1] at h
    | some r1 =>
      obtain ⟨l1, v1⟩ := r1
      rw [h1] at h
      simp only [Option.some.injEq, Prod.mk.injEq] at h
      obtain ⟨rfl, rfl⟩ := h
      refine ⟨l1, rfl, ?_⟩
      refine order_loop_spec _ ?_ _ _ _ _ h1
      intro vis u la va hla hu
      obtain ⟨lb, rfl, nb, db, mb⟩ := ih vis u la va hla
      refine ⟨?_, ?_, ?_⟩
      · rw [List.nodup_cons]
        exact ⟨fun hmem => db u hmem ((mem_set_insert _ _ _).2 (Or.inl rfl)), nb⟩
      · intro x hx
        rcases List.mem_cons.1 hx with rfl | hxb
        · exact hu
        · intro hxv
          exact db x hxb ((mem_set_insert _ _ _).2 (Or.inr hxv))
      · intro x
        rw [mb, mem_set_insert, List.mem_cons]
        tauto

theorem order_loop_sound (adj : Nat → List Nat)
    (call : List Nat → Nat → Option (List Nat × List Nat))
    (hc : ∀ visited t l1 visited1, call visited t = some (l1, visited1) →
      ∀ x ∈ l1, Relation.ReflTransGen (fun a b => b ∈ adj a) t x)
    (l : List Nat) (visited : List Nat) (l2 visited2 : List Nat)
    (h : order_loop call l visited = some (l2, visited2)) :
    ∀ x ∈ l2, ∃ y ∈ l, Relation.ReflTransGen (fun a b => b ∈ adj a) y x := by
  induction l generalizing visited l2 visited2 with
  | nil =>
    simp only [order_loop, Option.some.injEq, Prod.mk.injEq] at h
    obtain ⟨rfl, rfl⟩ := h
    simp
  | cons it rest ih =>
    simp only [order_loop] at h
    split_ifs at h with hv
    · intro x hx
      obtain ⟨y, hy, hr⟩ := ih visited l2 visited2 h x hx
      exact ⟨y, List.mem_cons_of_mem _ hy, hr⟩
    · cases h1 : call visited it with
      | none => simp [h1] at h
      | some r1 =>
        obtain ⟨la, va⟩ := r1
        rw [h1] at h
        simp only at h
        cases h2 : order_loop call rest va with
        | none => simp [h2] at h
        | some r2 =>
          obtain ⟨lb, vb⟩ := r2
          rw [h2] at h
          simp only [Option.some.injEq, Prod.mk.injEq] at h
          obtain ⟨rfl, rfl⟩ := h
          intro x hx
          rcases List.mem_append.1 hx with hxa | hxb
          · exact ⟨it, List.mem_cons_self _ _, hc visited it la va h1 x hxa⟩
          · obtain ⟨y, hy, hr⟩ := ih va lb vb h2 x hxb
            exact ⟨y, List.mem_cons_of_mem _ hy, hr⟩

theorem flip_order_sound (adj : Nat → List Nat) (fuel : Nat) (visited : List Nat) (t : Nat)
    (l visited1 : List Nat) (h : flip_order adj fuel visited t = some (l, visited1)) :
    ∀ x ∈ l, Relation.ReflTransGen (fun a b => b ∈ adj a) t x := by
  induction fuel generalizing visited t l visited1 with
  | zero => simp [flip_order] at h
  | succ fuel ih =>
    rw [flip_order] at h
    cases h1 : order_loop (flip_order adj fuel) (adj t) (set_insert t visited) with
    | none => simp [h1] at h
    | some r1 =>
      obtain ⟨l1, v1⟩ := r1
      rw [h1] at h
      simp only [Option.some.injEq, Prod.mk.injEq] at h
      obtain ⟨rfl, rfl⟩ := h
      intro x hx
      rcases List.mem_cons.1 hx with rfl | hx1
      · exact Relation.ReflTransGen.refl
      · obtain ⟨y, hy, hr⟩ := order_loop_sound adj _ ih _ _ _ _ h1 x hx1
        exact Relation.ReflTransGen.head hy hr

/-! ## Termination of the traversal -/

theorem unvisited_anti (n : Nat) (v1 v2 : List Nat) (h : ∀ x, x ∈ v1 → x ∈ v2) :
    unvisited n v2 ≤ unvisited n v1 := by
  apply Finset.card_le_card
  intro x hx
  simp only [Finset.mem_filter, Finset.mem_range] at hx ⊢
  exact ⟨hx.1, fun hmem => hx.2 (h x hmem)⟩

theorem unvisited_insert_lt (n : Nat) (v : List Nat) (t : Nat) (ht : t < n) (hv : t ∉ v) :
    unvisited n (set_insert t v) < unvisited n v := by
  apply Finset.card_lt_card
  rw [Finset.ssubset_iff_of_subset]
  · refine ⟨t, ?_, ?_⟩
    · simp only [Finset.mem_filter, Finset.mem_range]
      exact ⟨ht, hv⟩
    · intro hmem
      rw [Finset.mem_filter] at hmem
      exact hmem.2 ((mem_set_insert _ _ _).2 (Or.inl rfl))
  · intro x hx
    simp only [Finset.mem_filter, Finset.mem_range, mem_set_insert] at hx ⊢
    exact ⟨hx.1, fun hmem => hx.2 (Or.inr hmem)⟩

theorem unvisited_le (n : Nat) (v : List Nat) : unvisited n v ≤ n := by
  unfold unvisited
  calc ((Finset.range n).filter (fun x => x ∉ v)).card
      ≤ (Finset.range n).card := Finset.card_filter_le _ _
    _ = n := Finset.card_range n

theorem order_loop_terminates (adj : Nat → List Nat) (n fuel : Nat)
    (ih : ∀ visited t, unvisited n (set_insert t visited) + 1 ≤ fuel →
      ∃ r, flip_order adj fuel visited t = some r)
    (l : List Nat) (hl : ∀ y ∈ l, y < n) (visited : List Nat) (hf : unvisited n visited ≤ fuel) :
    ∃ r, order_loop (flip_order adj fuel) l visited = some r := by
  induction l generalizing visited with
  | nil => exact ⟨_, rfl⟩
  | cons it rest ihl =>
    have hrest : ∀ y ∈ rest, y < n := fun y hy => hl y (List.mem_cons_of_mem _ hy)
    simp only [order_loop]
    split_ifs with hv
    · exact ihl hrest visited hf
    · have hlt := unvisited_insert_lt n visited it (hl it (List.mem_cons_self _ _)) hv
      obtain ⟨⟨l1, v1⟩, h1⟩ := ih visited it (by omega)
      rw [h1]
      obtain ⟨l0, _, _, _, hmem⟩ := flip_order_spec adj fuel visited it l1 v1 h1
      have hsub : ∀ x, x ∈ visited → x ∈ v1 := fun x hx =>
        (hmem x).2 (Or.inl ((mem_set_insert _ _ _).2 (Or.inr hx)))
      have hle := unvisited_anti n visited v1 hsub
      obtain ⟨⟨l2, v2⟩, h2⟩ := ihl hrest v1 (by omega)
      simp only [h2]
      exact ⟨_, rfl⟩

theorem flip_order_terminates (adj : Nat → List Nat) (n : Nat)
    (hb : ∀ x y, y ∈ adj x → y < n) (fuel : Nat) (visited : List Nat) (t : Nat)
    (hf : unvisited n (set_insert t visited) + 1 ≤ fuel) :
    ∃ r, flip_order adj fuel visited t = some r := by
  induction fuel generalizing visited t with
  | zero => omega
  | succ fuel ih =>
    rw [flip_order]
    obtain ⟨⟨l, v1⟩, h1⟩ := order_loop_terminates adj n fuel ih (adj t) (hb t)
      (set_insert t visited) (by omega)
    rw [h1]
    exact ⟨_, rfl⟩

theorem adjacent_triangles_lt (m : Mesh) (n : Nat) (hn : ∀ h, (m.halfedges h).triangle < n)
    (x y : Nat) (hy : y ∈ adjacent_triangles m x) : y < n := by
  simp only [adjacent_triangles, mem_set_insert_ptr, Triangle_t0, Triangle_t1, Triangle_t2,
    Halfedge_paired_tri, List.not_mem_nil, or_false, Option.map_eq_some'] at hy
  rcases hy with ⟨p, _, rfl⟩ | ⟨p, _, rfl⟩ | ⟨p, _, rfl⟩ <;> exact hn p

theorem recursiveFlip_terminates (m : Mesh) (n : Nat) (hn : ∀ h, (m.halfedges h).triangle < n)
    (fuel : Nat) (visited : List Nat) (t : Nat)
    (hf : unvisited n (set_insert t visited) + 1 ≤ fuel) :
    ∃ r, recursiveFlip fuel m visited t = some r := by
  obtain ⟨r, hr⟩ := flip_order_terminates (adjacent_triangles m) n
    (adjacent_triangles_lt m n hn) fuel visited t hf
  rw [recursiveFlip_eq, hr]
  exact ⟨_, rfl⟩

/-! ## The effect of a sequence of flips -/

theorem swap_record_involutive : Function.Involutive swap_record := by
  intro x
  cases x
  rfl

theorem edges_of_swap_record_count (x : Triangle) (h : Nat) :
    (edges_of (swap_record x)).count h = (edges_of x).count h := by
  simp only [edges_of, swap_record, List.count_cons, List.count_nil]
  omega

theorem mem_edges_of_swap_record (x : Triangle) (h : Nat) :
    h ∈ edges_of (swap_record x) ↔ h ∈ edges_of x := by
  simp only [edges_of, swap_record, List.mem_cons, List.mem_singleton, List.not_mem_nil, or_false]
  tauto

theorem flip_self_edges_count (m : Mesh) (t x h : Nat) :
    (edges_of ((flip_self m t).triangles x)).count h = (edges_of (m.triangles x)).count h := by
  rw [flip_self_triangles]
  split_ifs with hx
  · rw [hx, edges_of_swap_record_count]
  · rfl

theorem flip_list_triangles (m : Mesh) (l : List Nat) (x : Nat) :
    (flip_list m l).triangles x = swap_record^[l.count x] (m.triangles x) := by
  induction l generalizing m with
  | nil => rfl
  | cons t l ih =>
    rw [flip_list_cons, ih, flip_self_triangles, List.count_cons]
    split_ifs with h1 h2 h2
    · subst h1
      rw [Function.iterate_succ_apply]
    · exact absurd h1.symm (by simpa using h2)
    · exact absurd (by simpa using h2 : t = x).symm h1
    · rfl

theorem flip_list_direction (m : Mesh) (l : List Nat) (h : Nat) :
    direction (flip_list m l) h =
      Prod.swap^[(l.map (fun t => (edges_of (m.triangles t)).count h)).sum] (direction m h) := by
  induction l generalizing m with
  | nil => rfl
  | cons t l ih =>
    rw [flip_list_cons, ih, flip_self_direction, List.map_cons, List.sum_cons,
      Nat.add_comm, Function.iterate_add_apply]
    simp only [flip_self_edges_count]

theorem flip_list_paired (m : Mesh) (l : List Nat) (h : Nat) :
    ((flip_list m l).halfedges h).paired_he = (m.halfedges h).paired_he := by
  induction l generalizing m with
  | nil => rfl
  | cons t l ih => rw [flip_list_cons, ih, flip_self_paired]

theorem flip_list_owner (m : Mesh) (l : List Nat) (h : Nat) :
    ((flip_list m l).halfedges h).triangle = (m.halfedges h).triangle := by
  induction l generalizing m with
  | nil => rfl
  | cons t l ih => rw [flip_list_cons, ih, flip_self_owner]

theorem flip_list_vertices (m : Mesh) (l : List Nat) :
    (flip_list m l).vertices = m.vertices := by
  induction l generalizing m with
  | nil => rfl
  | cons t l ih => rw [flip_list_cons, ih, flip_self_vertices]

theorem flip_list_twice_triangles (m : Mesh) (l : List Nat) (x : Nat) :
    (flip_list (flip_list m l) l).triangles x = m.triangles x := by
  rw [← flip_list_append, flip_list_triangles, List.count_append, ← two_mul,
    swap_record_involutive.iterate_two_mul]
  rfl

theorem flip_list_twice_direction (m : Mesh) (l : List Nat) (h : Nat) :
    direction (flip_list (flip_list m l) l) h = direction m h := by
  have hinv : Function.Involutive (Prod.swap : Nat × Nat → Nat × Nat) := fun p => Prod.swap_swap p
  rw [← flip_list_append, flip_list_direction, List.map_append, List.sum_append, ← two_mul,
    hinv.iterate_two_mul]
  rfl

/-! ## Facts about the concrete meshes -/

theorem book_mesh_owner_lt (h : Nat) : (book_mesh.halfedges h).triangle < 3 := by
  match h with
  | 0 | 1 | 2 | 3 | 4 | 5 | 6 | 7 | 8 => decide
  | n + 9 => exact Nat.zero_lt_succ 2

/-! ## The constructor -/

theorem Halfedge_new_snd (pairing : Mesh → Nat → Nat → Option Nat) (m : Mesh)
    (v0 v1 v2 t id : Nat) : (Halfedge_new pairing m v0 v1 v2 t id).2 = m.n_halfedges := by
  simp only [Halfedge_new]
  cases pairing m v0 v1 <;> rfl

theorem Halfedge_new_fst (pairing : Mesh → Nat → Nat → Option Nat) (m : Mesh)
    (v0 v1 v2 t id : Nat) :
    (Halfedge_new pairing m v0 v1 v2 t id).1.triangles = m.triangles ∧
    (Halfedge_new pairing m v0 v1 v2 t id).1.vertices = m.vertices ∧
    (Halfedge_new pairing m v0 v1 v2 t id).1.diagnostics = m.diagnostics ∧
    (Halfedge_new pairing m v0 v1 v2 t id).1.n_halfedges = m.n_halfedges + 1 ∧
    ∀ h, unpaired ((Halfedge_new pairing m v0 v1 v2 t id).1.halfedges h) =
      if h = m.n_halfedges then
        { id := id, v0 := v0, v1 := v1, v2 := v2, triangle := t, paired_he := none }
      else unpaired (m.halfedges h) := by
  simp only [Halfedge_new]
  cases pairing m v0 v1 with
  | none =>
    refine ⟨rfl, rfl, rfl, rfl, fun h => ?_⟩
    simp only [setHalfedge_halfedges, Function.update_apply]
    split_ifs <;> rfl
  | some q =>
    refine ⟨rfl, rfl, rfl, rfl, fun h => ?_⟩
    simp only [Halfedge_set_paired_he, setHalfedge_halfedges, Function.update_apply]
    split_ifs <;> simp_all [unpaired]

theorem createHalfedge_snd (pairing : Mesh → Nat → Nat → Option Nat) (m : Mesh)
    (self v0 v1 v2 id : Nat) : (createHalfedge pairing m self v0 v1 v2 id).2 = m.n_halfedges := by
  simp only [createHalfedge, Halfedge_new_snd]
  rfl

theorem createHalfedge_fst (pairing : Mesh → Nat → Nat → Option Nat) (m : Mesh)
    (self v0 v1 v2 id : Nat) :
    (createHalfedge pairing m self v0 v1 v2 id).1.triangles = m.triangles ∧
    (createHalfedge pairing m self v0 v1 v2 id).1.diagnostics = m.diagnostics ∧
    (createHalfedge pairing m self v0 v1 v2 id).1.n_halfedges = m.n_halfedges + 1 ∧
    ∀ h, unpaired ((createHalfedge pairing m self v0 v1 v2 id).1.halfedges h) =
      if h = m.n_halfedges then
        { id := id, v0 := v0, v1 := v1, v2 := v2, triangle := self, paired_he := none }
      else unpaired (m.halfedges h) := by
  obtain ⟨h1, _, h3, h4, h5⟩ := Halfedge_new_fst pairing
    (Vertex_add_vertex (Vertex_add_vertex (Vertex_add_tri m v0 self) v0 v1) v1 v0) v0 v1 v2 self id
  simp only [createHalfedge, Vertex_add_halfedge, setVertex_triangles, setVertex_diagnostics,
    setVertex_n_halfedges, setVertex_halfedges]
  exact ⟨h1, h3, h4, h5⟩


theorem create_halfedges_spec (pairing : Mesh → Nat → Nat → Option Nat) (m : Mesh) (self : Nat) :
    (∀ x, (create_halfedges pairing m self).triangles x =
      if x = self then { m.triangles self with
        e0 := m.n_halfedges, e1 := m.n_halfedges + 1, e2 := m.n_halfedges + 2 }
      else m.triangles x) ∧
    (create_halfedges pairing m self).diagnostics = m.diagnostics ∧
    (create_halfedges pairing m self).n_halfedges = m.n_halfedges + 3 ∧
    ∀ h, unpaired ((create_halfedges pairing m self).halfedges h) =
      if h = m.n_halfedges then
        { id := 0, v0 := (m.triangles self).v0, v1 := (m.triangles self).v1,
          v2 := (m.triangles self).v2, triangle := self, paired_he := none }
      else if h = m.n_halfedges + 1 then
        { id := 1, v0 := (m.triangles self).v1, v1 := (m.triangles self).v2,
          v2 := (m.triangles self).v0, triangle := self, paired_he := none }
      else if h = m.n_halfedges + 2 then
        { id := 2, v0 := (m.triangles self).v2, v1 := (m.triangles self).v0,
          v2 := (m.triangles self).v1, triangle := self, paired_he := none }
      else unpaired (m.halfedges h) := by
  let c0 := createHalfedge pairing m self
    (m.triangles self).v0 (m.triangles self).v1 (m.triangles self).v2 0
  let m1 := c0.1.setTriangle self { c0.1.triangles self with e0 := c0.2 }
  let c1 := createHalfedge pairing m1 self
    (m1.triangles self).v1 (m1.triangles self).v2 (m1.triangles self).v0 1
  let m2 := c1.1.setTriangle self { c1.1.triangles self with e1 := c1.2 }
  let c2 := createHalfedge pairing m2 self
    (m2.triangles self).v2 (m2.triangles self).v0 (m2.triangles self).v1 2
  have hdef : create_halfedges pairing m self =
      c2.1.setTriangle self { c2.1.triangles self with e2 := c2.2 } := rfl
  rw [hdef]
  obtain ⟨a1, a2, a3, a4⟩ : c0.1.triangles = m.triangles ∧ c0.1.diagnostics = m.diagnostics ∧
      c0.1.n_halfedges = m.n_halfedges + 1 ∧ _ := createHalfedge_fst pairing m self _ _ _ 0
  have a5 : c0.2 = m.n_halfedges := createHalfedge_snd pairing m self _ _ _ 0
  obtain ⟨b1, b2, b3, b4⟩ : c1.1.triangles = m1.triangles ∧ c1.1.diagnostics = m1.diagnostics ∧
      c1.1.n_halfedges = m1.n_halfedges + 1 ∧ _ := createHalfedge_fst pairing m1 self _ _ _ 1
  have b5 : c1.2 = m1.n_halfedges := createHalfedge_snd pairing m1 self _ _ _ 1
  obtain ⟨d1, d2, d3, d4⟩ : c2.1.triangles = m2.triangles ∧ c2.1.diagnostics = m2.diagnostics ∧
      c2.1.n_halfedges = m2.n_halfedges + 1 ∧ _ := createHalfedge_fst pairing m2 self _ _ _ 2
  have d5 : c2.2 = m2.n_halfedges := createHalfedge_snd pairing m2 self _ _ _ 2
  have hm1n : m1.n_halfedges = m.n_halfedges + 1 := a3
  have hm2n : m2.n_halfedges = m.n_halfedges + 2 := by
    show c1.1.n_halfedges = _
    rw [b3, hm1n]
  have hm1t : ∀ x, m1.triangles x =
      if x = self then { m.triangles self with e0 := m.n_halfedges } else m.triangles x := by
    intro x
    show Function.update c0.1.triangles self { c0.1.triangles self with e0 := c0.2 } x = _
    rw [a1, a5, Function.update_apply]
  have hm2t : ∀ x, m2.triangles x =
      if x = self then { m.triangles self with e0 := m.n_halfedges, e1 := m.n_halfedges + 1 }
      else m.triangles x := by
    intro x
    show Function.update c1.1.triangles self { c1.1.triangles self with e1 := c1.2 } x = _
    rw [b1, b5, hm1n, Function.update_apply, hm1t, hm1t]
    split_ifs <;> simp_all
  have hm1v : (m1.triangles self).v0 = (m.triangles self).v0 ∧
      (m1.triangles self).v1 = (m.triangles self).v1 ∧
      (m1.triangles self).v2 = (m.triangles self).v2 := by
    rw [hm1t]; simp
  have hm2v : (m2.triangles self).v0 = (m.triangles self).v0 ∧
      (m2.triangles self).v1 = (m.triangles self).v1 ∧
      (m2.triangles self).v2 = (m.triangles self).v2 := by
    rw [hm2t]; simp
  refine ⟨?_, ?_, ?_, ?_⟩
  · intro x
    show Function.update c2.1.triangles self { c2.1.triangles self with e2 := c2.2 } x = _
    rw [d1, d5, hm2n, Function.update_apply, hm2t, hm2t]
    split_ifs <;> simp_all
  · show c2.1.diagnostics = _
    rw [d2]
    show c1.1.diagnostics = _
    rw [b2]
    exact a2
  · show c2.1.n_halfedges = _
    rw [d3, hm2n]
  · intro h
    show unpaired (c2.1.halfedges h) = _
    rw [d4, hm2n]
    have e2 : unpaired (m2.halfedges h) = unpaired (c1.1.halfedges h) := rfl
    have e1 : unpaired (m1.halfedges h) = unpaired (c0.1.halfedges h) := rfl
    rw [e2, b4, hm1n, e1, a4, hm2v.1, hm2v.2.1, hm2v.2.2, hm1v.1, hm1v.2.1, hm1v.2.2]
    split_ifs <;> first | rfl | omega


/-! ## The repair -/

theorem set_paired_he_triangles (m : Mesh) (h : Nat) (p : Option Nat) :
    (Halfedge_set_paired_he m h p).triangles = m.triangles := rfl

theorem set_paired_he_n_halfedges (m : Mesh) (h : Nat) (p : Option Nat) :
    (Halfedge_set_paired_he m h p).n_halfedges = m.n_halfedges := rfl

theorem set_paired_he_unpaired (m : Mesh) (h : Nat) (p : Option Nat) (x : Nat) :
    unpaired ((Halfedge_set_paired_he m h p).halfedges x) = unpaired (m.halfedges x) := by
  simp only [Halfedge_set_paired_he, setHalfedge_halfedges, Function.update_apply]
  split_ifs with hx
  · subst hx; rfl
  · rfl

theorem set_paired_he_paired (m : Mesh) (h : Nat) (p : Option Nat) (x : Nat) :
    ((Halfedge_set_paired_he m h p).halfedges x).paired_he =
      if x = h then p else (m.halfedges x).paired_he := by
  simp only [Halfedge_set_paired_he, setHalfedge_halfedges, Function.update_apply]
  split_ifs <;> rfl

theorem set_paired_he_frame (m : Mesh) (h : Nat) (p : Option Nat) (x : Nat) (hx : x ≠ h) :
    (Halfedge_set_paired_he m h p).halfedges x = m.halfedges x := by
  simp only [Halfedge_set_paired_he, setHalfedge_halfedges, Function.update_apply, if_neg hx]

theorem detach_bad_triangles (m : Mesh) (self : Nat) (b0 b1 b2 : Bool) :
    (detach_bad m self b0 b1 b2).triangles = m.triangles := by
  cases b0 <;> cases b1 <;> cases b2 <;> rfl

theorem detach_bad_n_halfedges (m : Mesh) (self : Nat) (b0 b1 b2 : Bool) :
    (detach_bad m self b0 b1 b2).n_halfedges = m.n_halfedges := by
  cases b0 <;> cases b1 <;> cases b2 <;> rfl

theorem detach_bad_unpaired (m : Mesh) (self : Nat) (b0 b1 b2 : Bool) (x : Nat) :
    unpaired ((detach_bad m self b0 b1 b2).halfedges x) = unpaired (m.halfedges x) := by
  cases b0 <;> cases b1 <;> cases b2 <;>
    simp only [detach_bad, if_true, if_false, Bool.false_eq_true, set_paired_he_unpaired]

theorem detach_bad_frame (m : Mesh) (self : Nat) (b0 b1 b2 : Bool) (x : Nat)
    (hx : x ∉ edges_of (m.triangles self)) :
    (detach_bad m self b0 b1 b2).halfedges x = m.halfedges x := by
  simp only [edges_of, List.mem_cons, List.mem_singleton, not_or, List.not_mem_nil, or_false] at hx
  obtain ⟨h0, h1, h2⟩ := hx
  cases b0 <;> cases b1 <;> cases b2 <;>
    simp only [detach_bad, if_true, if_false, Bool.false_eq_true, set_paired_he_triangles] <;>
    simp only [Halfedge_set_paired_he, setHalfedge_halfedges, setHalfedge_triangles,
      Function.update_apply, if_neg h0, if_neg h1, if_neg h2]

theorem reattach_bad_triangles (m : Mesh) (o0 o1 o2 : Nat) (h0 h1 h2 : Option Nat)
    (b0 b1 b2 : Bool) : (reattach_bad m o0 o1 o2 h0 h1 h2 b0 b1 b2).triangles = m.triangles := by
  cases b0 <;> cases b1 <;> cases b2 <;> rfl

theorem reattach_bad_n_halfedges (m : Mesh) (o0 o1 o2 : Nat) (h0 h1 h2 : Option Nat)
    (b0 b1 b2 : Bool) :
    (reattach_bad m o0 o1 o2 h0 h1 h2 b0 b1 b2).n_halfedges = m.n_halfedges := by
  cases b0 <;> cases b1 <;> cases b2 <;> rfl

theorem reattach_bad_unpaired (m : Mesh) (o0 o1 o2 : Nat) (h0 h1 h2 : Option Nat)
    (b0 b1 b2 : Bool) (x : Nat) :
    unpaired ((reattach_bad m o0 o1 o2 h0 h1 h2 b0 b1 b2).halfedges x) = unpaired (m.halfedges x) := by
  cases b0 <;> cases b1 <;> cases b2 <;>
    simp only [reattach_bad, if_true, if_false, Bool.false_eq_true, set_paired_he_unpaired]

theorem reattach_bad_frame (m : Mesh) (o0 o1 o2 : Nat) (h0 h1 h2 : Option Nat)
    (b0 b1 b2 : Bool) (x : Nat) (x0 : x ≠ o0) (x1 : x ≠ o1) (x2 : x ≠ o2) :
    (reattach_bad m o0 o1 o2 h0 h1 h2 b0 b1 b2).halfedges x = m.halfedges x := by
  cases b0 <;> cases b1 <;> cases b2 <;>
    simp only [reattach_bad, if_true, if_false, Bool.false_eq_true] <;>
    simp only [Halfedge_set_paired_he, setHalfedge_halfedges, Function.update_apply,
      if_neg x0, if_neg x1, if_neg x2]

theorem resolveChirality_eq (fuel : Nat) (m : Mesh) (self : Nat) (b0 b1 b2 : Bool) :
    resolveChirality fuel m self b0 b1 b2 =
      (flipContiguousRegion fuel
        (detach_bad (m.report (Diagnostic.resolving_chirality self)) self b0 b1 b2) self).map
        (fun m1 => reattach_bad m1 (m.triangles self).e0 (m.triangles self).e1
          (m.triangles self).e2
          (m.halfedges (m.triangles self).e0).paired_he
          ((if b0 then Halfedge_set_paired_he m (m.triangles self).e0 none else m).halfedges
            (m.triangles self).e1).paired_he
          ((if b1 then Halfedge_set_paired_he
              (if b0 then Halfedge_set_paired_he m (m.triangles self).e0 none else m)
              (m.triangles self).e1 none
            else (if b0 then Halfedge_set_paired_he m (m.triangles self).e0 none else m)).halfedges
            (m.triangles self).e2).paired_he
          b0 b1 b2) := by
  cases b0 <;> cases b1 <;> cases b2 <;>
  · simp only [resolveChirality, detach_bad, reattach_bad, Halfedge_paired_he, if_true, if_false,
      Bool.false_eq_true]
    cases flipContiguousRegion fuel _ self <;> rfl


/-! ## Preservation of the edge invariant -/

theorem flip_self_mem_edges (m : Mesh) (t x h : Nat) :
    h ∈ edges_of ((flip_self m t).triangles x) ↔ h ∈ edges_of (m.triangles x) := by
  rw [flip_self_triangles]
  split_ifs with hx
  · rw [hx, mem_edges_of_swap_record]
  · rfl

theorem owns_edges_flip_self (m : Mesh) (y x : Nat) (h : owns_edges m x) :
    owns_edges (flip_self m y) x := by
  obtain ⟨d01, d02, d12, hown⟩ := h
  have hown2 : ∀ e ∈ edges_of ((flip_self m y).triangles x),
      ((flip_self m y).halfedges e).triangle = x := by
    intro e he
    rw [flip_self_owner]
    exact hown e ((flip_self_mem_edges m y x e).1 he)
  unfold owns_edges
  rw [flip_self_triangles] at hown2 ⊢
  split_ifs with hx
  · rw [if_pos hx] at hown2
    subst hx
    exact ⟨d02, d01, fun h => d12 h.symm, hown2⟩
  · rw [if_neg hx] at hown2
    exact ⟨d01, d02, d12, hown2⟩

theorem count_edges_disjoint (m : Mesh) (x y e : Nat) (hx : owns_edges m x) (hy : owns_edges m y)
    (hxy : x ≠ y) (he : e ∈ edges_of (m.triangles x)) :
    (edges_of (m.triangles y)).count e = 0 := by
  rw [List.count_eq_zero]
  intro hmem
  exact hxy ((hx.2.2.2 e he).symm.trans (hy.2.2.2 e hmem))

theorem edge_invariant_flip_self (m : Mesh) (y x : Nat) (hy : owns_edges m y)
    (hx : owns_edges m x) (hix : edge_invariant m x) : edge_invariant (flip_self m y) x := by
  by_cases hxy : x = y
  · subst hxy
    obtain ⟨d01, d02, d12, _⟩ := hx
    obtain ⟨i0, i1, i2⟩ := hix
    unfold edge_invariant
    simp only [flip_self_direction, flip_self_triangles, if_true, swap_record, edges_of,
      List.count_cons, List.count_nil, beq_iff_eq]
    simp only [i0, i1, i2, d01, d02, d12, Ne.symm d01, Ne.symm d02, Ne.symm d12, if_true,
      if_false, Nat.zero_add, Nat.add_zero, Function.iterate_one, Prod.swap_prod_mk, and_self]
  · have h0 := count_edges_disjoint m x y (m.triangles x).e0 hx hy hxy (by simp [edges_of])
    have h1 := count_edges_disjoint m x y (m.triangles x).e1 hx hy hxy (by simp [edges_of])
    have h2 := count_edges_disjoint m x y (m.triangles x).e2 hx hy hxy (by simp [edges_of])
    obtain ⟨i0, i1, i2⟩ := hix
    unfold edge_invariant
    simp only [flip_self_direction, flip_self_triangles, if_neg hxy, h0, h1, h2,
      Function.iterate_zero, id_eq]
    exact ⟨i0, i1, i2⟩

theorem flip_list_preserves (R : Nat → Prop) (l : List Nat) (m : Mesh) (hl : ∀ y ∈ l, R y)
    (hI : ∀ x, R x → edge_invariant m x ∧ owns_edges m x) :
    ∀ x, R x → edge_invariant (flip_list m l) x ∧ owns_edges (flip_list m l) x := by
  induction l generalizing m with
  | nil => exact hI
  | cons y l ih =>
    rw [flip_list_cons]
    apply ih
    · exact fun z hz => hl z (List.mem_cons_of_mem _ hz)
    · intro x hx
      have hy := hl y (List.mem_cons_self _ _)
      exact ⟨edge_invariant_flip_self m y x (hI y hy).2 (hI x hx).2 (hI x hx).1,
        owns_edges_flip_self m y x (hI x hx).2⟩

theorem flip_list_frame (m : Mesh) (l : List Nat) (h : Nat)
    (hl : ∀ x ∈ l, h ∉ edges_of (m.triangles x)) :
    (flip_list m l).halfedges h = m.halfedges h := by
  induction l generalizing m with
  | nil => rfl
  | cons t l ih =>
    rw [flip_list_cons, ih, flip_self_frame m t h (hl t (List.mem_cons_self _ _))]
    intro x hx
    rw [flip_self_mem_edges]
    exact hl x (List.mem_cons_of_mem _ hx)

theorem flip_self_n_halfedges (m : Mesh) (t : Nat) :
    (flip_self m t).n_halfedges = m.n_halfedges := by
  simp [flip_self, update_ids, swap_e1_e2, swap_v0_v1, flip_halfedges, Halfedge_set_id,
    Halfedge_flip]

theorem flip_list_n_halfedges (m : Mesh) (l : List Nat) :
    (flip_list m l).n_halfedges = m.n_halfedges := by
  induction l generalizing m with
  | nil => rfl
  | cons t l ih => rw [flip_list_cons, ih, flip_self_n_halfedges]

theorem flip_self_diagnostics (m : Mesh) (t : Nat) :
    (flip_self m t).diagnostics = m.diagnostics := by
  simp [flip_self, update_ids, swap_e1_e2, swap_v0_v1, flip_halfedges, Halfedge_set_id,
    Halfedge_flip]

theorem flip_list_diagnostics (m : Mesh) (l : List Nat) :
    (flip_list m l).diagnostics = m.diagnostics := by
  induction l generalizing m with
  | nil => rfl
  | cons t l ih => rw [flip_list_cons, ih, flip_self_diagnostics]


theorem unpaired_fields (x y : Halfedge) (h : unpaired x = y) :
    x.id = y.id ∧ x.v0 = y.v0 ∧ x.v1 = y.v1 ∧ x.v2 = y.v2 ∧ x.triangle = y.triangle := by
  subst h
  exact ⟨rfl, rfl, rfl, rfl, rfl⟩

theorem reach_closed (m : Mesh) (S : Nat → Prop) (hS : ∀ x, S x → ∀ y ∈ adjacent_triangles m x, S y)
    (t x : Nat) (ht : S t) (hr : Reach m t x) : S x := by
  induction hr with
  | refl => exact ht
  | tail _ hstep ih => exact hS _ ih _ hstep


theorem book_mesh_reach (x : Nat) (hr : Reach book_mesh 0 x) : x < 3 :=
  reach_closed book_mesh (fun x => x < 3)
    (fun x _ y hy => adjacent_triangles_lt book_mesh 3 book_mesh_owner_lt x y hy) 0 x
    (by decide) hr

theorem book_mesh_invariants (x : Nat) (hx : x < 3) :
    edge_invariant book_mesh x ∧ owns_edges book_mesh x := by
  have hmem : ∀ (a b c e : Nat), e ∈ [a, b, c] → e = a ∨ e = b ∨ e = c := by
    intro a b c e he
    simpa using he
  interval_cases x
  · refine ⟨⟨rfl, rfl, rfl⟩, by decide, by decide, by decide, fun e he => ?_⟩
    rcases hmem _ _ _ e he with rfl | rfl | rfl <;> rfl
  · refine ⟨⟨rfl, rfl, rfl⟩, by decide, by decide, by decide, fun e he => ?_⟩
    rcases hmem _ _ _ e he with rfl | rfl | rfl <;> rfl
  · refine ⟨⟨rfl, rfl, rfl⟩, by decide, by decide, by decide, fun e he => ?_⟩
    rcases hmem _ _ _ e he with rfl | rfl | rfl <;> rfl


theorem detach_bad_report (m : Mesh) (d : Diagnostic) (self : Nat) (b0 b1 b2 : Bool) :
    detach_bad (m.report d) self b0 b1 b2 = (detach_bad m self b0 b1 b2).report d := by
  cases b0 <;> cases b1 <;> cases b2 <;> rfl

theorem adjacent_triangles_report (m : Mesh) (d : Diagnostic) :
    adjacent_triangles (m.report d) = adjacent_triangles m := rfl

theorem reattach_bad_paired (m : Mesh) (tr : Triangle) (h0 h1 h2 : Option Nat) (b0 b1 b2 : Bool)
    (k : Nat) (d01 : tr.e0 ≠ tr.e1) (d02 : tr.e0 ≠ tr.e2) (d12 : tr.e1 ≠ tr.e2)
    (hk : flag_at b0 b1 b2 k = true) :
    ((reattach_bad m tr.e0 tr.e1 tr.e2 h0 h1 h2 b0 b1 b2).halfedges (edge_at tr k)).paired_he =
      (match k with
        | 0 => h0
        | 1 => h1
        | _ => h2) := by
  match k with
  | 0 =>
    simp only [flag_at] at hk
    subst hk
    cases b1 <;> cases b2 <;>
      simp [reattach_bad, edge_at, set_paired_he_paired, d01, d02]
  | 1 =>
    simp only [flag_at] at hk
    subst hk
    cases b0 <;> cases b2 <;>
      simp [reattach_bad, edge_at, set_paired_he_paired, d12, Ne.symm d01]
  | k + 2 =>
    simp only [flag_at] at hk
    subst hk
    cases b0 <;> cases b1 <;>
      simp [reattach_bad, edge_at, set_paired_he_paired, Ne.symm d12, Ne.symm d02]

theorem saved_pairings (m : Mesh) (tr : Triangle) (b0 b1 : Bool)
    (d01 : tr.e0 ≠ tr.e1) (d02 : tr.e0 ≠ tr.e2) (d12 : tr.e1 ≠ tr.e2) :
    ((if b0 then Halfedge_set_paired_he m tr.e0 none else m).halfedges tr.e1).paired_he
      = (m.halfedges tr.e1).paired_he ∧
    ((if b1 then Halfedge_set_paired_he
        (if b0 then Halfedge_set_paired_he m tr.e0 none else m) tr.e1 none
      else (if b0 then Halfedge_set_paired_he m tr.e0 none else m)).halfedges tr.e2).paired_he
      = (m.halfedges tr.e2).paired_he := by
  cases b0 <;> cases b1 <;>
    simp [set_paired_he_paired, Ne.symm d01, Ne.symm d02, Ne.symm d12]

theorem edge_at_mem (tr : Triangle) (k : Nat) : edge_at tr k ∈ edges_of tr := by
  match k with
  | 0 => simp [edge_at, edges_of]
  | 1 => simp [edge_at, edges_of]
  | k + 2 => simp [edge_at, edges_of]

theorem count_edge_at (tr : Triangle) (k : Nat)
    (d01 : tr.e0 ≠ tr.e1) (d02 : tr.e0 ≠ tr.e2) (d12 : tr.e1 ≠ tr.e2) :
    (edges_of tr).count (edge_at tr k) = 1 := by
  match k with
  | 0 => simp [edge_at, edges_of, List.count_cons, Ne.symm d01, Ne.symm d02]
  | 1 => simp [edge_at, edges_of, List.count_cons, d01, Ne.symm d12]
  | k + 2 => simp [edge_at, edges_of, List.count_cons, d02, d12]


theorem reattach_bad_direction (m : Mesh) (o0 o1 o2 : Nat) (h0 h1 h2 : Option Nat)
    (b0 b1 b2 : Bool) (x : Nat) :
    direction (reattach_bad m o0 o1 o2 h0 h1 h2 b0 b1 b2) x = direction m x := by
  have e := unpaired_fields _ _ (reattach_bad_unpaired m o0 o1 o2 h0 h1 h2 b0 b1 b2 x)
  unfold direction
  rw [e.2.1, e.2.2.1]
  rfl

theorem detach_bad_direction (m : Mesh) (self : Nat) (b0 b1 b2 : Bool) (x : Nat) :
    direction (detach_bad m self b0 b1 b2) x = direction m x := by
  have e := unpaired_fields _ _ (detach_bad_unpaired m self b0 b1 b2 x)
  unfold direction
  rw [e.2.1, e.2.2.1]
  rfl

theorem detach_bad_owner (m : Mesh) (self : Nat) (b0 b1 b2 : Bool) (x : Nat) :
    ((detach_bad m self b0 b1 b2).halfedges x).triangle = (m.halfedges x).triangle :=
  (unpaired_fields _ _ (detach_bad_unpaired m self b0 b1 b2 x)).2.2.2.2

theorem conflict_mesh_owner_lt (h : Nat) : (conflict_mesh.halfedges h).triangle < 2 := by
  match h with
  | 0 | 1 | 2 | 3 | 4 | 5 => decide
  | n + 6 => exact Nat.zero_lt_succ 1

theorem conflict_mesh_reach (x : Nat)
    (hr : Reach (detach_bad conflict_mesh 1 true false false) 1 x) : x = 1 := by
  refine reach_closed _ (fun x => x = 1) ?_ 1 x rfl hr
  intro a ha y hy
  subst ha
  have hadj : adjacent_triangles (detach_bad conflict_mesh 1 true false false) 1 = [] := by
    decide
  rw [hadj] at hy
  simp at hy

theorem conflict_mesh_owns : owns_edges conflict_mesh 1 := by
  refine ⟨by decide, by decide, by decide, fun e he => ?_⟩
  have he2 : e = 3 ∨ e = 4 ∨ e = 5 := by simpa [edges_of] using he
  rcases he2 with rfl | rfl | rfl <;> rfl


theorem conflict_mesh_is_entry_state :
    conflict_entry.map (fun m => snapshot m 2 6 4) = some (snapshot conflict_mesh 2 6 4) := by
  decide!

/-! ## The constructor as a whole -/

@[simp] theorem halfedge_to_vertex_report (m : Mesh) (d : Diagnostic) (v w : Nat) :
    Vertex_halfedge_to_vertex (m.report d) v w = Vertex_halfedge_to_vertex m v w := rfl

@[simp] theorem halfedge_to_vertex_setTriangle (m : Mesh) (t : Nat) (r : Triangle) (v w : Nat) :
    Vertex_halfedge_to_vertex (m.setTriangle t r) v w = Vertex_halfedge_to_vertex m v w := rfl

@[simp] theorem halfedge_to_vertex_ite_report (m : Mesh) (c : Bool) (d : Diagnostic) (v w : Nat) :
    Vertex_halfedge_to_vertex (if c = true then m.report d else m) v w
      = Vertex_halfedge_to_vertex m v w := by
  cases c <;> rfl

theorem chirality_flags_spec (m : Mesh) (self v0 v1 v2 : Nat) :
    (chirality_flags m self v0 v1 v2).1.triangles = m.triangles ∧
    (chirality_flags m self v0 v1 v2).1.halfedges = m.halfedges ∧
    (chirality_flags m self v0 v1 v2).1.vertices = m.vertices ∧
    (chirality_flags m self v0 v1 v2).1.n_halfedges = m.n_halfedges ∧
    (chirality_flags m self v0 v1 v2).2.1 =
      ((Vertex_halfedge_to_vertex m v0 v1).isSome && !(Vertex_halfedge_to_vertex m v1 v0).isSome) ∧
    (chirality_flags m self v0 v1 v2).2.2.1 =
      ((Vertex_halfedge_to_vertex m v1 v2).isSome && !(Vertex_halfedge_to_vertex m v2 v1).isSome) ∧
    (chirality_flags m self v0 v1 v2).2.2.2 =
      ((Vertex_halfedge_to_vertex m v2 v0).isSome && !(Vertex_halfedge_to_vertex m v0 v2).isSome) ∧
    (∀ d ∈ m.diagnostics, d ∈ (chirality_flags m self v0 v1 v2).1.diagnostics) ∧
    ((Vertex_halfedge_to_vertex m v0 v1).isSome = true →
      (Vertex_halfedge_to_vertex m v1 v0).isSome = true →
      Diagnostic.over_determined self 0 ∈ (chirality_flags m self v0 v1 v2).1.diagnostics) ∧
    ((Vertex_halfedge_to_vertex m v1 v2).isSome = true →
      (Vertex_halfedge_to_vertex m v2 v1).isSome = true →
      Diagnostic.over_determined self 1 ∈ (chirality_flags m self v0 v1 v2).1.diagnostics) ∧
    ((Vertex_halfedge_to_vertex m v2 v0).isSome = true →
      (Vertex_halfedge_to_vertex m v0 v2).isSome = true →
      Diagnostic.over_determined self 2 ∈ (chirality_flags m self v0 v1 v2).1.diagnostics) := by
  simp only [chirality_flags, halfedge_to_vertex_ite_report]
  generalize (Vertex_halfedge_to_vertex m v0 v1).isSome = a01
  generalize (Vertex_halfedge_to_vertex m v1 v0).isSome = a10
  generalize (Vertex_halfedge_to_vertex m v1 v2).isSome = a12
  generalize (Vertex_halfedge_to_vertex m v2 v1).isSome = a21
  generalize (Vertex_halfedge_to_vertex m v2 v0).isSome = a20
  generalize (Vertex_halfedge_to_vertex m v0 v2).isSome = a02
  cases a01 <;> cases a10 <;> cases a12 <;> cases a21 <;> cases a20 <;> cases a02 <;>
    simp [Mesh.report] <;> tauto


theorem flip_halfedges_report (m : Mesh) (d : Diagnostic) (t : Nat) :
    flip_halfedges (m.report d) t = (flip_halfedges m t).report d := by
  simp [flip_halfedges, Halfedge_flip, Mesh.report, Mesh.setHalfedge]

theorem swap_v0_v1_report (m : Mesh) (d : Diagnostic) (t : Nat) :
    swap_v0_v1 (m.report d) t = (swap_v0_v1 m t).report d := by
  simp [swap_v0_v1, Mesh.report, Mesh.setTriangle]

theorem swap_e1_e2_report (m : Mesh) (d : Diagnostic) (t : Nat) :
    swap_e1_e2 (m.report d) t = (swap_e1_e2 m t).report d := by
  simp [swap_e1_e2, Mesh.report, Mesh.setTriangle]

theorem update_ids_report (m : Mesh) (d : Diagnostic) (t : Nat) :
    update_ids (m.report d) t = (update_ids m t).report d := by
  simp [update_ids, Halfedge_set_id, Mesh.report, Mesh.setHalfedge]

theorem flip_self_report (m : Mesh) (d : Diagnostic) (t : Nat) :
    flip_self (m.report d) t = (flip_self m t).report d := by
  simp only [flip_self, flip_halfedges_report, swap_v0_v1_report, swap_e1_e2_report,
    update_ids_report]


theorem flip_list_report (m : Mesh) (d : Diagnostic) (l : List Nat) :
    flip_list (m.report d) l = (flip_list m l).report d := by
  induction l generalizing m with
  | nil => rfl
  | cons t l ih => rw [flip_list_cons, flip_list_cons, flip_self_report, ih]

theorem reattach_bad_diagnostics (m : Mesh) (o0 o1 o2 : Nat) (h0 h1 h2 : Option Nat)
    (b0 b1 b2 : Bool) :
    (reattach_bad m o0 o1 o2 h0 h1 h2 b0 b1 b2).diagnostics = m.diagnostics := by
  cases b0 <;> cases b1 <;> cases b2 <;> rfl

theorem reattach_bad_vertices (m : Mesh) (o0 o1 o2 : Nat) (h0 h1 h2 : Option Nat)
    (b0 b1 b2 : Bool) :
    (reattach_bad m o0 o1 o2 h0 h1 h2 b0 b1 b2).vertices = m.vertices := by
  cases b0 <;> cases b1 <;> cases b2 <;> rfl

theorem detach_bad_diagnostics (m : Mesh) (self : Nat) (b0 b1 b2 : Bool) :
    (detach_bad m self b0 b1 b2).diagnostics = m.diagnostics := by
  cases b0 <;> cases b1 <;> cases b2 <;> rfl

theorem detach_bad_vertices (m : Mesh) (self : Nat) (b0 b1 b2 : Bool) :
    (detach_bad m self b0 b1 b2).vertices = m.vertices := by
  cases b0 <;> cases b1 <;> cases b2 <;> rfl

theorem resolveChirality_returns (fuel n : Nat) (m : Mesh) (self : Nat) (b0 b1 b2 : Bool)
    (hn : ∀ x, (m.halfedges x).triangle < n) (hfuel : n + 1 ≤ fuel) :
    ∃ m1 l1, resolveChirality fuel m self b0 b1 b2 = some m1 ∧ self ∉ l1 ∧ l1.Nodup ∧
      (∀ x ∈ l1, Reach (detach_bad m self b0 b1 b2) self x) ∧
      (∀ x, m1.triangles x = swap_record^[(self :: l1).count x] (m.triangles x)) ∧
      m1.n_halfedges = m.n_halfedges ∧
      (∀ h, unpaired (m1.halfedges h) = unpaired
        ((flip_list (detach_bad m self b0 b1 b2) (self :: l1)).halfedges h)) ∧
      m1.diagnostics = m.diagnostics ++ [Diagnostic.resolving_chirality self] ∧
      m1.vertices = m.vertices := by
  have hadj : adjacent_triangles
      (detach_bad (m.report (Diagnostic.resolving_chirality self)) self b0 b1 b2)
      = adjacent_triangles (detach_bad m self b0 b1 b2) := by
    rw [detach_bad_report, adjacent_triangles_report]
  have hbound : ∀ x y, y ∈ adjacent_triangles (detach_bad m self b0 b1 b2) x → y < n := by
    apply adjacent_triangles_lt
    intro x
    rw [detach_bad_owner]
    exact hn x
  obtain ⟨⟨l, v1⟩, hf⟩ := flip_order_terminates _ n hbound fuel [self] self
    (by have := unvisited_le n (set_insert self [self]); omega)
  obtain ⟨l1, rfl, hnd, hdis, hmem⟩ := flip_order_spec _ _ _ _ _ _ hf
  have hsound : ∀ x ∈ self :: l1, Reach (detach_bad m self b0 b1 b2) self x :=
    flip_order_sound _ _ _ _ _ _ hf
  have hres := resolveChirality_eq fuel m self b0 b1 b2
  rw [flipContiguousRegion_eq, hadj, hf] at hres
  simp only [Option.map_some'] at hres
  refine ⟨_, l1, hres, ?_, hnd, ?_, ?_, ?_, ?_, ?_, ?_⟩
  · exact fun h => hdis self h ((mem_set_insert _ _ _).2 (Or.inl rfl))
  · exact fun x hx => hsound x (List.mem_cons_of_mem _ hx)
  · intro x
    rw [reattach_bad_triangles, flip_list_triangles, detach_bad_triangles]
    rfl
  · rw [reattach_bad_n_halfedges, flip_list_n_halfedges, detach_bad_n_halfedges]
    rfl
  · intro h
    rw [reattach_bad_unpaired, detach_bad_report, flip_list_report]
    rfl
  · rw [reattach_bad_diagnostics, detach_bad_report, flip_list_report]
    show (flip_list (detach_bad m self b0 b1 b2) (self :: l1)).diagnostics ++ _ = _
    rw [flip_list_diagnostics, detach_bad_diagnostics]
  · rw [reattach_bad_vertices, flip_list_vertices, detach_bad_vertices]
    rfl


theorem Triangle_new_eq (pairing : Mesh → Nat → Nat → Option Nat) (fuel : Nat) (m : Mesh)
    (self tri_id v0 v1 v2 : Nat) :
    Triangle_new pairing fuel m self tri_id v0 v1 v2 =
      (if (chirality_flags (m.setTriangle self
            { m.triangles self with id := tri_id, v0 := v0, v1 := v1, v2 := v2 })
            self v0 v1 v2).2.1 = true then
          resolveChirality fuel
            (create_halfedges pairing (chirality_flags (m.setTriangle self
              { m.triangles self with id := tri_id, v0 := v0, v1 := v1, v2 := v2 })
              self v0 v1 v2).1 self) self
            (chirality_flags (m.setTriangle self
              { m.triangles self with id := tri_id, v0 := v0, v1 := v1, v2 := v2 })
              self v0 v1 v2).2.1
            (chirality_flags (m.setTriangle self
              { m.triangles self with id := tri_id, v0 := v0, v1 := v1, v2 := v2 })
              self v0 v1 v2).2.2.1
            (chirality_flags (m.setTriangle self
              { m.triangles self with id := tri_id, v0 := v0, v1 := v1, v2 := v2 })
              self v0 v1 v2).2.2.2
        else some (create_halfedges pairing (chirality_flags (m.setTriangle self
              { m.triangles self with id := tri_id, v0 := v0, v1 := v1, v2 := v2 })
              self v0 v1 v2).1 self)).map (fun m1 => check_attachment m1 self) := by
  unfold Triangle_new
  simp only [setTriangle_triangles, Function.update_same, Bool.or_self]
  generalize chirality_flags _ self v0 v1 v2 = cf
  obtain ⟨mf, f0, f1, f2⟩ := cf
  simp only
  cases (if f0 = true then resolveChirality fuel (create_halfedges pairing mf self) self f0 f1 f2
    else some (create_halfedges pairing mf self)) <;> rfl


theorem check_attachment_fields (m : Mesh) (self : Nat) :
    (check_attachment m self).triangles = m.triangles ∧
    (check_attachment m self).halfedges = m.halfedges ∧
    (check_attachment m self).vertices = m.vertices ∧
    (check_attachment m self).n_halfedges = m.n_halfedges ∧
    ∀ d ∈ m.diagnostics, d ∈ (check_attachment m self).diagnostics := by
  unfold check_attachment
  split_ifs
  · refine ⟨rfl, rfl, rfl, rfl, fun d hd => ?_⟩
    exact List.mem_append_left _ hd
  · exact ⟨rfl, rfl, rfl, rfl, fun d hd => hd⟩


theorem matched_mesh_owner_lt (h : Nat) : (matched_mesh.halfedges h).triangle < 3 := by
  match h with
  | 0 | 1 | 2 | 3 | 4 | 5 => decide
  | n + 6 => exact Nat.zero_lt_succ 2


theorem matched_mesh_is_mesh_B :
    mesh_B.map (fun m => snapshot m 2 6 4) = some (snapshot matched_mesh 2 6 4) := by
  decide!

theorem mesh_A_fields :
    mesh_A.map (fun m => (m.triangles 0, (m.vertices 0).id, (m.vertices 1).id, (m.vertices 2).id))
      = some ({ id := 0, v0 := 0, v1 := 1, v2 := 2, e0 := 0, e1 := 1, e2 := 2 }, 0, 1, 2) ∧
    mesh_A.map (fun m => ((m.vertices 0).tris, (m.vertices 1).tris, (m.vertices 2).tris))
      = some ([0], [0], [0]) := by
  decide!

theorem update_ids_ids (m : Mesh) (t : Nat) (hd : (m.triangles t).e1 ≠ (m.triangles t).e2) :
    ((update_ids m t).halfedges (m.triangles t).e1).id
      = ((m.halfedges (m.triangles t).e1).id + 1) % UNSIGNED_MOD ∧
    ((update_ids m t).halfedges (m.triangles t).e2).id
      = (((m.halfedges (m.triangles t).e1).id + 1) % UNSIGNED_MOD + UNSIGNED_MOD - 1)
          % UNSIGNED_MOD := by
  simp only [update_ids, Halfedge_set_id, setHalfedge_halfedges, setHalfedge_triangles,
    Function.update_apply]
  simp [hd, Ne.symm hd]


/-! ## Completeness of the traversal -/

theorem order_loop_closed (adj : Nat → List Nat) (fuel : Nat)
    (ih : ∀ visited t l visited1, flip_order adj fuel visited t = some (l, visited1) →
      ∀ x ∈ l, ∀ y ∈ adj x, y ∈ visited1)
    (l : List Nat) (visited : List Nat) (l2 visited2 : List Nat)
    (h : order_loop (flip_order adj fuel) l visited = some (l2, visited2)) :
    (∀ x ∈ visited, x ∈ visited2) ∧ (∀ y ∈ l, y ∈ visited2) ∧
      ∀ x ∈ l2, ∀ y ∈ adj x, y ∈ visited2 := by
  induction l generalizing visited l2 visited2 with
  | nil =>
    simp only [order_loop, Option.some.injEq, Prod.mk.injEq] at h
    obtain ⟨rfl, rfl⟩ := h
    simp
  | cons it rest ihl =>
    simp only [order_loop] at h
    split_ifs at h with hv
    · obtain ⟨p1, p2, p3⟩ := ihl visited l2 visited2 h
      refine ⟨p1, ?_, p3⟩
      intro y hy
      rcases List.mem_cons.1 hy with rfl | hy
      · exact p1 _ hv
      · exact p2 y hy
    · cases h1 : flip_order adj fuel visited it with
      | none => simp [h1] at h
      | some r1 =>
        obtain ⟨la, va⟩ := r1
        rw [h1] at h
        simp only at h
        cases h2 : order_loop (flip_order adj fuel) rest va with
        | none => simp [h2] at h
        | some r2 =>
          obtain ⟨lb, vb⟩ := r2
          rw [h2] at h
          simp only [Option.some.injEq, Prod.mk.injEq] at h
          obtain ⟨rfl, rfl⟩ := h
          obtain ⟨l0, _, _, _, hmem⟩ := flip_order_spec adj fuel visited it la va h1
          obtain ⟨p1, p2, p3⟩ := ihl va lb vb h2
          have hit : it ∈ va := (hmem it).2 (Or.inl ((mem_set_insert _ _ _).2 (Or.inl rfl)))
          have hsub : ∀ x ∈ visited, x ∈ va := fun x hx =>
            (hmem x).2 (Or.inl ((mem_set_insert _ _ _).2 (Or.inr hx)))
          refine ⟨fun x hx => p1 x (hsub x hx), ?_, ?_⟩
          · intro y hy
            rcases List.mem_cons.1 hy with rfl | hy
            · exact p1 _ hit
            · exact p2 y hy
          · intro x hx y hy
            rcases List.mem_append.1 hx with hxa | hxb
            · exact p1 y (ih visited it la va h1 x hxa y hy)
            · exact p3 x hxb y hy

theorem flip_order_closed (adj : Nat → List Nat) (fuel : Nat) (visited : List Nat) (t : Nat)
    (l visited1 : List Nat) (h : flip_order adj fuel visited t = some (l, visited1)) :
    ∀ x ∈ l, ∀ y ∈ adj x, y ∈ visited1 := by
  induction fuel generalizing visited t l visited1 with
  | zero => simp [flip_order] at h
  | succ fuel ih =>
    rw [flip_order] at h
    cases h1 : order_loop (flip_order adj fuel) (adj t) (set_insert t visited) with
    | none => simp [h1] at h
    | some r1 =>
      obtain ⟨l1, v1⟩ := r1
      rw [h1] at h
      simp only [Option.some.injEq, Prod.mk.injEq] at h
      obtain ⟨rfl, rfl⟩ := h
      obtain ⟨_, p2, p3⟩ := order_loop_closed adj fuel ih _ _ _ _ h1
      intro x hx y hy
      rcases List.mem_cons.1 hx with rfl | hx1
      · exact p2 y hy
      · exact p3 x hx1 y hy

/-- From the start triangle alone in the visited set, the traversal flips
the triangles reachable from it, each once. -/
theorem flip_order_reach (adj : Nat → List Nat) (fuel : Nat) (t : Nat)
    (l visited1 : List Nat) (h : flip_order adj fuel [t] t = some (l, visited1)) :
    l.Nodup ∧ ∀ x, x ∈ l ↔ Relation.ReflTransGen (fun a b => b ∈ adj a) t x := by
  obtain ⟨l1, rfl, hnd, hdis, hmem⟩ := flip_order_spec adj fuel [t] t l visited1 h
  have hclosed := flip_order_closed adj fuel [t] t _ _ h
  have hsound := flip_order_sound adj fuel [t] t _ _ h
  have ht1 : t ∉ l1 := fun hm => hdis t hm ((mem_set_insert _ _ _).2 (Or.inl rfl))
  have hv : ∀ x, x ∈ visited1 ↔ x ∈ t :: l1 := by
    intro x
    simp only [hmem, mem_set_insert, List.mem_cons, List.mem_singleton, List.not_mem_nil]
    tauto
  refine ⟨List.nodup_cons.2 ⟨ht1, hnd⟩, fun x => ⟨hsound x, ?_⟩⟩
  intro hr
  induction hr with
  | refl => exact List.mem_cons_self _ _
  | tail _ hstep ihr => exact (hv _).1 (hclosed _ ihr _ hstep)

theorem mem_adjacent_triangles (m : Mesh) (x y : Nat) :
    y ∈ adjacent_triangles m x ↔
      ∃ e ∈ edges_of (m.triangles x), ∃ p, (m.halfedges e).paired_he = some p ∧
        (m.halfedges p).triangle = y := by
  simp only [adjacent_triangles, mem_set_insert_ptr, Triangle_t0, Triangle_t1, Triangle_t2,
    Halfedge_paired_tri, List.not_mem_nil, or_false, Option.map_eq_some', edges_of,
    List.mem_cons, List.mem_singleton, exists_eq_or_imp, exists_eq_left]
  constructor
  · rintro (h | h | h)
    · exact Or.inr (Or.inr h)
    · exact Or.inr (Or.inl h)
    · exact Or.inl h
  · rintro (h | h | h)
    · exact Or.inr (Or.inr h)
    · exact Or.inr (Or.inl h)
    · exact Or.inl h


/-! ## Pairings through the repair -/

theorem detach_bad_paired (m : Mesh) (self : Nat) (b0 b1 b2 : Bool) (k : Nat)
    (d01 : (m.triangles self).e0 ≠ (m.triangles self).e1)
    (d02 : (m.triangles self).e0 ≠ (m.triangles self).e2)
    (d12 : (m.triangles self).e1 ≠ (m.triangles self).e2) :
    ((detach_bad m self b0 b1 b2).halfedges (edge_at (m.triangles self) k)).paired_he =
      if flag_at b0 b1 b2 k = true then none
      else (m.halfedges (edge_at (m.triangles self) k)).paired_he := by
  match k with
  | 0 =>
    cases b0 <;> cases b1 <;> cases b2 <;>
      simp [detach_bad, flag_at, edge_at, set_paired_he_paired, set_paired_he_triangles, d01, d02]
  | 1 =>
    cases b0 <;> cases b1 <;> cases b2 <;>
      simp [detach_bad, flag_at, edge_at, set_paired_he_paired, set_paired_he_triangles, d12,
        Ne.symm d01]
  | k + 2 =>
    cases b0 <;> cases b1 <;> cases b2 <;>
      simp [detach_bad, flag_at, edge_at, set_paired_he_paired, set_paired_he_triangles,
        Ne.symm d12, Ne.symm d02]

theorem reattach_bad_paired_all (m : Mesh) (tr : Triangle) (h0 h1 h2 : Option Nat)
    (b0 b1 b2 : Bool) (k : Nat) (d01 : tr.e0 ≠ tr.e1) (d02 : tr.e0 ≠ tr.e2)
    (d12 : tr.e1 ≠ tr.e2) :
    ((reattach_bad m tr.e0 tr.e1 tr.e2 h0 h1 h2 b0 b1 b2).halfedges (edge_at tr k)).paired_he =
      if flag_at b0 b1 b2 k = true then
        (match k with
          | 0 => h0
          | 1 => h1
          | _ => h2)
      else (m.halfedges (edge_at tr k)).paired_he := by
  match k with
  | 0 =>
    cases b0 <;> cases b1 <;> cases b2 <;>
      simp [reattach_bad, flag_at, edge_at, set_paired_he_paired, d01, d02]
  | 1 =>
    cases b0 <;> cases b1 <;> cases b2 <;>
      simp [reattach_bad, flag_at, edge_at, set_paired_he_paired, d12, Ne.symm d01]
  | k + 2 =>
    cases b0 <;> cases b1 <;> cases b2 <;>
      simp [reattach_bad, flag_at, edge_at, set_paired_he_paired, Ne.symm d12, Ne.symm d02]

theorem mem_edges_of_edge_at (tr : Triangle) (h : Nat) (hh : h ∈ edges_of tr) :
    ∃ k, k < 3 ∧ h = edge_at tr k := by
  simp only [edges_of, List.mem_cons, List.mem_singleton, List.not_mem_nil, or_false] at hh
  rcases hh with rfl | rfl | rfl
  · exact ⟨0, by decide, rfl⟩
  · exact ⟨1, by decide, rfl⟩
  · exact ⟨2, by decide, rfl⟩

/-- What `resolveChirality` returns on a finite mesh when the triangle's
three half-edges are three objects: the flipped triangles, and every pairing
as on entry. -/
theorem resolveChirality_pairings (fuel n : Nat) (m : Mesh) (self : Nat) (b0 b1 b2 : Bool)
    (hn : ∀ x, (m.halfedges x).triangle < n) (hfuel : n + 1 ≤ fuel)
    (d01 : (m.triangles self).e0 ≠ (m.triangles self).e1)
    (d02 : (m.triangles self).e0 ≠ (m.triangles self).e2)
    (d12 : (m.triangles self).e1 ≠ (m.triangles self).e2) :
    ∃ m1 l1, resolveChirality fuel m self b0 b1 b2 = some m1 ∧ self ∉ l1 ∧ l1.Nodup ∧
      (∀ x ∈ l1, Reach (detach_bad m self b0 b1 b2) self x) ∧
      (∀ x, m1.triangles x = swap_record^[(self :: l1).count x] (m.triangles x)) ∧
      (∀ h, direction m1 h = direction (flip_list (detach_bad m self b0 b1 b2) (self :: l1)) h) ∧
      (∀ h, (m1.halfedges h).paired_he = (m.halfedges h).paired_he) := by
  have hadj : adjacent_triangles
      (detach_bad (m.report (Diagnostic.resolving_chirality self)) self b0 b1 b2)
      = adjacent_triangles (detach_bad m self b0 b1 b2) := by
    rw [detach_bad_report, adjacent_triangles_report]
  have hbound : ∀ x y, y ∈ adjacent_triangles (detach_bad m self b0 b1 b2) x → y < n := by
    apply adjacent_triangles_lt
    intro x
    rw [detach_bad_owner]
    exact hn x
  obtain ⟨⟨l, v1⟩, hf⟩ := flip_order_terminates _ n hbound fuel [self] self
    (by have := unvisited_le n (set_insert self [self]); omega)
  obtain ⟨l1, rfl, hnd, hdis, hmem⟩ := flip_order_spec _ _ _ _ _ _ hf
  have hsound : ∀ x ∈ self :: l1, Reach (detach_bad m self b0 b1 b2) self x :=
    flip_order_sound _ _ _ _ _ _ hf
  obtain ⟨s1, s2⟩ := saved_pairings m (m.triangles self) b0 b1 d01 d02 d12
  have hres := resolveChirality_eq fuel m self b0 b1 b2
  rw [flipContiguousRegion_eq, hadj, hf, s1, s2] at hres
  simp only [Option.map_some'] at hres
  refine ⟨_, l1, hres, ?_, hnd, ?_, ?_, ?_, ?_⟩
  · exact fun h => hdis self h ((mem_set_insert _ _ _).2 (Or.inl rfl))
  · exact fun x hx => hsound x (List.mem_cons_of_mem _ hx)
  · intro x
    rw [reattach_bad_triangles, flip_list_triangles, detach_bad_triangles]
    rfl
  · intro h
    rw [reattach_bad_direction, detach_bad_report, flip_list_report]
    rfl
  · intro h
    by_cases hh : h ∈ edges_of (m.triangles self)
    · obtain ⟨k, _, rfl⟩ := mem_edges_of_edge_at _ _ hh
      rw [reattach_bad_paired_all _ _ _ _ _ _ _ _ k d01 d02 d12, flip_list_paired]
      have hd := detach_bad_paired (m.report (Diagnostic.resolving_chirality self)) self
        b0 b1 b2 k d01 d02 d12
      split_ifs with hk
      · match k with
        | 0 => rfl
        | 1 => rfl
        | k + 2 => rfl
      · rw [if_neg hk] at hd
        exact hd
    · have hh3 : h ≠ (m.triangles self).e0 ∧ h ≠ (m.triangles self).e1 ∧
          h ≠ (m.triangles self).e2 := by
        simpa [edges_of, not_or] using hh
      rw [reattach_bad_frame _ _ _ _ _ _ _ _ _ _ h hh3.1 hh3.2.1 hh3.2.2, flip_list_paired,
        detach_bad_frame (m.report (Diagnostic.resolving_chirality self)) self b0 b1 b2 h hh]
      rfl

/-! ## The vertex sets through the constructor -/

theorem Vertex_add_tri_vertices (m : Mesh) (a t v : Nat) :
    ((Vertex_add_tri m a t).vertices v).id = (m.vertices v).id ∧
    (∀ x, x ∈ ((Vertex_add_tri m a t).vertices v).tris ↔
      x ∈ (m.vertices v).tris ∨ (v = a ∧ x = t)) ∧
    ((Vertex_add_tri m a t).vertices v).vertices = (m.vertices v).vertices ∧
    ((Vertex_add_tri m a t).vertices v).halfedges = (m.vertices v).halfedges := by
  simp only [Vertex_add_tri, setVertex_vertices, Function.update_apply]
  split_ifs with h
  · subst h
    simp only [mem_set_insert, true_and, and_true]
    exact fun x => by tauto
  · simp [h]

theorem Vertex_add_vertex_vertices (m : Mesh) (a w v : Nat) :
    ((Vertex_add_vertex m a w).vertices v).id = (m.vertices v).id ∧
    ((Vertex_add_vertex m a w).vertices v).tris = (m.vertices v).tris ∧
    (∀ x, x ∈ ((Vertex_add_vertex m a w).vertices v).vertices ↔
      x ∈ (m.vertices v).vertices ∨ (v = a ∧ x = w)) ∧
    ((Vertex_add_vertex m a w).vertices v).halfedges = (m.vertices v).halfedges := by
  simp only [Vertex_add_vertex, setVertex_vertices, Function.update_apply]
  split_ifs with h
  · subst h
    simp only [mem_set_insert, true_and, and_true]
    exact fun x => by tauto
  · simp [h]

theorem Vertex_add_halfedge_vertices (m : Mesh) (a p v : Nat) :
    ((Vertex_add_halfedge m a p).vertices v).id = (m.vertices v).id ∧
    ((Vertex_add_halfedge m a p).vertices v).tris = (m.vertices v).tris ∧
    ((Vertex_add_halfedge m a p).vertices v).vertices = (m.vertices v).vertices ∧
    (∀ x, x ∈ ((Vertex_add_halfedge m a p).vertices v).halfedges ↔
      x ∈ (m.vertices v).halfedges ∨ (v = a ∧ x = p)) := by
  simp only [Vertex_add_halfedge, setVertex_vertices, Function.update_apply]
  split_ifs with h
  · subst h
    simp only [mem_set_insert, true_and, and_true]
    exact fun x => by tauto
  · simp [h]

theorem createHalfedge_vertices (pairing : Mesh → Nat → Nat → Option Nat) (m : Mesh)
    (self a b c id v : Nat) :
    (((createHalfedge pairing m self a b c id).1.vertices v).id = (m.vertices v).id) ∧
    (∀ t, t ∈ ((createHalfedge pairing m self a b c id).1.vertices v).tris ↔
      t ∈ (m.vertices v).tris ∨ (v = a ∧ t = self)) ∧
    (∀ x, x ∈ ((createHalfedge pairing m self a b c id).1.vertices v).vertices ↔
      x ∈ (m.vertices v).vertices ∨ (v = a ∧ x = b) ∨ (v = b ∧ x = a)) ∧
    (∀ h, h ∈ ((createHalfedge pairing m self a b c id).1.vertices v).halfedges ↔
      h ∈ (m.vertices v).halfedges ∨ (v = a ∧ h = m.n_halfedges)) := by
  have hdef : (createHalfedge pairing m self a b c id).1 =
      Vertex_add_halfedge (Halfedge_new pairing (Vertex_add_vertex (Vertex_add_vertex
        (Vertex_add_tri m a self) a b) b a) a b c self id).1 a
        (Halfedge_new pairing (Vertex_add_vertex (Vertex_add_vertex
          (Vertex_add_tri m a self) a b) b a) a b c self id).2 := rfl
  rw [hdef, Halfedge_new_snd]
  obtain ⟨_, hv, _⟩ := Halfedge_new_fst pairing (Vertex_add_vertex (Vertex_add_vertex
        (Vertex_add_tri m a self) a b) b a) a b c self id
  obtain ⟨p1, p2, p3, p4⟩ := Vertex_add_halfedge_vertices (Halfedge_new pairing
    (Vertex_add_vertex (Vertex_add_vertex (Vertex_add_tri m a self) a b) b a) a b c self id).1 a
    (Vertex_add_vertex (Vertex_add_vertex (Vertex_add_tri m a self) a b) b a).n_halfedges v
  rw [hv] at p1 p2 p3 p4
  obtain ⟨q1, q2, q3, q4⟩ := Vertex_add_vertex_vertices
    (Vertex_add_vertex (Vertex_add_tri m a self) a b) b a v
  obtain ⟨r1, r2, r3, r4⟩ := Vertex_add_vertex_vertices (Vertex_add_tri m a self) a b v
  obtain ⟨s1, s2, s3, s4⟩ := Vertex_add_tri_vertices m a self v
  refine ⟨?_, ?_, ?_, ?_⟩
  · rw [p1, q1, r1, s1]
  · intro t
    rw [p2, q2, r2, s2]
  · intro x
    rw [p3, q3, r3, s3]
    tauto
  · intro h
    rw [p4, q4, r4, s4]
    rfl

theorem create_halfedges_vertices (pairing : Mesh → Nat → Nat → Option Nat) (m : Mesh)
    (self v : Nat) :
    (((create_halfedges pairing m self).vertices v).id = (m.vertices v).id) ∧
    (∀ t, t ∈ ((create_halfedges pairing m self).vertices v).tris ↔
      t ∈ (m.vertices v).tris ∨
        (t = self ∧ (v = (m.triangles self).v0 ∨ v = (m.triangles self).v1 ∨
          v = (m.triangles self).v2))) ∧
    (∀ x, x ∈ ((create_halfedges pairing m self).vertices v).vertices ↔
      x ∈ (m.vertices v).vertices ∨
        (v = (m.triangles self).v0 ∧ (x = (m.triangles self).v1 ∨ x = (m.triangles self).v2)) ∨
        (v = (m.triangles self).v1 ∧ (x = (m.triangles self).v0 ∨ x = (m.triangles self).v2)) ∨
        (v = (m.triangles self).v2 ∧ (x = (m.triangles self).v0 ∨ x = (m.triangles self).v1))) ∧
    (∀ h, h ∈ ((create_halfedges pairing m self).vertices v).halfedges ↔
      h ∈ (m.vertices v).halfedges ∨ (v = (m.triangles self).v0 ∧ h = m.n_halfedges) ∨
        (v = (m.triangles self).v1 ∧ h = m.n_halfedges + 1) ∨
        (v = (m.triangles self).v2 ∧ h = m.n_halfedges + 2)) := by
  let c0 := createHalfedge pairing m self
    (m.triangles self).v0 (m.triangles self).v1 (m.triangles self).v2 0
  let m1 := c0.1.setTriangle self { c0.1.triangles self with e0 := c0.2 }
  let c1 := createHalfedge pairing m1 self
    (m1.triangles self).v1 (m1.triangles self).v2 (m1.triangles self).v0 1
  let m2 := c1.1.setTriangle self { c1.1.triangles self with e1 := c1.2 }
  let c2 := createHalfedge pairing m2 self
    (m2.triangles self).v2 (m2.triangles self).v0 (m2.triangles self).v1 2
  have hdef : create_halfedges pairing m self =
      c2.1.setTriangle self { c2.1.triangles self with e2 := c2.2 } := rfl
  rw [hdef]
  obtain ⟨a1, _, a3, _⟩ : c0.1.triangles = m.triangles ∧ c0.1.diagnostics = m.diagnostics ∧
      c0.1.n_halfedges = m.n_halfedges + 1 ∧ _ := createHalfedge_fst pairing m self _ _ _ 0
  have a5 : c0.2 = m.n_halfedges := createHalfedge_snd pairing m self _ _ _ 0
  obtain ⟨b1, _, b3, _⟩ : c1.1.triangles = m1.triangles ∧ c1.1.diagnostics = m1.diagnostics ∧
      c1.1.n_halfedges = m1.n_halfedges + 1 ∧ _ := createHalfedge_fst pairing m1 self _ _ _ 1
  have b5 : c1.2 = m1.n_halfedges := createHalfedge_snd pairing m1 self _ _ _ 1
  have hm1n : m1.n_halfedges = m.n_halfedges + 1 := a3
  have hm2n : m2.n_halfedges = m.n_halfedges + 2 := by
    show c1.1.n_halfedges = _
    rw [b3, hm1n]
  have hm1t : m1.triangles self = { m.triangles self with e0 := m.n_halfedges } := by
    show Function.update c0.1.triangles self { c0.1.triangles self with e0 := c0.2 } self = _
    rw [a1, a5, Function.update_same]
  have hm2t : m2.triangles self =
      { m.triangles self with e0 := m.n_halfedges, e1 := m.n_halfedges + 1 } := by
    show Function.update c1.1.triangles self { c1.1.triangles self with e1 := c1.2 } self = _
    rw [b1, b5, hm1n, Function.update_same, hm1t]
  have hm1v : (m1.triangles self).v0 = (m.triangles self).v0 ∧
      (m1.triangles self).v1 = (m.triangles self).v1 ∧
      (m1.triangles self).v2 = (m.triangles self).v2 := by
    rw [hm1t]; simp
  have hm2v : (m2.triangles self).v0 = (m.triangles self).v0 ∧
      (m2.triangles self).v1 = (m.triangles self).v1 ∧
      (m2.triangles self).v2 = (m.triangles self).v2 := by
    rw [hm2t]; simp
  obtain ⟨x1, x2, x3, x4⟩ : ((c0.1.vertices v).id = (m.vertices v).id) ∧
      (∀ t, t ∈ (c0.1.vertices v).tris ↔
        t ∈ (m.vertices v).tris ∨ (v = (m.triangles self).v0 ∧ t = self)) ∧
      (∀ x, x ∈ (c0.1.vertices v).vertices ↔
        x ∈ (m.vertices v).vertices ∨ (v = (m.triangles self).v0 ∧ x = (m.triangles self).v1) ∨
          (v = (m.triangles self).v1 ∧ x = (m.triangles self).v0)) ∧
      (∀ h, h ∈ (c0.1.vertices v).halfedges ↔
        h ∈ (m.vertices v).halfedges ∨ (v = (m.triangles self).v0 ∧ h = m.n_halfedges)) :=
    createHalfedge_vertices pairing m self _ _ _ 0 v
  obtain ⟨y1, y2, y3, y4⟩ : ((c1.1.vertices v).id = (c0.1.vertices v).id) ∧
      (∀ t, t ∈ (c1.1.vertices v).tris ↔
        t ∈ (c0.1.vertices v).tris ∨ (v = (m1.triangles self).v1 ∧ t = self)) ∧
      (∀ x, x ∈ (c1.1.vertices v).vertices ↔
        x ∈ (c0.1.vertices v).vertices ∨
          (v = (m1.triangles self).v1 ∧ x = (m1.triangles self).v2) ∨
          (v = (m1.triangles self).v2 ∧ x = (m1.triangles self).v1)) ∧
      (∀ h, h ∈ (c1.1.vertices v).halfedges ↔
        h ∈ (c0.1.vertices v).halfedges ∨ (v = (m1.triangles self).v1 ∧ h = m1.n_halfedges)) :=
    createHalfedge_vertices pairing m1 self _ _ _ 1 v
  obtain ⟨z1, z2, z3, z4⟩ : ((c2.1.vertices v).id = (c1.1.vertices v).id) ∧
      (∀ t, t ∈ (c2.1.vertices v).tris ↔
        t ∈ (c1.1.vertices v).tris ∨ (v = (m2.triangles self).v2 ∧ t = self)) ∧
      (∀ x, x ∈ (c2.1.vertices v).vertices ↔
        x ∈ (c1.1.vertices v).vertices ∨
          (v = (m2.triangles self).v2 ∧ x = (m2.triangles self).v0) ∨
          (v = (m2.triangles self).v0 ∧ x = (m2.triangles self).v2)) ∧
      (∀ h, h ∈ (c2.1.vertices v).halfedges ↔
        h ∈ (c1.1.vertices v).halfedges ∨ (v = (m2.triangles self).v2 ∧ h = m2.n_halfedges)) :=
    createHalfedge_vertices pairing m2 self _ _ _ 2 v
  rw [hm1v.2.1] at y2 y3 y4
  rw [hm1v.2.2] at y3
  rw [hm1n] at y4
  rw [hm2v.2.2] at z2 z3 z4
  rw [hm2v.1] at z3
  rw [hm2n] at z4
  refine ⟨?_, ?_, ?_, ?_⟩
  · show (c2.1.vertices v).id = _
    rw [z1, y1, x1]
  · intro t
    show t ∈ (c2.1.vertices v).tris ↔ _
    rw [z2, y2, x2]
    tauto
  · intro x
    show x ∈ (c2.1.vertices v).vertices ↔ _
    rw [z3, y3, x3]
    tauto
  · intro h
    show h ∈ (c2.1.vertices v).halfedges ↔ _
    rw [z4, y4, x4]
    tauto

/-! ## The entry state of the repair in the constructor -/

theorem chirality_flags_diagnostics (m : Mesh) (self v0 v1 v2 : Nat) :
    (chirality_flags m self v0 v1 v2).1.diagnostics =
      m.diagnostics ++ over_determined_reports m self v0 v1 v2 := by
  simp only [chirality_flags, halfedge_to_vertex_ite_report, over_determined_reports]
  generalize (Vertex_halfedge_to_vertex m v0 v1).isSome = a01
  generalize (Vertex_halfedge_to_vertex m v1 v0).isSome = a10
  generalize (Vertex_halfedge_to_vertex m v1 v2).isSome = a12
  generalize (Vertex_halfedge_to_vertex m v2 v1).isSome = a21
  generalize (Vertex_halfedge_to_vertex m v2 v0).isSome = a20
  generalize (Vertex_halfedge_to_vertex m v0 v2).isSome = a02
  cases a01 <;> cases a10 <;> cases a12 <;> cases a21 <;> cases a20 <;> cases a02 <;>
    simp [Mesh.report]

theorem chirality_flags_snd (m : Mesh) (self v0 v1 v2 : Nat) :
    (chirality_flags m self v0 v1 v2).2 =
      ((Vertex_halfedge_to_vertex m v0 v1).isSome && !(Vertex_halfedge_to_vertex m v1 v0).isSome,
       (Vertex_halfedge_to_vertex m v1 v2).isSome && !(Vertex_halfedge_to_vertex m v2 v1).isSome,
       (Vertex_halfedge_to_vertex m v2 v0).isSome && !(Vertex_halfedge_to_vertex m v0 v2).isSome) := by
  obtain ⟨_, _, _, _, a5, a6, a7, _⟩ := chirality_flags_spec m self v0 v1 v2
  have e : (chirality_flags m self v0 v1 v2).2 = ((chirality_flags m self v0 v1 v2).2.1,
      (chirality_flags m self v0 v1 v2).2.2.1, (chirality_flags m self v0 v1 v2).2.2.2) := rfl
  rw [e, a5, a6, a7]

theorem chirality_flags_setTriangle (m : Mesh) (t : Nat) (r : Triangle) (self v0 v1 v2 : Nat) :
    (chirality_flags (m.setTriangle t r) self v0 v1 v2).2 = (chirality_flags m self v0 v1 v2).2 ∧
    (chirality_flags (m.setTriangle t r) self v0 v1 v2).1.diagnostics
      = (chirality_flags m self v0 v1 v2).1.diagnostics := by
  constructor
  · rw [chirality_flags_snd, chirality_flags_snd]
    simp only [halfedge_to_vertex_setTriangle]
  · rw [chirality_flags_diagnostics, chirality_flags_diagnostics]
    simp only [over_determined_reports, halfedge_to_vertex_setTriangle, setTriangle_diagnostics]

/-- The entry state of the repair, field by field. -/
theorem entry_state_spec (pairing : Mesh → Nat → Nat → Option Nat) (m : Mesh)
    (self tri_id v0 v1 v2 : Nat) :
    (∀ x, (entry_state pairing m self tri_id v0 v1 v2).triangles x =
      if x = self then
        Triangle.mk tri_id v0 v1 v2 m.n_halfedges (m.n_halfedges + 1) (m.n_halfedges + 2)
      else m.triangles x) ∧
    (entry_state pairing m self tri_id v0 v1 v2).n_halfedges = m.n_halfedges + 3 ∧
    (entry_state pairing m self tri_id v0 v1 v2).diagnostics =
      m.diagnostics ++ over_determined_reports m self v0 v1 v2 ∧
    (∀ h, unpaired ((entry_state pairing m self tri_id v0 v1 v2).halfedges h) =
      if h = m.n_halfedges then Halfedge.mk 0 v0 v1 v2 self none
      else if h = m.n_halfedges + 1 then Halfedge.mk 1 v1 v2 v0 self none
      else if h = m.n_halfedges + 2 then Halfedge.mk 2 v2 v0 v1 self none
      else unpaired (m.halfedges h)) ∧
    ∀ v, ((entry_state pairing m self tri_id v0 v1 v2).vertices v).id = (m.vertices v).id ∧
      (∀ t, t ∈ ((entry_state pairing m self tri_id v0 v1 v2).vertices v).tris ↔
        t ∈ (m.vertices v).tris ∨ (t = self ∧ (v = v0 ∨ v = v1 ∨ v = v2))) ∧
      (∀ x, x ∈ ((entry_state pairing m self tri_id v0 v1 v2).vertices v).vertices ↔
        x ∈ (m.vertices v).vertices ∨ (v = v0 ∧ (x = v1 ∨ x = v2)) ∨
          (v = v1 ∧ (x = v0 ∨ x = v2)) ∨ (v = v2 ∧ (x = v0 ∨ x = v1))) ∧
      (∀ h, h ∈ ((entry_state pairing m self tri_id v0 v1 v2).vertices v).halfedges ↔
        h ∈ (m.vertices v).halfedges ∨ (v = v0 ∧ h = m.n_halfedges) ∨
          (v = v1 ∧ h = m.n_halfedges + 1) ∨ (v = v2 ∧ h = m.n_halfedges + 2)) := by
  unfold entry_state
  generalize hm0 : m.setTriangle self
    { m.triangles self with id := tri_id, v0 := v0, v1 := v1, v2 := v2 } = m0
  have t1 : m0.triangles self = { m.triangles self with
      id := tri_id, v0 := v0, v1 := v1, v2 := v2 } := by
    rw [← hm0, setTriangle_triangles, Function.update_same]
  have t0 : ∀ x, x ≠ self → m0.triangles x = m.triangles x := by
    intro x hx
    rw [← hm0, setTriangle_triangles, Function.update_noteq hx]
  have t2 : m0.halfedges = m.halfedges := by rw [← hm0]; rfl
  have t3 : m0.n_halfedges = m.n_halfedges := by rw [← hm0]; rfl
  have t4 : m0.vertices = m.vertices := by rw [← hm0]; rfl
  obtain ⟨c1, c2, c3, c4, _⟩ := chirality_flags_spec m0 self v0 v1 v2
  have c5 : (chirality_flags m0 self v0 v1 v2).1.diagnostics
      = m.diagnostics ++ over_determined_reports m self v0 v1 v2 := by
    rw [← hm0, (chirality_flags_setTriangle m self _ self v0 v1 v2).2,
      chirality_flags_diagnostics]
  obtain ⟨s1, s2, s3, s4⟩ := create_halfedges_spec pairing
    (chirality_flags m0 self v0 v1 v2).1 self
  rw [c1, c4, t3] at s1 s4
  rw [c4, t3] at s3
  rw [c2, t2] at s4
  rw [t1] at s1 s4
  refine ⟨?_, s3, by rw [s2, c5], ?_, ?_⟩
  · intro x
    rw [s1]
    split_ifs with hx
    · rfl
    · exact t0 x hx
  · intro h
    rw [s4]
  · intro v
    obtain ⟨w1, w2, w3, w4⟩ := create_halfedges_vertices pairing
      (chirality_flags m0 self v0 v1 v2).1 self v
    rw [c3, t4] at w1 w2 w3 w4
    rw [c1, t1] at w2 w3 w4
    rw [c4, t3] at w4
    exact ⟨w1, w2, w3, w4⟩

/-- The constructor in terms of the entry state. -/
theorem Triangle_new_entry (pairing : Mesh → Nat → Nat → Option Nat) (fuel : Nat) (m : Mesh)
    (self tri_id v0 v1 v2 : Nat) :
    Triangle_new pairing fuel m self tri_id v0 v1 v2 =
      (if (chirality_flags m self v0 v1 v2).2.1 = true then
          resolveChirality fuel (entry_state pairing m self tri_id v0 v1 v2) self
            (chirality_flags m self v0 v1 v2).2.1 (chirality_flags m self v0 v1 v2).2.2.1
            (chirality_flags m self v0 v1 v2).2.2.2
        else some (entry_state pairing m self tri_id v0 v1 v2)).map
        (fun m1 => check_attachment m1 self) := by
  rw [Triangle_new_eq, (chirality_flags_setTriangle m self _ self v0 v1 v2).1]
  rfl

/-! ## Vertex invariants through `createHalfedge` and the constructor -/

theorem createHalfedge_vertex_invariant (pairing : Mesh → Nat → Nat → Option Nat) (m : Mesh)
    (self a b c id : Nat) (hreg : registered_allocated m) (hinv : vertex_invariant m) :
    vertex_invariant (createHalfedge pairing m self a b c id).1 ∧
    registered_allocated (createHalfedge pairing m self a b c id).1 := by
  obtain ⟨_, _, f3, f4⟩ := createHalfedge_fst pairing m self a b c id
  have hown : ∀ h, ((createHalfedge pairing m self a b c id).1.halfedges h).triangle =
      if h = m.n_halfedges then self else (m.halfedges h).triangle := by
    intro h
    have := (unpaired_fields _ _ (f4 h)).2.2.2.2
    rw [this]
    split_ifs <;> rfl
  constructor
  · intro v t
    obtain ⟨_, w2, _, w4⟩ := createHalfedge_vertices pairing m self a b c id v
    rw [w2, hinv v t]
    constructor
    · rintro (⟨h, hh, ho⟩ | ⟨rfl, rfl⟩)
      · refine ⟨h, (w4 h).2 (Or.inl hh), ?_⟩
        rw [hown, if_neg (Nat.ne_of_lt (hreg v h hh)), ho]
      · refine ⟨m.n_halfedges, (w4 _).2 (Or.inr ⟨rfl, rfl⟩), ?_⟩
        rw [hown, if_pos rfl]
    · rintro ⟨h, hh, ho⟩
      rcases (w4 h).1 hh with hh | ⟨rfl, rfl⟩
      · left
        refine ⟨h, hh, ?_⟩
        rw [hown, if_neg (Nat.ne_of_lt (hreg v h hh))] at ho
        exact ho
      · right
        rw [hown, if_pos rfl] at ho
        exact ⟨rfl, ho.symm⟩
  · intro v h hh
    obtain ⟨_, _, _, w4⟩ := createHalfedge_vertices pairing m self a b c id v
    rw [f3]
    rcases (w4 h).1 hh with hh | ⟨_, rfl⟩
    · exact Nat.lt_succ_of_lt (hreg v h hh)
    · exact Nat.lt_succ_self _

theorem vertex_error_not_over_determined (m : Mesh) (self v0 v1 v2 t : Nat) :
    Diagnostic.vertex_error t ∉ over_determined_reports m self v0 v1 v2 := by
  unfold over_determined_reports
  intro h
  simp only [List.mem_append] at h
  rcases h with (h | h) | h <;> split_ifs at h <;> simp at h

/-- The vertex check of the constructor passes on every store whose vertex
sets are those of the entry state and whose record of the new triangle holds
the three vertices in some order. -/
theorem check_attachment_passes (m : Mesh) (self : Nat)
    (h0 : self ∈ (m.vertices (m.triangles self).v0).tris)
    (h1 : self ∈ (m.vertices (m.triangles self).v1).tris)
    (h2 : self ∈ (m.vertices (m.triangles self).v2).tris) :
    check_attachment m self = m := by
  unfold check_attachment Vertex_legal_attachment_to_tri
  simp [h0, h1, h2]

theorem matched_mesh_vertex_invariant :
    vertex_invariant matched_mesh ∧ registered_allocated matched_mesh ∧
      adjacency_symmetric matched_mesh := by
  refine ⟨?_, ?_, ?_⟩
  · intro v t
    match v with
    | 0 => simp [matched_mesh, matched_vertices, matched_halfedges, eq_comm]
    | 1 => simp [matched_mesh, matched_vertices, matched_halfedges, eq_comm]
    | 2 => simp [matched_mesh, matched_vertices, matched_halfedges, eq_comm]
    | 3 => simp [matched_mesh, matched_vertices, matched_halfedges, eq_comm]
    | (v + 4) => simp [matched_mesh, matched_vertices]
  · intro v h hh
    match v with
    | 0 => simp [matched_mesh, matched_vertices] at hh ⊢; omega
    | 1 => simp [matched_mesh, matched_vertices] at hh ⊢; omega
    | 2 => simp [matched_mesh, matched_vertices] at hh ⊢; omega
    | 3 => simp [matched_mesh, matched_vertices] at hh ⊢; omega
    | (v + 4) => simp [matched_mesh, matched_vertices] at hh
  · intro a b hb
    match a with
    | 0 =>
      simp [matched_mesh, matched_vertices] at hb
      rcases hb with rfl | rfl <;> simp [matched_mesh, matched_vertices]
    | 1 =>
      simp [matched_mesh, matched_vertices] at hb
      rcases hb with rfl | rfl | rfl <;> simp [matched_mesh, matched_vertices]
    | 2 =>
      simp [matched_mesh, matched_vertices] at hb
      rcases hb with rfl | rfl | rfl <;> simp [matched_mesh, matched_vertices]
    | 3 =>
      simp [matched_mesh, matched_vertices] at hb
      rcases hb with rfl | rfl <;> simp [matched_mesh, matched_vertices]
    | (v + 4) => simp [matched_mesh, matched_vertices] at hb

theorem entry_state_owner_lt (pairing : Mesh → Nat → Nat → Option Nat) (n : Nat) (m : Mesh)
    (self tri_id v0 v1 v2 : Nat) (hn : ∀ x, (m.halfedges x).triangle < n) (hself : self < n) :
    ∀ x, ((entry_state pairing m self tri_id v0 v1 v2).halfedges x).triangle < n := by
  intro x
  obtain ⟨_, _, _, s4, _⟩ := entry_state_spec pairing m self tri_id v0 v1 v2
  have e := (unpaired_fields _ _ (s4 x)).2.2.2.2
  rw [e]
  split_ifs
  · exact hself
  · exact hself
  · exact hself
  · exact hn x

/-- On a finite mesh with enough fuel the constructor returns, and its vertex
sets are those of the entry state: neither the repair nor the vertex check
writes to a vertex. -/
theorem Triangle_new_vertices (pairing : Mesh → Nat → Nat → Option Nat) (fuel n : Nat)
    (m : Mesh) (self tri_id v0 v1 v2 : Nat) (hn : ∀ x, (m.halfedges x).triangle < n)
    (hself : self < n) (hfuel : n + 1 ≤ fuel) :
    ∃ m1, Triangle_new pairing fuel m self tri_id v0 v1 v2 = some m1 ∧
      m1.vertices = (entry_state pairing m self tri_id v0 v1 v2).vertices := by
  have hres := Triangle_new_entry pairing fuel m self tri_id v0 v1 v2
  by_cases hflag : (chirality_flags m self v0 v1 v2).2.1 = true
  · rw [if_pos hflag] at hres
    obtain ⟨m2, _, hr, _, _, _, _, _, _, _, hv⟩ := resolveChirality_returns fuel n
      (entry_state pairing m self tri_id v0 v1 v2) self
      (chirality_flags m self v0 v1 v2).2.1 (chirality_flags m self v0 v1 v2).2.2.1
      (chirality_flags m self v0 v1 v2).2.2.2
      (entry_state_owner_lt pairing n m self tri_id v0 v1 v2 hn hself) hfuel
    rw [hr] at hres
    simp only [Option.map_some'] at hres
    exact ⟨_, hres, by rw [(check_attachment_fields m2 self).2.2.1, hv]⟩
  · rw [if_neg hflag] at hres
    simp only [Option.map_some'] at hres
    exact ⟨_, hres, (check_attachment_fields _ self).2.2.1⟩

/-! ## The repair of a triangle with no attached neighbour -/

theorem flip_order_isolated (adj : Nat → List Nat) (fuel : Nat) (visited : List Nat) (t : Nat)
    (hadj : adj t = []) :
    flip_order adj (fuel + 1) visited t = some ([t], set_insert t visited) := by
  simp only [flip_order, hadj, order_loop]

theorem adjacent_triangles_all_detached (m : Mesh) (self : Nat)
    (d01 : (m.triangles self).e0 ≠ (m.triangles self).e1)
    (d02 : (m.triangles self).e0 ≠ (m.triangles self).e2)
    (d12 : (m.triangles self).e1 ≠ (m.triangles self).e2) :
    adjacent_triangles (detach_bad m self true true true) self = [] := by
  have p0 := detach_bad_paired m self true true true 0 d01 d02 d12
  have p1 := detach_bad_paired m self true true true 1 d01 d02 d12
  have p2 := detach_bad_paired m self true true true 2 d01 d02 d12
  simp only [flag_at, edge_at, if_true] at p0 p1 p2
  simp only [adjacent_triangles, Triangle_t0, Triangle_t1, Triangle_t2, Halfedge_paired_tri,
    detach_bad_triangles, p0, p1, p2, Option.map_none', set_insert_ptr]

/-- The repair of a triangle whose adjacency is empty once the flagged
pairings are detached: one call of the flood fill suffices, and it flips the
triangle alone. -/
theorem resolveChirality_isolated (fuel : Nat) (m : Mesh) (self : Nat) (b0 b1 b2 : Bool)
    (hadj : adjacent_triangles (detach_bad m self b0 b1 b2) self = []) :
    flipContiguousRegion (fuel + 1) (detach_bad m self b0 b1 b2) self
      = some (flip_self (detach_bad m self b0 b1 b2) self) ∧
    ∃ m1, resolveChirality (fuel + 1) m self b0 b1 b2 = some m1 ∧
      (∀ x, m1.triangles x = if x = self then swap_record (m.triangles x) else m.triangles x) ∧
      (∀ h, direction m1 h = direction (flip_self (detach_bad m self b0 b1 b2) self) h) ∧
      m1.n_halfedges = m.n_halfedges ∧
      m1.diagnostics = m.diagnostics ++ [Diagnostic.resolving_chirality self] ∧
      m1.vertices = m.vertices := by
  have hadj2 : adjacent_triangles
      (detach_bad (m.report (Diagnostic.resolving_chirality self)) self b0 b1 b2)
      = adjacent_triangles (detach_bad m self b0 b1 b2) := by
    rw [detach_bad_report, adjacent_triangles_report]
  have hf := flip_order_isolated (adjacent_triangles (detach_bad m self b0 b1 b2)) fuel
    [self] self hadj
  constructor
  · rw [flipContiguousRegion_eq, hf]
    rfl
  have hres := resolveChirality_eq (fuel + 1) m self b0 b1 b2
  rw [flipContiguousRegion_eq, hadj2, hf] at hres
  simp only [Option.map_some'] at hres
  refine ⟨_, hres, ?_, ?_, ?_, ?_, ?_⟩
  · intro x
    rw [reattach_bad_triangles, flip_list_triangles, detach_bad_triangles]
    show swap_record^[[self].count x] (m.triangles x) = _
    by_cases hx : x = self
    · subst hx
      simp
    · rw [if_neg hx, List.count_eq_zero_of_not_mem (by simpa using hx)]
      rfl
  · intro h
    rw [reattach_bad_direction, detach_bad_report, flip_list_report]
    rfl
  · rw [reattach_bad_n_halfedges, flip_list_n_halfedges, detach_bad_n_halfedges]
    rfl
  · rw [reattach_bad_diagnostics, detach_bad_report, flip_list_report]
    show (flip_list (detach_bad m self b0 b1 b2) [self]).diagnostics ++ _ = _
    rw [flip_list_diagnostics, detach_bad_diagnostics]
  · rw [reattach_bad_vertices, flip_list_vertices, detach_bad_vertices]
    rfl

theorem entry_state_direction (pairing : Mesh → Nat → Nat → Option Nat) (m : Mesh)
    (self tri_id v0 v1 v2 h : Nat) :
    direction (entry_state pairing m self tri_id v0 v1 v2) h =
      if h = m.n_halfedges then (v0, v1)
      else if h = m.n_halfedges + 1 then (v1, v2)
      else if h = m.n_halfedges + 2 then (v2, v0)
      else direction m h := by
  obtain ⟨_, _, _, s4, _⟩ := entry_state_spec pairing m self tri_id v0 v1 v2
  have e := unpaired_fields _ _ (s4 h)
  unfold direction
  rw [e.2.1, e.2.2.1]
  split_ifs <;> rfl

theorem entry_state_distinct (pairing : Mesh → Nat → Nat → Option Nat) (m : Mesh)
    (self tri_id v0 v1 v2 : Nat) :
    ((entry_state pairing m self tri_id v0 v1 v2).triangles self).e0 ≠
      ((entry_state pairing m self tri_id v0 v1 v2).triangles self).e1 ∧
    ((entry_state pairing m self tri_id v0 v1 v2).triangles self).e0 ≠
      ((entry_state pairing m self tri_id v0 v1 v2).triangles self).e2 ∧
    ((entry_state pairing m self tri_id v0 v1 v2).triangles self).e1 ≠
      ((entry_state pairing m self tri_id v0 v1 v2).triangles self).e2 := by
  obtain ⟨s1, _⟩ := entry_state_spec pairing m self tri_id v0 v1 v2
  have hself := s1 self
  rw [if_pos rfl] at hself
  rw [hself]
  refine ⟨?_, ?_, ?_⟩ <;> simp

/-- Directions after the flip of the new triangle alone, whatever flags were
detached: its three half-edges are reversed, every other half-edge keeps its
direction. -/
theorem entry_state_flip_direction (pairing : Mesh → Nat → Nat → Option Nat) (m : Mesh)
    (self tri_id v0 v1 v2 : Nat) (b0 b1 b2 : Bool) (h : Nat) :
    direction (flip_self (detach_bad (entry_state pairing m self tri_id v0 v1 v2)
        self b0 b1 b2) self) h =
      if h = m.n_halfedges then (v1, v0)
      else if h = m.n_halfedges + 1 then (v2, v1)
      else if h = m.n_halfedges + 2 then (v0, v2)
      else direction m h := by
  obtain ⟨s1, _⟩ := entry_state_spec pairing m self tri_id v0 v1 v2
  have hself := s1 self
  rw [if_pos rfl] at hself
  rw [flip_self_direction, detach_bad_triangles, detach_bad_direction, entry_state_direction,
    hself]
  simp only [edges_of, List.count_cons, List.count_nil, beq_iff_eq]
  by_cases h0 : h = m.n_halfedges
  · subst h0
    simp
  by_cases h1 : h = m.n_halfedges + 1
  · subst h1
    simp
  by_cases h2 : h = m.n_halfedges + 2
  · subst h2
    simp
  simp [h0, h1, h2, Ne.symm h0, Ne.symm h1, Ne.symm h2]

theorem single_mesh_is_mesh_A :
    mesh_A.map (fun m => snapshot m 1 3 3) = some (snapshot single_mesh 1 3 3) := by
  decide!

/-! ## The constructor when the repair does not run, and when it runs -/

theorem Triangle_new_unrepaired (pairing : Mesh → Nat → Nat → Option Nat) (fuel : Nat)
    (m : Mesh) (self tri_id v0 v1 v2 : Nat)
    (hflag : (chirality_flags m self v0 v1 v2).2.1 = false) :
    Triangle_new pairing fuel m self tri_id v0 v1 v2
      = some (entry_state pairing m self tri_id v0 v1 v2) := by
  have hres := Triangle_new_entry pairing fuel m self tri_id v0 v1 v2
  rw [hflag] at hres
  simp only [Bool.false_eq_true, if_false, Option.map_some'] at hres
  obtain ⟨s1, _, _, _, s5⟩ := entry_state_spec pairing m self tri_id v0 v1 v2
  have hself := s1 self
  rw [if_pos rfl] at hself
  have hchk : check_attachment (entry_state pairing m self tri_id v0 v1 v2) self
      = entry_state pairing m self tri_id v0 v1 v2 := by
    apply check_attachment_passes <;> rw [hself]
    · exact ((s5 v0).2.1 self).2 (Or.inr ⟨rfl, Or.inl rfl⟩)
    · exact ((s5 v1).2.1 self).2 (Or.inr ⟨rfl, Or.inr (Or.inl rfl)⟩)
    · exact ((s5 v2).2.1 self).2 (Or.inr ⟨rfl, Or.inr (Or.inr rfl)⟩)
  rw [hres, hchk]

theorem entry_state_corner_direction (pairing : Mesh → Nat → Nat → Option Nat) (m : Mesh)
    (self tri_id v0 v1 v2 j : Nat) (hj : j < 3) :
    direction (entry_state pairing m self tri_id v0 v1 v2) (m.n_halfedges + j)
      = (corner_at v0 v1 v2 j, corner_at v0 v1 v2 ((j + 1) % 3)) := by
  rw [entry_state_direction]
  match j with
  | 0 => simp [corner_at]
  | 1 => simp [corner_at]
  | 2 => simp [corner_at]
  | j + 3 => omega

/-- The constructor on a finite mesh when the repair runs: it returns, the new
triangle is flipped once, each of its three half-edges is reversed once, and
every pairing is the one of the entry state. -/
theorem Triangle_new_repaired (pairing : Mesh → Nat → Nat → Option Nat) (fuel n : Nat)
    (m : Mesh) (self tri_id v0 v1 v2 : Nat) (hn : ∀ x, (m.halfedges x).triangle < n)
    (hself : self < n) (hfuel : n + 1 ≤ fuel)
    (hwf : ∀ x, x ≠ self → ∀ e ∈ edges_of (m.triangles x), e < m.n_halfedges)
    (hflag : (chirality_flags m self v0 v1 v2).2.1 = true) :
    ∃ m1, Triangle_new pairing fuel m self tri_id v0 v1 v2 = some m1 ∧
      m1.triangles self = Triangle.mk tri_id v1 v0 v2
        m.n_halfedges (m.n_halfedges + 2) (m.n_halfedges + 1) ∧
      (∀ j, j < 3 → direction m1 (m.n_halfedges + j)
        = (corner_at v0 v1 v2 ((j + 1) % 3), corner_at v0 v1 v2 j)) ∧
      (∀ h, (m1.halfedges h).paired_he
        = ((entry_state pairing m self tri_id v0 v1 v2).halfedges h).paired_he) := by
  obtain ⟨s1, _, _, _, _⟩ := entry_state_spec pairing m self tri_id v0 v1 v2
  have hrec := s1 self
  rw [if_pos rfl] at hrec
  obtain ⟨d01, d02, d12⟩ := entry_state_distinct pairing m self tri_id v0 v1 v2
  obtain ⟨m2, l1, hr, hnotin, _, _, t2, dir2, pr2⟩ := resolveChirality_pairings fuel n
    (entry_state pairing m self tri_id v0 v1 v2) self
    (chirality_flags m self v0 v1 v2).2.1 (chirality_flags m self v0 v1 v2).2.2.1
    (chirality_flags m self v0 v1 v2).2.2.2
    (entry_state_owner_lt pairing n m self tri_id v0 v1 v2 hn hself) hfuel d01 d02 d12
  have hres := Triangle_new_entry pairing fuel m self tri_id v0 v1 v2
  rw [if_pos hflag, hr] at hres
  simp only [Option.map_some'] at hres
  obtain ⟨k1, k2, _, _, _⟩ := check_attachment_fields m2 self
  refine ⟨_, hres, ?_, ?_, ?_⟩
  · rw [k1, t2, List.count_cons_self, List.count_eq_zero_of_not_mem hnotin, hrec]
    rfl
  · intro j hj
    have hsum : (List.map (fun t => List.count (m.n_halfedges + j)
        (edges_of ((detach_bad (entry_state pairing m self tri_id v0 v1 v2) self
          (chirality_flags m self v0 v1 v2).2.1 (chirality_flags m self v0 v1 v2).2.2.1
          (chirality_flags m self v0 v1 v2).2.2.2).triangles t))) (self :: l1)).sum = 1 := by
      rw [detach_bad_triangles, List.map_cons, List.sum_cons, hrec]
      have hz : (List.map (fun t => List.count (m.n_halfedges + j)
          (edges_of ((entry_state pairing m self tri_id v0 v1 v2).triangles t))) l1).sum = 0 := by
        apply List.sum_eq_zero
        intro c hc
        obtain ⟨x, hx, rfl⟩ := List.mem_map.1 hc
        have hxs : x ≠ self := fun hsx => hnotin (hsx ▸ hx)
        rw [s1, if_neg hxs, List.count_eq_zero]
        intro hmem
        have := hwf x hxs _ hmem
        omega
      rw [hz]
      match j with
      | 0 => simp [edges_of]
      | 1 => simp [edges_of]
      | 2 => simp [edges_of]
      | j + 3 => omega
    have hd : direction (check_attachment m2 self) (m.n_halfedges + j)
        = direction m2 (m.n_halfedges + j) := by
      unfold direction
      rw [k2]
    rw [hd, dir2, flip_list_direction, hsum, detach_bad_direction,
      entry_state_corner_direction pairing m self tri_id v0 v1 v2 j hj]
    rfl
  · intro h
    rw [k2, pr2]

theorem matched_mesh_edges_lt (x : Nat) :
    ∀ e ∈ edges_of (matched_mesh.triangles x), e < matched_mesh.n_halfedges := by
  match x with
  | 0 => decide
  | 1 => decide
  | 2 => decide
  | x + 3 =>
    intro e he
    change e ∈ [0, 0, 0] at he
    have h0 : e = 0 := by simpa using he
    rw [h0]
    decide

/-! ## The claims -/


/-- C1: the constructor does not run the repair when the only clean conflict
is on the third edge.  After `(0,1,2)`, the triangle `(2,3,1)` has its edge
`1 → 2` in clean conflict (a half-edge `1 → 2` exists, none runs `2 → 1`) and
no conflict on its first two edges; the constructed triangle keeps the vertex
order `(2,3,1)`, its half-edges keep their direction and no repair is
reported. -/
theorem C1_conflict_on_third_edge_not_repaired :
    mesh_A.map (fun m => (chirality_flags m 1 2 3 1).2) = some (false, false, true) ∧
    mesh_A.map (fun m => (Vertex_halfedge_to_vertex m 1 2, Vertex_halfedge_to_vertex m 2 1))
      = some (some 1, none) ∧
    mesh_B_reversed.map (fun m => m.triangles 1)
      = some { id := 1, v0 := 2, v1 := 3, v2 := 1, e0 := 3, e1 := 4, e2 := 5 } ∧
    mesh_B_reversed.map (fun m => ((m.halfedges 3).v0, (m.halfedges 3).v1,
      (m.halfedges 4).v0, (m.halfedges 4).v1, (m.halfedges 5).v0, (m.halfedges 5).v1))
      = some (2, 3, 3, 1, 1, 2) ∧
    mesh_B_reversed.map (fun m => ((m.halfedges 1).v0, (m.halfedges 1).v1)) = some (1, 2) ∧
    mesh_B_reversed.map (fun m => m.diagnostics) = some [] := by
  decide!

/-- C2: a clean conflict handled by `resolveChirality`.  On a finite mesh whose
half-edges are owned by their triangles, if the bad edge's half-edge is paired
on entry with a half-edge `h` running in the same direction, and the triangle
of `h` cannot be reached from the new triangle once the bad edges are detached,
then `resolveChirality` returns, the half-edge is still paired with `h`, it runs
from the destination of `h` to the origin of `h`, and `h` and its triangle are
unchanged. -/
theorem C2_bad_edge_ends_opposite (fuel n : Nat) (m : Mesh) (self : Nat) (b0 b1 b2 : Bool)
    (k h : Nat)
    (hn : ∀ x, (m.halfedges x).triangle < n) (hfuel : n + 1 ≤ fuel)
    (hbad : flag_at b0 b1 b2 k = true)
    (hpair : (m.halfedges (edge_at (m.triangles self) k)).paired_he = some h)
    (hsame : direction m h = direction m (edge_at (m.triangles self) k))
    (hown : ∀ x, Reach (detach_bad m self b0 b1 b2) self x → owns_edges m x)
    (hfar : ¬ Reach (detach_bad m self b0 b1 b2) self (m.halfedges h).triangle) :
    ∃ m1, resolveChirality fuel m self b0 b1 b2 = some m1 ∧
      (m1.halfedges (edge_at (m.triangles self) k)).paired_he = some h ∧
      direction m1 (edge_at (m.triangles self) k) = (direction m h).swap ∧
      m1.halfedges h = m.halfedges h ∧
      m1.triangles (m.halfedges h).triangle = m.triangles (m.halfedges h).triangle := by
  have hadj : adjacent_triangles
      (detach_bad (m.report (Diagnostic.resolving_chirality self)) self b0 b1 b2)
      = adjacent_triangles (detach_bad m self b0 b1 b2) := by
    rw [detach_bad_report, adjacent_triangles_report]
  have hbound : ∀ x y, y ∈ adjacent_triangles (detach_bad m self b0 b1 b2) x → y < n := by
    apply adjacent_triangles_lt
    intro x
    rw [detach_bad_owner]
    exact hn x
  obtain ⟨⟨l, v1⟩, hf⟩ := flip_order_terminates _ n hbound fuel [self] self
    (by have := unvisited_le n (set_insert self [self]); omega)
  obtain ⟨l1, rfl, hnd, hdis, hmem⟩ := flip_order_spec _ _ _ _ _ _ hf
  have hsound : ∀ x ∈ self :: l1, Reach (detach_bad m self b0 b1 b2) self x :=
    flip_order_sound _ _ _ _ _ _ hf
  have hself : owns_edges m self := hown self Relation.ReflTransGen.refl
  obtain ⟨d01, d02, d12, hownself⟩ := hself
  have hmd : (detach_bad (m.report (Diagnostic.resolving_chirality self)) self b0 b1 b2).triangles
      = m.triangles := detach_bad_triangles _ _ _ _ _
  have hnotin : ∀ x, Reach (detach_bad m self b0 b1 b2) self x →
      h ∉ edges_of (m.triangles x) := by
    intro x hx hmemx
    apply hfar
    rw [(hown x hx).2.2.2 h hmemx]
    exact hx
  have hh : h ∉ edges_of (m.triangles self) := hnotin self Relation.ReflTransGen.refl
  have hh3 : h ≠ (m.triangles self).e0 ∧ h ≠ (m.triangles self).e1 ∧
      h ≠ (m.triangles self).e2 := by
    simpa [edges_of, not_or] using hh
  obtain ⟨s1, s2⟩ := saved_pairings m (m.triangles self) b0 b1 d01 d02 d12
  have hres := resolveChirality_eq fuel m self b0 b1 b2
  rw [flipContiguousRegion_eq, hadj, hf, s1, s2] at hres
  simp only [Option.map_some'] at hres
  refine ⟨_, hres, ?_, ?_, ?_, ?_⟩
  · rw [reattach_bad_paired _ _ _ _ _ _ _ _ k d01 d02 d12 hbad]
    match k with
    | 0 => exact hpair
    | 1 => exact hpair
    | k + 2 => exact hpair
  · have hsum : (List.map (fun t => List.count (edge_at (m.triangles self) k)
        (edges_of ((detach_bad (m.report (Diagnostic.resolving_chirality self))
          self b0 b1 b2).triangles t))) (self :: l1)).sum = 1 := by
      rw [hmd, List.map_cons, List.sum_cons, count_edge_at _ _ d01 d02 d12]
      have hz : (List.map (fun t => List.count (edge_at (m.triangles self) k)
          (edges_of (m.triangles t))) l1).sum = 0 := by
        apply List.sum_eq_zero
        intro c hc
        obtain ⟨x, hx, rfl⟩ := List.mem_map.1 hc
        have hxs : self ≠ x := fun hsx =>
          hdis x hx ((mem_set_insert _ _ _).2 (Or.inl hsx.symm))
        exact count_edges_disjoint m self x _ ⟨d01, d02, d12, hownself⟩
          (hown x (hsound x (List.mem_cons_of_mem _ hx))) hxs (edge_at_mem _ _)
      rw [hz]
    rw [reattach_bad_direction, flip_list_direction, hsum, detach_bad_direction, hsame]
    rfl
  · rw [reattach_bad_frame _ _ _ _ _ _ _ _ _ _ h hh3.1 hh3.2.1 hh3.2.2, flip_list_frame,
      detach_bad_frame (m.report (Diagnostic.resolving_chirality self)) self b0 b1 b2 h hh]
    · rfl
    · intro x hx
      rw [hmd]
      exact hnotin x (hsound x hx)
  · rw [reattach_bad_triangles, flip_list_triangles, List.count_eq_zero_of_not_mem, hmd]
    · rfl
    · intro hx
      exact hfar (hsound _ hx)

/-- C2 at a concrete input: the first edge of the new triangle `(1,2,3)` of
`conflict_mesh`, paired with half-edge 1 of the triangle `(0,1,2)`. -/
theorem C2_bad_edge_ends_opposite_witness :
    (conflict_mesh.halfedges 3).paired_he = some 1 ∧
    direction conflict_mesh 1 = direction conflict_mesh 3 ∧
    ∃ m1, resolveChirality 3 conflict_mesh 1 true false false = some m1 ∧
      (m1.halfedges 3).paired_he = some 1 ∧
      direction m1 3 = (2, 1) ∧
      m1.halfedges 1 = conflict_mesh.halfedges 1 ∧
      m1.triangles 0 = conflict_mesh.triangles 0 :=
  ⟨rfl, rfl, C2_bad_edge_ends_opposite 3 2 conflict_mesh 1 true false false 0 1
    conflict_mesh_owner_lt (by decide) rfl rfl rfl
    (fun x hx => by rw [conflict_mesh_reach x hx]; exact conflict_mesh_owns)
    (fun hx => absurd (conflict_mesh_reach 0 hx) (by decide))⟩

/-- C3: `reduce_scalar_to_vertices` does not add the single value
`triangle_scalar[t]` to the three vertices.  For triangle 0 of scenario B, with
`triangle_scalar = [5, 7]` followed in memory by 9, the vertices 0, 1, 2 receive
5, 7 and 9: the entries `t`, `t + 1` and `t + 2`. -/
theorem C3_reads_three_consecutive_entries :
    mesh_B.map (fun m =>
      (reduce_scalar_to_vertices m 0
        (fun i => if i = 0 then (5 : Int) else if i = 1 then 7 else 9) (fun _ => 0) 0,
       reduce_scalar_to_vertices m 0
        (fun i => if i = 0 then (5 : Int) else if i = 1 then 7 else 9) (fun _ => 0) 1,
       reduce_scalar_to_vertices m 0
        (fun i => if i = 0 then (5 : Int) else if i = 1 then 7 else 9) (fun _ => 0) 2,
       reduce_scalar_to_vertices m 0
        (fun i => if i = 0 then (5 : Int) else if i = 1 then 7 else 9) (fun _ => 0) 3))
      = some (5, 7, 9, 0) := by
  decide!

/-- C4: `reduce_scalar_per_vertex_to_vertices` on a triangle with id `t`, for a
source array of `3 * n_triangles` entries whose offsets fit the type `unsigned`:
corner `k` adds `source[3 * t + k]` to the entry of its vertex, in the order
`k = 0, 1, 2`, so that contributions to a repeated vertex accumulate; every
other entry is unchanged, and the three offsets read lie inside the array. -/
theorem C4_per_vertex_reduction (α : Type) [Add α] (m : Mesh) (self n_triangles : Nat)
    (source vertex_scalar : Nat → α)
    (hid : (m.triangles self).id < n_triangles) (hlen : 3 * n_triangles ≤ UNSIGNED_MOD) :
    (∀ j, reduce_scalar_per_vertex_to_vertices m self source vertex_scalar j =
      (if j = (m.vertices (m.triangles self).v2).id then
        (if j = (m.vertices (m.triangles self).v1).id then
          (if j = (m.vertices (m.triangles self).v0).id
            then vertex_scalar j + source (3 * (m.triangles self).id) else vertex_scalar j)
            + source (3 * (m.triangles self).id + 1)
         else
          (if j = (m.vertices (m.triangles self).v0).id
            then vertex_scalar j + source (3 * (m.triangles self).id) else vertex_scalar j))
          + source (3 * (m.triangles self).id + 2)
       else
        (if j = (m.vertices (m.triangles self).v1).id then
          (if j = (m.vertices (m.triangles self).v0).id
            then vertex_scalar j + source (3 * (m.triangles self).id) else vertex_scalar j)
            + source (3 * (m.triangles self).id + 1)
         else
          (if j = (m.vertices (m.triangles self).v0).id
            then vertex_scalar j + source (3 * (m.triangles self).id) else vertex_scalar j)))) ∧
    (∀ j, j ≠ (m.vertices (m.triangles self).v0).id → j ≠ (m.vertices (m.triangles self).v1).id →
      j ≠ (m.vertices (m.triangles self).v2).id →
      reduce_scalar_per_vertex_to_vertices m self source vertex_scalar j = vertex_scalar j) ∧
    ((m.vertices (m.triangles self).v0).id ≠ (m.vertices (m.triangles self).v1).id →
      (m.vertices (m.triangles self).v0).id ≠ (m.vertices (m.triangles self).v2).id →
      (m.vertices (m.triangles self).v1).id ≠ (m.vertices (m.triangles self).v2).id →
      reduce_scalar_per_vertex_to_vertices m self source vertex_scalar
          (m.vertices (m.triangles self).v0).id
        = vertex_scalar (m.vertices (m.triangles self).v0).id
          + source (3 * (m.triangles self).id) ∧
      reduce_scalar_per_vertex_to_vertices m self source vertex_scalar
          (m.vertices (m.triangles self).v1).id
        = vertex_scalar (m.vertices (m.triangles self).v1).id
          + source (3 * (m.triangles self).id + 1) ∧
      reduce_scalar_per_vertex_to_vertices m self source vertex_scalar
          (m.vertices (m.triangles self).v2).id
        = vertex_scalar (m.vertices (m.triangles self).v2).id
          + source (3 * (m.triangles self).id + 2)) ∧
    ((m.vertices (m.triangles self).v0).id = (m.vertices (m.triangles self).v1).id →
      (m.vertices (m.triangles self).v0).id ≠ (m.vertices (m.triangles self).v2).id →
      reduce_scalar_per_vertex_to_vertices m self source vertex_scalar
          (m.vertices (m.triangles self).v0).id
        = vertex_scalar (m.vertices (m.triangles self).v0).id
          + source (3 * (m.triangles self).id) + source (3 * (m.triangles self).id + 1)) ∧
    3 * (m.triangles self).id + 2 < 3 * n_triangles := by
  have hb : 3 * (m.triangles self).id + 2 < UNSIGNED_MOD := by omega
  have h0 : (m.triangles self).id * 3 % UNSIGNED_MOD = 3 * (m.triangles self).id := by
    rw [Nat.mod_eq_of_lt (by omega)]; omega
  have h1 : (3 * (m.triangles self).id + 1) % UNSIGNED_MOD = 3 * (m.triangles self).id + 1 :=
    Nat.mod_eq_of_lt (by omega)
  have h2 : (3 * (m.triangles self).id + 2) % UNSIGNED_MOD = 3 * (m.triangles self).id + 2 :=
    Nat.mod_eq_of_lt (by omega)
  have key : ∀ j, reduce_scalar_per_vertex_to_vertices m self source vertex_scalar j =
      (if j = (m.vertices (m.triangles self).v2).id then
        (if j = (m.vertices (m.triangles self).v1).id then
          (if j = (m.vertices (m.triangles self).v0).id
            then vertex_scalar j + source (3 * (m.triangles self).id) else vertex_scalar j)
            + source (3 * (m.triangles self).id + 1)
         else
          (if j = (m.vertices (m.triangles self).v0).id
            then vertex_scalar j + source (3 * (m.triangles self).id) else vertex_scalar j))
          + source (3 * (m.triangles self).id + 2)
       else
        (if j = (m.vertices (m.triangles self).v1).id then
          (if j = (m.vertices (m.triangles self).v0).id
            then vertex_scalar j + source (3 * (m.triangles self).id) else vertex_scalar j)
            + source (3 * (m.triangles self).id + 1)
         else
          (if j = (m.vertices (m.triangles self).v0).id
            then vertex_scalar j + source (3 * (m.triangles self).id) else vertex_scalar j))) := by
    intro j
    simp only [reduce_scalar_per_vertex_to_vertices, h0, h1, h2, Function.update_apply]
    split_ifs <;> simp_all
  refine ⟨key, ?_, ?_, ?_, by omega⟩
  · intro j n0 n1 n2
    rw [key, if_neg n2, if_neg n1, if_neg n0]
  · intro d01 d02 d12
    refine ⟨?_, ?_, ?_⟩
    · rw [key, if_neg d02, if_neg d01, if_pos rfl]
    · rw [key, if_neg d12, if_pos rfl, if_neg (Ne.symm d01)]
    · rw [key, if_pos rfl, if_neg (Ne.symm d12), if_neg (Ne.symm d02)]
  · intro e01 d02
    rw [key, if_neg d02, if_pos e01, if_pos rfl]

/-- C4 at a concrete input: triangle 1 of scenario B, with `source[i] = i`. -/
theorem C4_per_vertex_reduction_witness :
    (matched_mesh.triangles 1).id < 2 ∧ 3 * 2 ≤ UNSIGNED_MOD ∧
    reduce_scalar_per_vertex_to_vertices matched_mesh 1 (fun i => (i : Int)) (fun _ => 0) 1 = 3 ∧
    reduce_scalar_per_vertex_to_vertices matched_mesh 1 (fun i => (i : Int)) (fun _ => 0) 3 = 4 ∧
    reduce_scalar_per_vertex_to_vertices matched_mesh 1 (fun i => (i : Int)) (fun _ => 0) 2 = 5 ∧
    reduce_scalar_per_vertex_to_vertices matched_mesh 1 (fun i => (i : Int)) (fun _ => 0) 0 = 0 :=
  ⟨by decide, by decide,
    ((C4_per_vertex_reduction Int matched_mesh 1 2 (fun i => (i : Int)) (fun _ => 0)
      (by decide) (by decide)).2.2.1 (by decide) (by decide) (by decide)).1,
    ((C4_per_vertex_reduction Int matched_mesh 1 2 (fun i => (i : Int)) (fun _ => 0)
      (by decide) (by decide)).2.2.1 (by decide) (by decide) (by decide)).2.1,
    ((C4_per_vertex_reduction Int matched_mesh 1 2 (fun i => (i : Int)) (fun _ => 0)
      (by decide) (by decide)).2.2.1 (by decide) (by decide) (by decide)).2.2,
    (C4_per_vertex_reduction Int matched_mesh 1 2 (fun i => (i : Int)) (fun _ => 0)
      (by decide) (by decide)).2.1 0 (by decide) (by decide) (by decide)⟩

/-- C5: the reduction of the constant 1 does not leave the incident-triangle
count.  On the single triangle of scenario A, with `triangle_scalar` the
one-entry array `[1]` and `vertex_scalar` zeroed, vertices 1 and 2 receive the
two values that follow the array in memory, whatever they are, although each
vertex has exactly one incident triangle. -/
theorem C5_constant_one_reads_past_array (rest : Nat → Int) :
    mesh_A.map (fun m =>
      (reduce_tri_scalar_to_vertices m [0] (ones_then 1 rest) (fun _ => 0) 0,
       reduce_tri_scalar_to_vertices m [0] (ones_then 1 rest) (fun _ => 0) 1,
       reduce_tri_scalar_to_vertices m [0] (ones_then 1 rest) (fun _ => 0) 2,
       (m.vertices 0).tris.length, (m.vertices 1).tris.length, (m.vertices 2).tris.length))
      = some (1, rest 1, rest 2, 1, 1, 1) := by
  have key := mesh_A_fields
  cases hm : mesh_A with
  | none => rw [hm] at key; simp at key
  | some m =>
    rw [hm] at key
    simp only [Option.map_some', Option.some.injEq, Prod.mk.injEq] at key
    obtain ⟨⟨ht, h0, h1, h2⟩, t0, t1, t2⟩ := key
    simp [reduce_tri_scalar_to_vertices, reduce_scalar_to_vertices, ht, h0, h1, h2, t0, t1, t2,
      ones_then, UNSIGNED_MOD, Function.update_apply]

/-- C6: an edge of a new triangle between two vertices that already carry
half-edges in both directions.  The constructor's flag computation reports the
edge over-determined and clears its flip flag, whichever of the three edges it
is (the condition is symmetric in the two vertices, so it does not depend on
the winding); and on a finite mesh the construction returns, with the report
in its output and the triangle holding its three new half-edges, which it
owns. -/
theorem C6_over_determined_edge (pairing : Mesh → Nat → Nat → Option Nat) (fuel n : Nat)
    (m : Mesh) (self tri_id v0 v1 v2 : Nat)
    (hn : ∀ x, (m.halfedges x).triangle < n) (hself : self < n) (hfuel : n + 1 ≤ fuel) :
    ((Vertex_halfedge_to_vertex m v0 v1).isSome = true →
      (Vertex_halfedge_to_vertex m v1 v0).isSome = true →
        (chirality_flags m self v0 v1 v2).2.1 = false ∧
        Diagnostic.over_determined self 0 ∈ (chirality_flags m self v0 v1 v2).1.diagnostics) ∧
    ((Vertex_halfedge_to_vertex m v1 v2).isSome = true →
      (Vertex_halfedge_to_vertex m v2 v1).isSome = true →
        (chirality_flags m self v0 v1 v2).2.2.1 = false ∧
        Diagnostic.over_determined self 1 ∈ (chirality_flags m self v0 v1 v2).1.diagnostics) ∧
    ((Vertex_halfedge_to_vertex m v2 v0).isSome = true →
      (Vertex_halfedge_to_vertex m v0 v2).isSome = true →
        (chirality_flags m self v0 v1 v2).2.2.2 = false ∧
        Diagnostic.over_determined self 2 ∈ (chirality_flags m self v0 v1 v2).1.diagnostics) ∧
    ∃ m1, Triangle_new pairing fuel m self tri_id v0 v1 v2 = some m1 ∧
      m1.n_halfedges = m.n_halfedges + 3 ∧
      (edges_of (m1.triangles self) = [m.n_halfedges, m.n_halfedges + 1, m.n_halfedges + 2] ∨
       edges_of (m1.triangles self) = [m.n_halfedges, m.n_halfedges + 2, m.n_halfedges + 1]) ∧
      (∀ e ∈ edges_of (m1.triangles self), (m1.halfedges e).triangle = self) ∧
      ((Vertex_halfedge_to_vertex m v0 v1).isSome = true →
        (Vertex_halfedge_to_vertex m v1 v0).isSome = true →
        Diagnostic.over_determined self 0 ∈ m1.diagnostics) ∧
      ((Vertex_halfedge_to_vertex m v1 v2).isSome = true →
        (Vertex_halfedge_to_vertex m v2 v1).isSome = true →
        Diagnostic.over_determined self 1 ∈ m1.diagnostics) ∧
      ((Vertex_halfedge_to_vertex m v2 v0).isSome = true →
        (Vertex_halfedge_to_vertex m v0 v2).isSome = true →
        Diagnostic.over_determined self 2 ∈ m1.diagnostics) := by
  obtain ⟨_, _, _, _, a5, a6, a7, _, a9, a10, a11⟩ := chirality_flags_spec m self v0 v1 v2
  refine ⟨fun p q => ⟨by rw [a5, p, q]; rfl, a9 p q⟩, fun p q => ⟨by rw [a6, p, q]; rfl, a10 p q⟩,
    fun p q => ⟨by rw [a7, p, q]; rfl, a11 p q⟩, ?_⟩
  have hres := Triangle_new_eq pairing fuel m self tri_id v0 v1 v2
  generalize hm0 : m.setTriangle self
    { m.triangles self with id := tri_id, v0 := v0, v1 := v1, v2 := v2 } = m0 at hres
  have t2 : m0.halfedges = m.halfedges := by rw [← hm0]; rfl
  have t3 : m0.n_halfedges = m.n_halfedges := by rw [← hm0]; rfl
  obtain ⟨c1, c2, _, c4, _, _, _, _, c9, c10, c11⟩ := chirality_flags_spec m0 self v0 v1 v2
  simp only [← hm0, halfedge_to_vertex_setTriangle] at c9 c10 c11
  simp only [hm0] at c9 c10 c11
  obtain ⟨s1, s2, s3, s4⟩ := create_halfedges_spec pairing
    (chirality_flags m0 self v0 v1 v2).1 self
  rw [c4, t3] at s1 s3 s4
  rw [c2, t2] at s4
  generalize create_halfedges pairing (chirality_flags m0 self v0 v1 v2).1 self = mc
    at hres s1 s2 s3 s4
  have hs1 := s1 self
  rw [if_pos rfl] at hs1
  have hownc : ∀ x, (mc.halfedges x).triangle < n := by
    intro x
    have e := (unpaired_fields _ _ (s4 x)).2.2.2.2
    rw [e]
    split_ifs
    · exact hself
    · exact hself
    · exact hself
    · exact hn x
  have hnew : ∀ e ∈ [m.n_halfedges, m.n_halfedges + 1, m.n_halfedges + 2],
      (mc.halfedges e).triangle = self := by
    intro e he
    have e4 := (unpaired_fields _ _ (s4 e)).2.2.2.2
    rw [e4]
    simp only [List.mem_cons, List.mem_singleton, List.not_mem_nil, or_false] at he
    rcases he with rfl | rfl | rfl <;> simp
  cases hflag : (chirality_flags m0 self v0 v1 v2).2.1 with
  | false =>
    rw [hflag] at hres
    simp only [Bool.false_eq_true, if_false, Option.map_some'] at hres
    obtain ⟨k1, k2, _, k4, k5⟩ := check_attachment_fields mc self
    refine ⟨_, hres, ?_, ?_, ?_, ?_, ?_, ?_⟩
    · rw [k4, s3]
    · left
      rw [k1, hs1]
      rfl
    · intro e he
      rw [k1, hs1] at he
      rw [k2]
      exact hnew e he
    · exact fun p q => k5 _ (s2 ▸ c9 p q)
    · exact fun p q => k5 _ (s2 ▸ c10 p q)
    · exact fun p q => k5 _ (s2 ▸ c11 p q)
  | true =>
    rw [hflag] at hres
    simp only [if_true] at hres
    obtain ⟨m2, l1, hr, hnot, _, _, htri, hnh, hhe, hdiag, _⟩ := resolveChirality_returns fuel n
      mc self true (chirality_flags m0 self v0 v1 v2).2.2.1
      (chirality_flags m0 self v0 v1 v2).2.2.2 hownc hfuel
    rw [hr] at hres
    simp only [Option.map_some'] at hres
    obtain ⟨k1, k2, _, k4, k5⟩ := check_attachment_fields m2 self
    have hts : m2.triangles self = swap_record (mc.triangles self) := by
      rw [htri, List.count_cons_self, List.count_eq_zero_of_not_mem hnot]
      rfl
    have hown2 : ∀ e, (m2.halfedges e).triangle = (mc.halfedges e).triangle := by
      intro e
      have e4 : (m2.halfedges e).triangle = ((flip_list (detach_bad mc self true
          (chirality_flags m0 self v0 v1 v2).2.2.1 (chirality_flags m0 self v0 v1 v2).2.2.2)
          (self :: l1)).halfedges e).triangle := (unpaired_fields _ _ (hhe e)).2.2.2.2
      rw [e4, flip_list_owner, detach_bad_owner]
    have hd2 : ∀ d ∈ mc.diagnostics, d ∈ m2.diagnostics := by
      intro d hd
      rw [hdiag]
      exact List.mem_append_left _ hd
    refine ⟨_, hres, ?_, ?_, ?_, ?_, ?_, ?_⟩
    · rw [k4, hnh, s3]
    · right
      rw [k1, hts, hs1]
      rfl
    · intro e he
      rw [k1, hts, mem_edges_of_swap_record, hs1] at he
      rw [k2, hown2]
      exact hnew e he
    · exact fun p q => k5 _ (hd2 _ (s2 ▸ c9 p q))
    · exact fun p q => k5 _ (hd2 _ (s2 ▸ c10 p q))
    · exact fun p q => k5 _ (hd2 _ (s2 ▸ c11 p q))


/-- C6 at a concrete input: the triangle `(0,1,2)` built a second time on the
mesh of scenario B.  Its first edge is a clean conflict, so the repair runs;
its second edge, between vertices 1 and 2, is over-determined. -/
theorem C6_over_determined_edge_witness :
    (Vertex_halfedge_to_vertex matched_mesh 1 2).isSome = true ∧
    (Vertex_halfedge_to_vertex matched_mesh 2 1).isSome = true ∧
    (chirality_flags matched_mesh 2 0 1 2).2 = (true, false, true) ∧
    ∃ m1, Triangle_new opposite_pairing 4 matched_mesh 2 2 0 1 2 = some m1 ∧
      m1.n_halfedges = 9 ∧ Diagnostic.over_determined 2 1 ∈ m1.diagnostics := by
  obtain ⟨_, _, _, m1, hm, hnh, _, _, _, hd, _⟩ := C6_over_determined_edge opposite_pairing 4 3
    matched_mesh 2 2 0 1 2 matched_mesh_owner_lt (by decide) (by decide)
  exact ⟨by decide, by decide, by decide, m1, hm, hnh, hd (by decide) (by decide)⟩

/-- C7: a new triangle none of whose three prospective half-edges has a
pre-existing half-edge in the same direction is constructed without any flip.
No flag is raised and the constructor returns, whatever the fuel, without
calling the repair; every other triangle keeps its record, every half-edge that
existed keeps its origin and destination, and the new triangle holds
`(v0,v1,v2)` as supplied with its three new half-edges in creation order. -/
theorem C7_consistent_triangle_flips_nothing (pairing : Mesh → Nat → Nat → Option Nat)
    (fuel : Nat) (m : Mesh) (self tri_id v0 v1 v2 : Nat)
    (h0 : Vertex_halfedge_to_vertex m v0 v1 = none)
    (h1 : Vertex_halfedge_to_vertex m v1 v2 = none)
    (h2 : Vertex_halfedge_to_vertex m v2 v0 = none) :
    (chirality_flags m self v0 v1 v2).2 = (false, false, false) ∧
    ∃ m1, Triangle_new pairing fuel m self tri_id v0 v1 v2 = some m1 ∧
      (∀ x, x ≠ self → m1.triangles x = m.triangles x) ∧
      (∀ h, h ≠ m.n_halfedges → h ≠ m.n_halfedges + 1 → h ≠ m.n_halfedges + 2 →
        direction m1 h = direction m h) ∧
      m1.triangles self = Triangle.mk tri_id v0 v1 v2
        m.n_halfedges (m.n_halfedges + 1) (m.n_halfedges + 2) ∧
      edge_invariant m1 self := by
  refine ⟨?_, ?_⟩
  · obtain ⟨_, _, _, _, a5, a6, a7, _⟩ := chirality_flags_spec m self v0 v1 v2
    have e : (chirality_flags m self v0 v1 v2).2 = ((chirality_flags m self v0 v1 v2).2.1,
        (chirality_flags m self v0 v1 v2).2.2.1, (chirality_flags m self v0 v1 v2).2.2.2) := rfl
    rw [e, a5, a6, a7, h0, h1, h2]
    rfl
  have hres := Triangle_new_eq pairing fuel m self tri_id v0 v1 v2
  generalize hm0 : m.setTriangle self
    { m.triangles self with id := tri_id, v0 := v0, v1 := v1, v2 := v2 } = m0 at hres
  obtain ⟨c1, c2, _, c4, c5, _, _, _, _, _, _⟩ := chirality_flags_spec m0 self v0 v1 v2
  have hf0 : (chirality_flags m0 self v0 v1 v2).2.1 = false := by
    rw [c5, ← hm0, halfedge_to_vertex_setTriangle, h0]
    rfl
  obtain ⟨s1, _, s3, s4⟩ := create_halfedges_spec pairing
    (chirality_flags m0 self v0 v1 v2).1 self
  rw [c1, c4] at s1
  rw [c1, c2, c4] at s4
  obtain ⟨k1, k2, _, _, _⟩ := check_attachment_fields (create_halfedges pairing
    (chirality_flags m0 self v0 v1 v2).1 self) self
  rw [hf0] at hres
  simp only [Bool.false_eq_true, if_false, Option.map_some'] at hres
  have t0 : ∀ x, x ≠ self → m0.triangles x = m.triangles x := by
    intro x hx
    rw [← hm0, setTriangle_triangles, Function.update_noteq hx]
  have t1 : m0.triangles self = { m.triangles self with
      id := tri_id, v0 := v0, v1 := v1, v2 := v2 } := by
    rw [← hm0, setTriangle_triangles, Function.update_same]
  have t2 : m0.halfedges = m.halfedges := by rw [← hm0]; rfl
  have t3 : m0.n_halfedges = m.n_halfedges := by rw [← hm0]; rfl
  rw [t3] at s1 s4
  rw [t2] at s4
  refine ⟨_, hres, ?_, ?_, ?_, ?_⟩
  · intro x hx
    rw [k1, s1, if_neg hx, t0 x hx]
  · intro h n0 n1 n2
    have e := unpaired_fields _ _ (s4 h)
    rw [if_neg n0, if_neg n1, if_neg n2] at e
    unfold direction
    rw [k2, e.2.1, e.2.2.1]
    rfl
  · rw [k1, s1, if_pos rfl, t1]
  · have e0 := unpaired_fields _ _ (s4 m.n_halfedges)
    have e1 := unpaired_fields _ _ (s4 (m.n_halfedges + 1))
    have e2 := unpaired_fields _ _ (s4 (m.n_halfedges + 2))
    simp only [if_true, Nat.succ_ne_self, if_false, Nat.add_eq_left, OfNat.ofNat_ne_zero,
      Nat.add_right_cancel_iff, OfNat.ofNat_ne_one] at e0 e1 e2
    unfold edge_invariant direction
    rw [k1, k2, s1, if_pos rfl, t1]
    simp only [e0.2.1, e0.2.2.1, e1.2.1, e1.2.2.1, e2.2.1, e2.2.2.1, t1, and_self]

/-- C7 at a concrete input: the triangle `(1,0,4)` added to the mesh of
scenario B, consistently wound with its neighbour `(0,1,2)`. -/
theorem C7_consistent_triangle_flips_nothing_witness :
    Vertex_halfedge_to_vertex matched_mesh 0 1 = some 0 ∧
    Vertex_halfedge_to_vertex matched_mesh 1 0 = none ∧
    ∃ m1, Triangle_new opposite_pairing 0 matched_mesh 2 2 1 0 4 = some m1 ∧
      m1.triangles 0 = matched_mesh.triangles 0 ∧
      m1.triangles 1 = matched_mesh.triangles 1 ∧
      direction m1 0 = direction matched_mesh 0 ∧
      m1.triangles 2 = Triangle.mk 2 1 0 4 6 7 8 := by
  obtain ⟨_, m1, hm, ht, hd, hs, _⟩ := C7_consistent_triangle_flips_nothing opposite_pairing 0
    matched_mesh 2 2 1 0 4 (by decide) (by decide) (by decide)
  exact ⟨by decide, by decide, m1, hm, ht 0 (by decide), ht 1 (by decide),
    hd 0 (by decide) (by decide) (by decide), hs⟩

/-- C8: half-edge `e_k` runs from `v_k` to `v_(k+1 mod 3)`.  The three
`createHalfedge` calls of the constructor establish it for the new triangle,
whose vertex references they keep; and when it holds, together with the
ownership of half-edges, on the triangles reachable from the start, every
triangle that a returning `recursiveFlip` flips has its record swapped and
satisfies it again. -/
theorem C8_edges_follow_vertices (pairing : Mesh → Nat → Nat → Option Nat) (m : Mesh)
    (self : Nat) :
    edge_invariant (create_halfedges pairing m self) self ∧
    (((create_halfedges pairing m self).triangles self).v0 = (m.triangles self).v0 ∧
     ((create_halfedges pairing m self).triangles self).v1 = (m.triangles self).v1 ∧
     ((create_halfedges pairing m self).triangles self).v2 = (m.triangles self).v2) ∧
    ∀ fuel visited t m1 visited1, recursiveFlip fuel m visited t = some (m1, visited1) →
      (∀ x, Reach m t x → edge_invariant m x ∧ owns_edges m x) →
      ∀ x, (x = t ∨ (x ∈ visited1 ∧ x ∉ visited)) →
        m1.triangles x = swap_record (m.triangles x) ∧ edge_invariant m1 x := by
  obtain ⟨ht, _, _, hh⟩ := create_halfedges_spec pairing m self
  refine ⟨?_, ?_, ?_⟩
  · have h0 := unpaired_fields _ _ (hh m.n_halfedges)
    have h1 := unpaired_fields _ _ (hh (m.n_halfedges + 1))
    have h2 := unpaired_fields _ _ (hh (m.n_halfedges + 2))
    simp only [if_true, Nat.succ_ne_self, if_false, Nat.add_eq_left, OfNat.ofNat_ne_zero,
      Nat.add_right_cancel_iff, OfNat.ofNat_ne_one] at h0 h1 h2
    unfold edge_invariant direction
    rw [ht self]
    simp only [if_true, h0.2.1, h0.2.2.1, h1.2.1, h1.2.2.1, h2.2.1, h2.2.2.1, and_self]
  · rw [ht self]
    simp
  · intro fuel visited t m1 visited1 hr hI x hx
    rw [recursiveFlip_eq] at hr
    cases hf : flip_order (adjacent_triangles m) fuel visited t with
    | none => simp [hf] at hr
    | some r =>
      obtain ⟨l, v1⟩ := r
      rw [hf] at hr
      simp only [Option.map_some', Option.some.injEq, Prod.mk.injEq] at hr
      obtain ⟨rfl, rfl⟩ := hr
      obtain ⟨l1, rfl, hnd, hdis, hmem⟩ := flip_order_spec _ _ _ _ _ _ hf
      have hsound := flip_order_sound _ _ _ _ _ _ hf
      have ht1 : t ∉ l1 := fun h => hdis t h ((mem_set_insert _ _ _).2 (Or.inl rfl))
      have hxl : x ∈ t :: l1 := by
        rcases hx with rfl | ⟨hx1, hx2⟩
        · exact List.mem_cons_self _ _
        · rcases (hmem x).1 hx1 with h | h
          · rcases (mem_set_insert _ _ _).1 h with rfl | h
            · exact List.mem_cons_self _ _
            · exact absurd h hx2
          · exact List.mem_cons_of_mem _ h
      have hcount : (t :: l1).count x = 1 :=
        List.count_eq_one_of_mem (List.nodup_cons.2 ⟨ht1, hnd⟩) hxl
      refine ⟨?_, ?_⟩
      · rw [flip_list_triangles, hcount]
        rfl
      · exact (flip_list_preserves (Reach m t) (t :: l1) m hsound hI x (hsound x hxl)).1

/-- C8 at a concrete input: the flood fill from triangle 0 of `book_mesh`. -/
theorem C8_edges_follow_vertices_witness :
    (∀ x, Reach book_mesh 0 x → edge_invariant book_mesh x ∧ owns_edges book_mesh x) ∧
    ∃ m1 visited1, recursiveFlip 4 book_mesh [] 0 = some (m1, visited1) ∧
      m1.triangles 0 = swap_record (book_mesh.triangles 0) ∧ edge_invariant m1 0 := by
  have hI : ∀ x, Reach book_mesh 0 x → edge_invariant book_mesh x ∧ owns_edges book_mesh x :=
    fun x hx => book_mesh_invariants x (book_mesh_reach x hx)
  obtain ⟨⟨m1, v1⟩, hr⟩ := recursiveFlip_terminates book_mesh 3 book_mesh_owner_lt 4 [] 0
    (by have := unvisited_le 3 (set_insert 0 []); omega)
  exact ⟨hI, m1, v1, hr,
    (C8_edges_follow_vertices opposite_pairing book_mesh 0).2.2 4 [] 0 m1 v1 hr hI 0 (Or.inl rfl)⟩

/-- C9: two successive calls of `flipContiguousRegion` from the same triangle
give every triangle its original record (vertex and half-edge references) and
every half-edge its original origin and destination; on a finite mesh both
calls return. -/
theorem C9_double_flip_restores (m : Mesh) (self : Nat) :
    (∀ fuel fuel2 m1 m2, flipContiguousRegion fuel m self = some m1 →
        flipContiguousRegion fuel2 m1 self = some m2 →
        (∀ t, m2.triangles t = m.triangles t) ∧ ∀ h, direction m2 h = direction m h) ∧
    (∀ n, (∀ h, (m.halfedges h).triangle < n) → ∀ fuel fuel2, n + 1 ≤ fuel → n + 1 ≤ fuel2 →
        ∃ m1 m2, flipContiguousRegion fuel m self = some m1 ∧
          flipContiguousRegion fuel2 m1 self = some m2) := by
  constructor
  · intro fuel fuel2 m1 m2 h1 h2
    rw [flipContiguousRegion_eq] at h1 h2
    cases hr1 : flip_order (adjacent_triangles m) fuel [self] self with
    | none => simp [hr1] at h1
    | some r1 =>
      rw [hr1] at h1
      simp only [Option.map_some', Option.some.injEq] at h1
      subst h1
      rw [adjacent_triangles_flip_list] at h2
      cases hr2 : flip_order (adjacent_triangles m) fuel2 [self] self with
      | none => simp [hr2] at h2
      | some r2 =>
        rw [hr2] at h2
        simp only [Option.map_some', Option.some.injEq] at h2
        subst h2
        have e1 := flip_order_mono _ fuel (max fuel fuel2) (le_max_left _ _) _ _ _ hr1
        have e2 := flip_order_mono _ fuel2 (max fuel fuel2) (le_max_right _ _) _ _ _ hr2
        rw [e1] at e2
        simp only [Option.some.injEq] at e2
        subst e2
        exact ⟨flip_list_twice_triangles m r1.1, flip_list_twice_direction m r1.1⟩
  · intro n hn fuel fuel2 hf hf2
    have hu : ∀ f, n + 1 ≤ f → unvisited n (set_insert self [self]) + 1 ≤ f := fun f hf => by
      have := unvisited_le n (set_insert self [self]); omega
    obtain ⟨r1, hr1⟩ := flip_order_terminates (adjacent_triangles m) n
      (adjacent_triangles_lt m n hn) fuel [self] self (hu fuel hf)
    obtain ⟨r2, hr2⟩ := flip_order_terminates (adjacent_triangles m) n
      (adjacent_triangles_lt m n hn) fuel2 [self] self (hu fuel2 hf2)
    refine ⟨flip_list m r1.1, flip_list (flip_list m r1.1) r2.1, ?_, ?_⟩
    · rw [flipContiguousRegion_eq, hr1]; rfl
    · rw [flipContiguousRegion_eq, adjacent_triangles_flip_list, hr2]; rfl

/-- C9 at a concrete input: two flood fills from triangle 0 of `book_mesh`. -/
theorem C9_double_flip_restores_witness :
    (∀ h, (book_mesh.halfedges h).triangle < 3) ∧
    ∃ m1 m2, flipContiguousRegion 4 book_mesh 0 = some m1 ∧
      flipContiguousRegion 4 m1 0 = some m2 ∧
      (∀ t, m2.triangles t = book_mesh.triangles t) ∧
      ∀ h, direction m2 h = direction book_mesh h := by
  refine ⟨book_mesh_owner_lt, ?_⟩
  obtain ⟨m1, m2, h1, h2⟩ :=
    (C9_double_flip_restores book_mesh 0).2 3 book_mesh_owner_lt 4 4 (by decide) (by decide)
  exact ⟨m1, m2, h1, h2, (C9_double_flip_restores book_mesh 0).1 4 4 m1 m2 h1 h2⟩

/-- C10: on a finite mesh (every half-edge's owner is one of `n` triangles)
the flood fill terminates.  A call of `recursiveFlip` returns as soon as the
fuel exceeds the number of unvisited triangles; the triangles it flips beyond
its own are distinct and were not in the visited set, and it adds exactly them
to the set.  `flipContiguousRegion` returns for every fuel above `n`, with the
same result. -/
theorem C10_flood_fill_terminates (m : Mesh) (n : Nat)
    (hn : ∀ h, (m.halfedges h).triangle < n) :
    (∀ fuel visited t, unvisited n (set_insert t visited) + 1 ≤ fuel →
      ∃ l visited1, recursiveFlip fuel m visited t = some (flip_list m (t :: l), visited1) ∧
        l.Nodup ∧ (∀ x ∈ l, x ∉ set_insert t visited) ∧
        ∀ x, x ∈ visited1 ↔ x ∈ set_insert t visited ∨ x ∈ l) ∧
    (∀ fuel self, n + 1 ≤ fuel →
      ∃ m1, flipContiguousRegion fuel m self = some m1 ∧
        flipContiguousRegion (n + 1) m self = some m1) := by
  constructor
  · intro fuel visited t hf
    obtain ⟨⟨l, v1⟩, hr⟩ := flip_order_terminates (adjacent_triangles m) n
      (adjacent_triangles_lt m n hn) fuel visited t hf
    obtain ⟨l1, rfl, hnd, hdis, hmem⟩ := flip_order_spec _ _ _ _ _ _ hr
    refine ⟨l1, v1, ?_, hnd, hdis, hmem⟩
    rw [recursiveFlip_eq, hr]
    rfl
  · intro fuel self hf
    have hu : unvisited n (set_insert self [self]) + 1 ≤ n + 1 := by
      have := unvisited_le n (set_insert self [self]); omega
    obtain ⟨r, hr⟩ := flip_order_terminates (adjacent_triangles m) n
      (adjacent_triangles_lt m n hn) (n + 1) [self] self hu
    refine ⟨flip_list m r.1, ?_, ?_⟩
    · rw [flipContiguousRegion_eq, flip_order_mono _ _ _ hf _ _ _ hr]; rfl
    · rw [flipContiguousRegion_eq, hr]; rfl

/-- C10 at a concrete input: `book_mesh`, whose adjacency is the cycle
`0 → 1 → 2 → 0`. -/
theorem C10_flood_fill_terminates_witness :
    (∀ h, (book_mesh.halfedges h).triangle < 3) ∧
    ∃ m1, flipContiguousRegion 7 book_mesh 0 = some m1 ∧
      flipContiguousRegion 4 book_mesh 0 = some m1 :=
  ⟨book_mesh_owner_lt,
    (C10_flood_fill_terminates book_mesh 3 book_mesh_owner_lt).2 7 0 (by decide)⟩

/-- C11: the ids after a flip are not the positions.  Triangle 0 of scenario A
has half-edges 0, 1, 2 with ids 0, 1, 2; after `recursiveFlip` it holds them as
`e0 = 0`, `e1 = 2`, `e2 = 1`, and their ids are 0, 3, 2. -/
theorem C11_ids_after_flip :
    mesh_A.map (fun m => ((m.triangles 0).e0, (m.triangles 0).e1, (m.triangles 0).e2))
      = some (0, 1, 2) ∧
    mesh_A.map (fun m => ((m.halfedges 0).id, (m.halfedges 1).id, (m.halfedges 2).id))
      = some (0, 1, 2) ∧
    (mesh_A.bind (fun m => recursiveFlip 1 m [] 0)).map
      (fun r => ((r.1.triangles 0).e0, (r.1.triangles 0).e1, (r.1.triangles 0).e2))
      = some (0, 2, 1) ∧
    (mesh_A.bind (fun m => recursiveFlip 1 m [] 0)).map
      (fun r => ((r.1.halfedges (r.1.triangles 0).e0).id, (r.1.halfedges (r.1.triangles 0).e1).id,
        (r.1.halfedges (r.1.triangles 0).e2).id))
      = some (0, 3, 2) := by
  decide!

/-- C12, counterexample: the triangle `(0,1,2)` built again on the mesh of
scenario B.  Its second edge is classified over-determined (half-edges run both
ways between vertices 1 and 2) and its first edge is a clean conflict, so the
repair runs.  Half-edge 7, created on the over-determined edge from 1 to 2 and
paired with half-edge 5, keeps its pairing but ends running from 2 to 1: the
repair reverses it. -/
theorem C12_over_determined_edge_is_reversed :
    (chirality_flags matched_mesh 2 0 1 2).2 = (true, false, true) ∧
    over_determined_reports matched_mesh 2 0 1 2 = [Diagnostic.over_determined 2 1] ∧
    ((entry_state opposite_pairing matched_mesh 2 2 0 1 2).triangles 2).e1 = 7 ∧
    direction (entry_state opposite_pairing matched_mesh 2 2 0 1 2) 7 = (1, 2) ∧
    ((detach_bad (entry_state opposite_pairing matched_mesh 2 2 0 1 2) 2
      true false true).halfedges 7).paired_he = some 5 ∧
    (Triangle_new opposite_pairing 4 matched_mesh 2 2 0 1 2).map
      (fun m => (direction m 7, (m.halfedges 7).paired_he, m.diagnostics))
      = some ((2, 1), some 5,
          [Diagnostic.over_determined 2 1, Diagnostic.resolving_chirality 2]) := by
  decide!

/-- C12, amended: on a finite mesh whose other triangles refer to allocated
half-edges only, a new half-edge on an edge classified over-determined has its
flag false and is never detached: its pairing is the same in the detached state
of the repair and when the constructor returns.  When the repair does not run
it keeps the direction it was created with; when the repair runs, the flip of
the new triangle reverses it once, together with the triangle's other two
half-edges. -/
theorem C12_over_determined_not_detached (pairing : Mesh → Nat → Nat → Option Nat)
    (fuel n : Nat) (m : Mesh) (self tri_id v0 v1 v2 k : Nat)
    (hn : ∀ x, (m.halfedges x).triangle < n) (hself : self < n) (hfuel : n + 1 ≤ fuel)
    (hwf : ∀ x, x ≠ self → ∀ e ∈ edges_of (m.triangles x), e < m.n_halfedges)
    (hk : k < 3)
    (hfwd : (Vertex_halfedge_to_vertex m (corner_at v0 v1 v2 k)
      (corner_at v0 v1 v2 ((k + 1) % 3))).isSome = true)
    (hbwd : (Vertex_halfedge_to_vertex m (corner_at v0 v1 v2 ((k + 1) % 3))
      (corner_at v0 v1 v2 k)).isSome = true) :
    Diagnostic.over_determined self k ∈ over_determined_reports m self v0 v1 v2 ∧
    flag_at (chirality_flags m self v0 v1 v2).2.1 (chirality_flags m self v0 v1 v2).2.2.1
      (chirality_flags m self v0 v1 v2).2.2.2 k = false ∧
    ((detach_bad (entry_state pairing m self tri_id v0 v1 v2) self
        (chirality_flags m self v0 v1 v2).2.1 (chirality_flags m self v0 v1 v2).2.2.1
        (chirality_flags m self v0 v1 v2).2.2.2).halfedges (m.n_halfedges + k)).paired_he
      = ((entry_state pairing m self tri_id v0 v1 v2).halfedges (m.n_halfedges + k)).paired_he ∧
    direction (entry_state pairing m self tri_id v0 v1 v2) (m.n_halfedges + k)
      = (corner_at v0 v1 v2 k, corner_at v0 v1 v2 ((k + 1) % 3)) ∧
    ∃ m1, Triangle_new pairing fuel m self tri_id v0 v1 v2 = some m1 ∧
      (m1.halfedges (m.n_halfedges + k)).paired_he
        = ((entry_state pairing m self tri_id v0 v1 v2).halfedges
            (m.n_halfedges + k)).paired_he ∧
      ((chirality_flags m self v0 v1 v2).2.1 = false →
        m1 = entry_state pairing m self tri_id v0 v1 v2) ∧
      ((chirality_flags m self v0 v1 v2).2.1 = true →
        m1.triangles self = Triangle.mk tri_id v1 v0 v2
          m.n_halfedges (m.n_halfedges + 2) (m.n_halfedges + 1) ∧
        ∀ j, j < 3 → direction m1 (m.n_halfedges + j)
          = (corner_at v0 v1 v2 ((j + 1) % 3), corner_at v0 v1 v2 j)) := by
  have hfl := chirality_flags_snd m self v0 v1 v2
  have f0 := congrArg Prod.fst hfl
  have f1 := congrArg (fun p => p.2.1) hfl
  have f2 := congrArg (fun p => p.2.2) hfl
  simp only at f0 f1 f2
  obtain ⟨s1, _, _, _, _⟩ := entry_state_spec pairing m self tri_id v0 v1 v2
  have hrec := s1 self
  rw [if_pos rfl] at hrec
  obtain ⟨d01, d02, d12⟩ := entry_state_distinct pairing m self tri_id v0 v1 v2
  have hedge : edge_at ((entry_state pairing m self tri_id v0 v1 v2).triangles self) k
      = m.n_halfedges + k := by
    rw [hrec]
    match k with
    | 0 => rfl
    | 1 => rfl
    | 2 => rfl
    | k + 3 => omega
  have hflag : flag_at (chirality_flags m self v0 v1 v2).2.1
      (chirality_flags m self v0 v1 v2).2.2.1 (chirality_flags m self v0 v1 v2).2.2.2 k
      = false := by
    match k with
    | 0 =>
      simp only [corner_at] at hfwd hbwd
      simp only [flag_at, f0, hfwd, hbwd]
      rfl
    | 1 =>
      simp only [corner_at] at hfwd hbwd
      simp only [flag_at, f1, hfwd, hbwd]
      rfl
    | 2 =>
      simp only [corner_at] at hfwd hbwd
      simp only [flag_at, f2, hfwd, hbwd]
      rfl
    | k + 3 => omega
  have hdet := detach_bad_paired (entry_state pairing m self tri_id v0 v1 v2) self
    (chirality_flags m self v0 v1 v2).2.1 (chirality_flags m self v0 v1 v2).2.2.1
    (chirality_flags m self v0 v1 v2).2.2.2 k d01 d02 d12
  rw [hflag, if_neg (by simp), hedge] at hdet
  refine ⟨?_, hflag, hdet, entry_state_corner_direction pairing m self tri_id v0 v1 v2 k hk, ?_⟩
  · unfold over_determined_reports
    match k with
    | 0 =>
      simp only [corner_at] at hfwd hbwd
      simp [hfwd, hbwd]
    | 1 =>
      simp only [corner_at] at hfwd hbwd
      simp [hfwd, hbwd]
    | 2 =>
      simp only [corner_at] at hfwd hbwd
      simp [hfwd, hbwd]
    | k + 3 => omega
  · by_cases hrun : (chirality_flags m self v0 v1 v2).2.1 = true
    · obtain ⟨m1, hm, ht, hd, hp⟩ := Triangle_new_repaired pairing fuel n m self tri_id
        v0 v1 v2 hn hself hfuel hwf hrun
      refine ⟨m1, hm, hp _, fun hno => ?_, fun _ => ⟨ht, hd⟩⟩
      rw [hrun] at hno
      exact absurd hno (by simp)
    · have hno : (chirality_flags m self v0 v1 v2).2.1 = false := by
        simpa using hrun
      refine ⟨_, Triangle_new_unrepaired pairing fuel m self tri_id v0 v1 v2 hno, rfl,
        fun _ => rfl, fun hyes => absurd hyes hrun⟩

/-- C12 (amended) at a concrete input: the triangle `(0,1,2)` built again on
the mesh of scenario B, edge 1 (between vertices 1 and 2) over-determined.  The
repair runs; half-edge 7 is not detached, keeps its pairing, and ends reversed,
running from 2 to 1. -/
theorem C12_over_determined_not_detached_witness :
    (chirality_flags matched_mesh 2 0 1 2).2.1 = true ∧
    (chirality_flags matched_mesh 2 0 1 2).2.2.1 = false ∧
    ((detach_bad (entry_state opposite_pairing matched_mesh 2 2 0 1 2) 2
      (chirality_flags matched_mesh 2 0 1 2).2.1 (chirality_flags matched_mesh 2 0 1 2).2.2.1
      (chirality_flags matched_mesh 2 0 1 2).2.2.2).halfedges 7).paired_he
      = ((entry_state opposite_pairing matched_mesh 2 2 0 1 2).halfedges 7).paired_he ∧
    direction (entry_state opposite_pairing matched_mesh 2 2 0 1 2) 7 = (1, 2) ∧
    ∃ m1, Triangle_new opposite_pairing 4 matched_mesh 2 2 0 1 2 = some m1 ∧
      (m1.halfedges 7).paired_he
        = ((entry_state opposite_pairing matched_mesh 2 2 0 1 2).halfedges 7).paired_he ∧
      m1.triangles 2 = Triangle.mk 2 1 0 2 6 8 7 ∧
      direction m1 7 = (2, 1) := by
  obtain ⟨_, hflag, hdet, hdir, m1, hm, hp, _, hrun⟩ := C12_over_determined_not_detached
    opposite_pairing 4 3 matched_mesh 2 2 0 1 2 1 matched_mesh_owner_lt (by decide)
    (by decide) (fun x _ => matched_mesh_edges_lt x) (by decide) (by decide) (by decide)
  have hyes : (chirality_flags matched_mesh 2 0 1 2).2.1 = true := by decide
  exact ⟨hyes, hflag, hdet, hdir, m1, hm, hp, (hrun hyes).1, (hrun hyes).2 1 (by decide)⟩

/-- C13: `flipContiguousRegion` flips the triangles reachable from the start
by following `adjacent_triangles` (the owners of the half-edges paired with a
triangle's three half-edges), each exactly once, and no other triangle.  A
returning call leaves the store obtained by the straight-line flip of each
triangle of a duplicate-free list whose members are the reachable triangles;
reachable triangles have their record swapped, the others keep theirs; and on
a finite mesh the call returns. -/
theorem C13_flood_fill_flips_reachable (m : Mesh) (self : Nat) :
    (∀ x y, y ∈ adjacent_triangles m x ↔
      ∃ e ∈ edges_of (m.triangles x), ∃ p, (m.halfedges e).paired_he = some p ∧
        (m.halfedges p).triangle = y) ∧
    (∀ fuel m1, flipContiguousRegion fuel m self = some m1 →
      ∃ l, l.Nodup ∧ (∀ x, x ∈ l ↔ Reach m self x) ∧ m1 = flip_list m l ∧
        (∀ x, Reach m self x → m1.triangles x = swap_record (m.triangles x)) ∧
        (∀ x, ¬ Reach m self x → m1.triangles x = m.triangles x)) ∧
    (∀ n, (∀ h, (m.halfedges h).triangle < n) → ∀ fuel, n + 1 ≤ fuel →
      ∃ m1, flipContiguousRegion fuel m self = some m1) := by
  refine ⟨mem_adjacent_triangles m, ?_, ?_⟩
  · intro fuel m1 h
    rw [flipContiguousRegion_eq] at h
    cases hf : flip_order (adjacent_triangles m) fuel [self] self with
    | none => simp [hf] at h
    | some r =>
      obtain ⟨l, v1⟩ := r
      rw [hf] at h
      simp only [Option.map_some', Option.some.injEq] at h
      obtain ⟨hnd, hreach⟩ := flip_order_reach _ _ _ _ _ hf
      refine ⟨l, hnd, hreach, h.symm, ?_, ?_⟩
      · intro x hx
        rw [← h, flip_list_triangles, List.count_eq_one_of_mem hnd ((hreach x).2 hx)]
        rfl
      · intro x hx
        rw [← h, flip_list_triangles,
          List.count_eq_zero_of_not_mem (fun hm => hx ((hreach x).1 hm))]
        rfl
  · intro n hn fuel hfuel
    obtain ⟨r, hr⟩ := flip_order_terminates (adjacent_triangles m) n
      (adjacent_triangles_lt m n hn) fuel [self] self
      (by have := unvisited_le n (set_insert self [self]); omega)
    exact ⟨flip_list m r.1, by rw [flipContiguousRegion_eq, hr]; rfl⟩

/-- C13 at a concrete input: in `book_mesh` the three triangles are reachable
from triangle 0 and all three are flipped. -/
theorem C13_flood_fill_flips_reachable_witness :
    (∀ h, (book_mesh.halfedges h).triangle < 3) ∧
    ∃ m1, flipContiguousRegion 4 book_mesh 0 = some m1 ∧
      ∃ l, l.Nodup ∧ (∀ x, x ∈ l ↔ Reach book_mesh 0 x) ∧ m1 = flip_list book_mesh l := by
  obtain ⟨m1, h1⟩ := (C13_flood_fill_flips_reachable book_mesh 0).2.2 3 book_mesh_owner_lt 4
    (by decide)
  obtain ⟨l, hnd, hr, hm, _⟩ := (C13_flood_fill_flips_reachable book_mesh 0).2.1 4 m1 h1
  exact ⟨book_mesh_owner_lt, m1, h1, l, hnd, hr, hm⟩

/-- C14: pairings across `resolveChirality`, for a triangle whose three
half-edges are three objects, on a finite mesh.  The call returns; a half-edge
flagged bad is detached before the flood fill and has on return the pairing it
had on entry, although the triangle now holds the old `e2` as `e1` and the old
`e1` as `e2`; a half-edge not flagged bad has its entry pairing in the detached
state, after any sequence of flips, and on return. -/
theorem C14_pairings_restored (fuel n : Nat) (m : Mesh) (self : Nat) (b0 b1 b2 : Bool)
    (hn : ∀ x, (m.halfedges x).triangle < n) (hfuel : n + 1 ≤ fuel)
    (d01 : (m.triangles self).e0 ≠ (m.triangles self).e1)
    (d02 : (m.triangles self).e0 ≠ (m.triangles self).e2)
    (d12 : (m.triangles self).e1 ≠ (m.triangles self).e2) :
    ∃ m1, resolveChirality fuel m self b0 b1 b2 = some m1 ∧
      (m1.triangles self).e0 = (m.triangles self).e0 ∧
      (m1.triangles self).e1 = (m.triangles self).e2 ∧
      (m1.triangles self).e2 = (m.triangles self).e1 ∧
      (∀ k, flag_at b0 b1 b2 k = true →
        ((detach_bad m self b0 b1 b2).halfedges (edge_at (m.triangles self) k)).paired_he = none ∧
        (m1.halfedges (edge_at (m.triangles self) k)).paired_he
          = (m.halfedges (edge_at (m.triangles self) k)).paired_he) ∧
      (∀ k, flag_at b0 b1 b2 k = false →
        ((detach_bad m self b0 b1 b2).halfedges (edge_at (m.triangles self) k)).paired_he
          = (m.halfedges (edge_at (m.triangles self) k)).paired_he ∧
        (∀ l, ((flip_list (detach_bad m self b0 b1 b2) l).halfedges
            (edge_at (m.triangles self) k)).paired_he
          = (m.halfedges (edge_at (m.triangles self) k)).paired_he) ∧
        (m1.halfedges (edge_at (m.triangles self) k)).paired_he
          = (m.halfedges (edge_at (m.triangles self) k)).paired_he) := by
  obtain ⟨m1, l1, hres, hnot, _, _, htri, _, hpair⟩ :=
    resolveChirality_pairings fuel n m self b0 b1 b2 hn hfuel d01 d02 d12
  have hts : m1.triangles self = swap_record (m.triangles self) := by
    rw [htri, List.count_cons_self, List.count_eq_zero_of_not_mem hnot]
    rfl
  refine ⟨m1, hres, by rw [hts]; rfl, by rw [hts]; rfl, by rw [hts]; rfl, ?_, ?_⟩
  · intro k hk
    refine ⟨?_, hpair _⟩
    rw [detach_bad_paired m self b0 b1 b2 k d01 d02 d12, if_pos hk]
  · intro k hk
    have hd : ((detach_bad m self b0 b1 b2).halfedges (edge_at (m.triangles self) k)).paired_he
        = (m.halfedges (edge_at (m.triangles self) k)).paired_he := by
      rw [detach_bad_paired m self b0 b1 b2 k d01 d02 d12, if_neg (by simp [hk])]
    refine ⟨hd, fun l => ?_, hpair _⟩
    rw [flip_list_paired, hd]

/-- C14 at a concrete input: the repair of the triangle `(1,2,3)` of
`conflict_mesh`, whose first edge is flagged. -/
theorem C14_pairings_restored_witness :
    ∃ m1, resolveChirality 3 conflict_mesh 1 true false false = some m1 ∧
      (m1.triangles 1).e1 = 5 ∧ (m1.triangles 1).e2 = 4 ∧
      ((detach_bad conflict_mesh 1 true false false).halfedges 3).paired_he = none ∧
      (m1.halfedges 3).paired_he = some 1 ∧
      (m1.halfedges 4).paired_he = none := by
  obtain ⟨m1, hres, _, h1, h2, hbad, hgood⟩ := C14_pairings_restored 3 2 conflict_mesh 1
    true false false conflict_mesh_owner_lt (by decide) (by decide) (by decide) (by decide)
  exact ⟨m1, hres, h1, h2, (hbad 0 rfl).1, (hbad 0 rfl).2, (hgood 1 rfl).2.2⟩

/-- C15: when each of the three edges of a new triangle is a clean conflict (a
half-edge runs the same way, none the opposite way), all three flags are set
and the repair runs with any fuel of at least one: the three pairings of the
new half-edges are detached, the detached triangle has no neighbour, the flood
fill flips it alone, and the constructor returns with one repair reported, the
new triangle holding `(v1,v0,v2)` with `e1_`/`e2_` swapped and its three
half-edges reversed once, every other triangle record and every other half-edge
direction as before. -/
theorem C15_three_conflicts_flip_once (pairing : Mesh → Nat → Nat → Option Nat)
    (fuel : Nat) (m : Mesh) (self tri_id v0 v1 v2 : Nat) (hfuel : 1 ≤ fuel)
    (c0 : (Vertex_halfedge_to_vertex m v0 v1).isSome = true)
    (r0 : Vertex_halfedge_to_vertex m v1 v0 = none)
    (c1 : (Vertex_halfedge_to_vertex m v1 v2).isSome = true)
    (r1 : Vertex_halfedge_to_vertex m v2 v1 = none)
    (c2 : (Vertex_halfedge_to_vertex m v2 v0).isSome = true)
    (r2 : Vertex_halfedge_to_vertex m v0 v2 = none) :
    (chirality_flags m self v0 v1 v2).2 = (true, true, true) ∧
    (∀ k, k < 3 → ((detach_bad (entry_state pairing m self tri_id v0 v1 v2) self
        true true true).halfedges (m.n_halfedges + k)).paired_he = none) ∧
    adjacent_triangles
      (detach_bad (entry_state pairing m self tri_id v0 v1 v2) self true true true) self = [] ∧
    flipContiguousRegion fuel
      (detach_bad (entry_state pairing m self tri_id v0 v1 v2) self true true true) self
      = some (flip_self
        (detach_bad (entry_state pairing m self tri_id v0 v1 v2) self true true true) self) ∧
    ∃ m1, Triangle_new pairing fuel m self tri_id v0 v1 v2 = some m1 ∧
      m1.triangles self = Triangle.mk tri_id v1 v0 v2
        m.n_halfedges (m.n_halfedges + 2) (m.n_halfedges + 1) ∧
      (∀ x, x ≠ self → m1.triangles x = m.triangles x) ∧
      (direction m1 m.n_halfedges = (v1, v0) ∧ direction m1 (m.n_halfedges + 1) = (v2, v1) ∧
        direction m1 (m.n_halfedges + 2) = (v0, v2)) ∧
      (∀ h, h ≠ m.n_halfedges → h ≠ m.n_halfedges + 1 → h ≠ m.n_halfedges + 2 →
        direction m1 h = direction m h) ∧
      m1.diagnostics = m.diagnostics ++ [Diagnostic.resolving_chirality self] := by
  obtain ⟨f, rfl⟩ : ∃ f, fuel = f + 1 := ⟨fuel - 1, by omega⟩
  have hfl : (chirality_flags m self v0 v1 v2).2 = (true, true, true) := by
    rw [chirality_flags_snd, c0, c1, c2, r0, r1, r2]
    rfl
  have f0 : (chirality_flags m self v0 v1 v2).2.1 = true := congrArg Prod.fst hfl
  have f1 : (chirality_flags m self v0 v1 v2).2.2.1 = true :=
    congrArg (fun p => p.2.1) hfl
  have f2 : (chirality_flags m self v0 v1 v2).2.2.2 = true :=
    congrArg (fun p => p.2.2) hfl
  have hrep : over_determined_reports m self v0 v1 v2 = [] := by
    simp [over_determined_reports, r0, r1, r2]
  obtain ⟨s1, _, s3, _, s5⟩ := entry_state_spec pairing m self tri_id v0 v1 v2
  have hself := s1 self
  rw [if_pos rfl] at hself
  obtain ⟨d01, d02, d12⟩ := entry_state_distinct pairing m self tri_id v0 v1 v2
  have hadj := adjacent_triangles_all_detached
    (entry_state pairing m self tri_id v0 v1 v2) self d01 d02 d12
  obtain ⟨hflip, m2, hr, t2, dir2, _, dg2, vx2⟩ := resolveChirality_isolated f
    (entry_state pairing m self tri_id v0 v1 v2) self true true true hadj
  have hres := Triangle_new_entry pairing (f + 1) m self tri_id v0 v1 v2
  rw [f0, f1, f2, if_pos rfl, hr] at hres
  simp only [Option.map_some'] at hres
  have t2self : m2.triangles self = Triangle.mk tri_id v1 v0 v2
      m.n_halfedges (m.n_halfedges + 2) (m.n_halfedges + 1) := by
    rw [t2, if_pos rfl, hself]
    rfl
  have hchk : check_attachment m2 self = m2 := by
    apply check_attachment_passes <;> rw [t2self, vx2]
    · exact ((s5 v1).2.1 self).2 (Or.inr ⟨rfl, Or.inr (Or.inl rfl)⟩)
    · exact ((s5 v0).2.1 self).2 (Or.inr ⟨rfl, Or.inl rfl⟩)
    · exact ((s5 v2).2.1 self).2 (Or.inr ⟨rfl, Or.inr (Or.inr rfl)⟩)
  rw [hchk] at hres
  have hdir : ∀ h, direction m2 h =
      if h = m.n_halfedges then (v1, v0)
      else if h = m.n_halfedges + 1 then (v2, v1)
      else if h = m.n_halfedges + 2 then (v0, v2)
      else direction m h := by
    intro h
    rw [dir2, entry_state_flip_direction]
  refine ⟨hfl, ?_, hadj, hflip, m2, hres, t2self, ?_, ⟨?_, ?_, ?_⟩, ?_, ?_⟩
  · intro k hk
    have p := detach_bad_paired (entry_state pairing m self tri_id v0 v1 v2) self
      true true true k d01 d02 d12
    rw [hself] at p
    match k with
    | 0 => exact p
    | 1 => exact p
    | 2 => exact p
    | k + 3 => omega
  · intro x hx
    rw [t2, if_neg hx, s1, if_neg hx]
  · rw [hdir, if_pos rfl]
  · rw [hdir, if_neg (by omega), if_pos rfl]
  · rw [hdir, if_neg (by omega), if_neg (by omega), if_pos rfl]
  · intro h h0 h1 h2
    rw [hdir, if_neg h0, if_neg h1, if_neg h2]
  · rw [dg2, s3, hrep, List.append_nil]

/-- C15 at a concrete input: the triangle `(0,1,2)` built a second time on the
mesh of scenario A.  Each of its edges meets the same-direction half-edge of
triangle 0 and none in the opposite direction; with fuel 1 the constructor
returns the new triangle as `(1,0,2)` and leaves triangle 0 alone. -/
theorem C15_three_conflicts_flip_once_witness :
    mesh_A.map (fun m => snapshot m 1 3 3) = some (snapshot single_mesh 1 3 3) ∧
    ∃ m1, Triangle_new opposite_pairing 1 single_mesh 1 1 0 1 2 = some m1 ∧
      m1.triangles 1 = Triangle.mk 1 1 0 2 3 5 4 ∧
      m1.triangles 0 = single_mesh.triangles 0 ∧
      direction m1 3 = (1, 0) ∧ direction m1 0 = (0, 1) ∧
      m1.diagnostics = [Diagnostic.resolving_chirality 1] := by
  obtain ⟨_, _, _, _, m1, hm, h1, h2, h3, h4, h5⟩ := C15_three_conflicts_flip_once
    opposite_pairing 1 single_mesh 1 1 0 1 2 (by decide) (by decide) (by decide) (by decide)
    (by decide) (by decide) (by decide)
  exact ⟨single_mesh_is_mesh_A, m1, hm, h1, h2 0 (by decide), h3.1,
    h4 0 (by decide) (by decide) (by decide), h5⟩

/-- C16: when the constructor does not call the repair (the flag of the first
edge, the one it tests at line 43, is false) it returns, for every fuel, the
store reached after the three `createHalfedge` calls: each of `v0`, `v1`, `v2`
has the new triangle in its incident-triangle set and has registered the new
half-edge that starts at it and is owned by the triangle, so
`legal_attachment_to_tri` is true for all three and no vertex error is
reported (the reports added are the over-determined ones only).  And
`createHalfedge` preserves the vertex invariant (incident triangles = owners of
the registered outgoing half-edges) on every store whose registered half-edges
are allocated objects. -/
theorem C16_vertices_register_triangle (pairing : Mesh → Nat → Nat → Option Nat)
    (fuel : Nat) (m : Mesh) (self tri_id v0 v1 v2 : Nat)
    (hflag : (chirality_flags m self v0 v1 v2).2.1 = false) :
    (∃ m1, Triangle_new pairing fuel m self tri_id v0 v1 v2 = some m1 ∧
      (self ∈ (m1.vertices v0).tris ∧ self ∈ (m1.vertices v1).tris ∧
        self ∈ (m1.vertices v2).tris) ∧
      (m.n_halfedges ∈ (m1.vertices v0).halfedges ∧
        (m1.halfedges m.n_halfedges).v0 = v0 ∧
        (m1.halfedges m.n_halfedges).triangle = self) ∧
      (m.n_halfedges + 1 ∈ (m1.vertices v1).halfedges ∧
        (m1.halfedges (m.n_halfedges + 1)).v0 = v1 ∧
        (m1.halfedges (m.n_halfedges + 1)).triangle = self) ∧
      (m.n_halfedges + 2 ∈ (m1.vertices v2).halfedges ∧
        (m1.halfedges (m.n_halfedges + 2)).v0 = v2 ∧
        (m1.halfedges (m.n_halfedges + 2)).triangle = self) ∧
      (Vertex_legal_attachment_to_tri m1 (m1.triangles self).v0 self = true ∧
        Vertex_legal_attachment_to_tri m1 (m1.triangles self).v1 self = true ∧
        Vertex_legal_attachment_to_tri m1 (m1.triangles self).v2 self = true) ∧
      m1.diagnostics = m.diagnostics ++ over_determined_reports m self v0 v1 v2 ∧
      Diagnostic.vertex_error self ∉ over_determined_reports m self v0 v1 v2) ∧
    ∀ (m0 : Mesh) (t a b c id : Nat), registered_allocated m0 → vertex_invariant m0 →
      vertex_invariant (createHalfedge pairing m0 t a b c id).1 ∧
      registered_allocated (createHalfedge pairing m0 t a b c id).1 := by
  refine ⟨?_, fun m0 t a b c id hreg hinv =>
    createHalfedge_vertex_invariant pairing m0 t a b c id hreg hinv⟩
  have hres := Triangle_new_entry pairing fuel m self tri_id v0 v1 v2
  rw [hflag] at hres
  simp only [Bool.false_eq_true, if_false, Option.map_some'] at hres
  obtain ⟨s1, _, s3, s4, s5⟩ := entry_state_spec pairing m self tri_id v0 v1 v2
  have hself := s1 self
  rw [if_pos rfl] at hself
  have i0 : self ∈ ((entry_state pairing m self tri_id v0 v1 v2).vertices v0).tris :=
    ((s5 v0).2.1 self).2 (Or.inr ⟨rfl, Or.inl rfl⟩)
  have i1 : self ∈ ((entry_state pairing m self tri_id v0 v1 v2).vertices v1).tris :=
    ((s5 v1).2.1 self).2 (Or.inr ⟨rfl, Or.inr (Or.inl rfl)⟩)
  have i2 : self ∈ ((entry_state pairing m self tri_id v0 v1 v2).vertices v2).tris :=
    ((s5 v2).2.1 self).2 (Or.inr ⟨rfl, Or.inr (Or.inr rfl)⟩)
  have hchk : check_attachment (entry_state pairing m self tri_id v0 v1 v2) self
      = entry_state pairing m self tri_id v0 v1 v2 := by
    apply check_attachment_passes
    · rw [hself]; exact i0
    · rw [hself]; exact i1
    · rw [hself]; exact i2
  rw [hchk] at hres
  have e0 := unpaired_fields _ _ (s4 m.n_halfedges)
  have e1 := unpaired_fields _ _ (s4 (m.n_halfedges + 1))
  have e2 := unpaired_fields _ _ (s4 (m.n_halfedges + 2))
  rw [if_pos rfl] at e0
  rw [if_neg (by omega), if_pos rfl] at e1
  rw [if_neg (by omega), if_neg (by omega), if_pos rfl] at e2
  refine ⟨_, hres, ⟨i0, i1, i2⟩, ⟨?_, e0.2.1, e0.2.2.2.2⟩, ⟨?_, e1.2.1, e1.2.2.2.2⟩,
    ⟨?_, e2.2.1, e2.2.2.2.2⟩, ?_, s3, vertex_error_not_over_determined m self v0 v1 v2 self⟩
  · exact ((s5 v0).2.2.2 _).2 (Or.inr (Or.inl ⟨rfl, rfl⟩))
  · exact ((s5 v1).2.2.2 _).2 (Or.inr (Or.inr (Or.inl ⟨rfl, rfl⟩)))
  · exact ((s5 v2).2.2.2 _).2 (Or.inr (Or.inr (Or.inr ⟨rfl, rfl⟩)))
  · rw [hself]
    unfold Vertex_legal_attachment_to_tri
    exact ⟨decide_eq_true i0, decide_eq_true i1, decide_eq_true i2⟩

/-- C16 at a concrete input: the triangle `(1,0,4)` added to the mesh of
scenario B, whose vertex sets satisfy the invariant; no repair is triggered,
vertices 1, 0 and 4 hold triangle 2 and the half-edges 6, 7, 8, and the first
`createHalfedge` call of that construction keeps the invariant. -/
theorem C16_vertices_register_triangle_witness :
    (chirality_flags matched_mesh 2 1 0 4).2.1 = false ∧
    (∃ m1, Triangle_new opposite_pairing 0 matched_mesh 2 2 1 0 4 = some m1 ∧
      2 ∈ (m1.vertices 1).tris ∧ 2 ∈ (m1.vertices 0).tris ∧ 2 ∈ (m1.vertices 4).tris ∧
      6 ∈ (m1.vertices 1).halfedges ∧ 7 ∈ (m1.vertices 0).halfedges ∧
      8 ∈ (m1.vertices 4).halfedges ∧ m1.diagnostics = []) ∧
    vertex_invariant matched_mesh ∧
    vertex_invariant (createHalfedge opposite_pairing matched_mesh 2 1 0 4 0).1 := by
  obtain ⟨⟨m1, hm, ht, h6, h7, h8, _, hd, _⟩, hc⟩ := C16_vertices_register_triangle
    opposite_pairing 0 matched_mesh 2 2 1 0 4 (by decide)
  refine ⟨by decide, ⟨m1, hm, ht.1, ht.2.1, ht.2.2, h6.1, h7.1, h8.1, ?_⟩,
    matched_mesh_vertex_invariant.1,
    (hc matched_mesh 2 1 0 4 0 matched_mesh_vertex_invariant.2.1
      matched_mesh_vertex_invariant.1).1⟩
  rw [hd]
  decide

/-- C17: `createHalfedge(v0, v1, ...)` adds `v1` to the adjacent-vertex set of
`v0` and `v0` to that of `v1`, and keeps a symmetric adjacency symmetric; on a
finite mesh with enough fuel the constructor returns a store in which the
adjacency is symmetric if it was symmetric before, and in which the three
vertices of the new triangle are pairwise adjacent in both directions. -/
theorem C17_adjacency_stays_symmetric (pairing : Mesh → Nat → Nat → Option Nat)
    (fuel n : Nat) (m : Mesh) (self tri_id v0 v1 v2 : Nat)
    (hn : ∀ x, (m.halfedges x).triangle < n) (hself : self < n) (hfuel : n + 1 ≤ fuel) :
    (∀ (m0 : Mesh) (t a b c id : Nat),
      b ∈ ((createHalfedge pairing m0 t a b c id).1.vertices a).vertices ∧
      a ∈ ((createHalfedge pairing m0 t a b c id).1.vertices b).vertices ∧
      (adjacency_symmetric m0 →
        adjacency_symmetric (createHalfedge pairing m0 t a b c id).1)) ∧
    ∃ m1, Triangle_new pairing fuel m self tri_id v0 v1 v2 = some m1 ∧
      (adjacency_symmetric m → adjacency_symmetric m1) ∧
      (v1 ∈ (m1.vertices v0).vertices ∧ v0 ∈ (m1.vertices v1).vertices) ∧
      (v2 ∈ (m1.vertices v1).vertices ∧ v1 ∈ (m1.vertices v2).vertices) ∧
      (v0 ∈ (m1.vertices v2).vertices ∧ v2 ∈ (m1.vertices v0).vertices) := by
  constructor
  · intro m0 t a b c id
    have w := fun v => (createHalfedge_vertices pairing m0 t a b c id v).2.2.1
    refine ⟨(w a b).2 (Or.inr (Or.inl ⟨rfl, rfl⟩)), (w b a).2 (Or.inr (Or.inr ⟨rfl, rfl⟩)), ?_⟩
    intro hsym x y hy
    rw [w] at hy ⊢
    rcases hy with hy | ⟨rfl, rfl⟩ | ⟨rfl, rfl⟩
    · exact Or.inl (hsym x y hy)
    · exact Or.inr (Or.inr ⟨rfl, rfl⟩)
    · exact Or.inr (Or.inl ⟨rfl, rfl⟩)
  · obtain ⟨m1, hm, hv⟩ := Triangle_new_vertices pairing fuel n m self tri_id v0 v1 v2
      hn hself hfuel
    obtain ⟨_, _, _, _, s5⟩ := entry_state_spec pairing m self tri_id v0 v1 v2
    have w : ∀ v x, x ∈ (m1.vertices v).vertices ↔
        x ∈ (m.vertices v).vertices ∨ (v = v0 ∧ (x = v1 ∨ x = v2)) ∨
          (v = v1 ∧ (x = v0 ∨ x = v2)) ∨ (v = v2 ∧ (x = v0 ∨ x = v1)) := by
      intro v x
      rw [hv]
      exact (s5 v).2.2.1 x
    refine ⟨m1, hm, ?_, ⟨?_, ?_⟩, ⟨?_, ?_⟩, ⟨?_, ?_⟩⟩
    · intro hsym x y hy
      rw [w] at hy ⊢
      rcases hy with hy | ⟨rfl, rfl | rfl⟩ | ⟨rfl, rfl | rfl⟩ | ⟨rfl, rfl | rfl⟩
      · exact Or.inl (hsym x y hy)
      all_goals simp
    all_goals rw [w]; simp

/-- C17 at a concrete input: the triangle `(0,1,4)` added to the mesh of
scenario B, whose adjacency is symmetric; its first edge is a clean conflict,
so the repair runs, and the result is symmetric with vertex 4 adjacent to 0 and
1 in both directions. -/
theorem C17_adjacency_stays_symmetric_witness :
    adjacency_symmetric matched_mesh ∧
    (chirality_flags matched_mesh 2 0 1 4).2.1 = true ∧
    ∃ m1, Triangle_new opposite_pairing 4 matched_mesh 2 2 0 1 4 = some m1 ∧
      adjacency_symmetric m1 ∧
      4 ∈ (m1.vertices 1).vertices ∧ 1 ∈ (m1.vertices 4).vertices ∧
      0 ∈ (m1.vertices 4).vertices ∧ 4 ∈ (m1.vertices 0).vertices := by
  obtain ⟨_, m1, hm, hsym, _, h12, h20⟩ := C17_adjacency_stays_symmetric opposite_pairing
    4 3 matched_mesh 2 2 0 1 4 matched_mesh_owner_lt (by decide) (by decide)
  exact ⟨matched_mesh_vertex_invariant.2.2, by decide, m1, hm,
    hsym matched_mesh_vertex_invariant.2.2, h12.1, h12.2, h20.1, h20.2⟩

end Pybug
